import Mathlib

/-!
# The predict API (`src/c_api/c_predict_api.cc`, `src/c_api/c_api_common.h`)

A shallow embedding of the predictor session engine.

* A C function that is wrapped in `API_BEGIN()` / `API_END()` either returns `0`,
  or catches a `dmlc::Error` and returns `-1`.  A failed `CHECK`, `LOG(FATAL)` and a
  rethrown `InferShapeError` all raise `dmlc::Error`; they are `Fault.error`.
* Indexing a `std::vector` or a caller array out of range has no defined behaviour;
  it is `Fault.undefined`, so that "the call succeeds" and "the call fails with a
  status" both exclude it.
* A C array passed with its element count is a `List`; a `const char*` is a `String`
  that is read up to its first NUL character (`c_str`).
* The profiling hooks `on_enter_api`, `on_exit_api`, `upr::start_span` and
  `upr::stop_span` do not touch the session and are left out, and so are the calls
  `MXListAllOpNames` and `cudaFree(0)`, which only initialise the library.
* What the tensor/graph library does (JSON parsing, shape inference, binding) is
  not part of these files; it is the parameter `Library`.
-/

namespace MXPredict

/-! ## Outcomes -/

/-- How a block of the API can stop early. -/
inductive Fault where
  /-- a `dmlc::Error` was thrown (`CHECK`, `LOG(FATAL)`); the API returns `-1` -/
  | error (msg : String)
  /-- an out-of-range access; the behaviour is undefined -/
  | undefined
deriving DecidableEq

/-- Return status of an API call. -/
inductive Status where
  /-- the call returned `0` -/
  | success
  /-- the call returned `-1` (`MXAPIHandleException`) -/
  | failure (msg : String)
  /-- the call ran into undefined behaviour -/
  | undefined
deriving DecidableEq

/-- Status after a fault was caught by `API_END`. -/
def Fault.toStatus : Fault → Status
  | .error msg => .failure msg
  | .undefined => .undefined

/-- The C return value is non-zero. -/
def Status.isFailure : Status → Bool
  | .failure _ => true
  | _ => false

/-! ## Strings -/

/-- The characters of `s.c_str()` as a C string: up to the first NUL. -/
def c_str (s : String) : List Char :=
  s.toList.takeWhile (fun c => c ≠ Char.ofNat 0)

/-- `std::string(p)` for a `const char* p`. -/
def std_string (p : String) : String :=
  String.mk (c_str p)

/-- `strncmp(a.c_str(), b.c_str(), n) == 0`. -/
def strncmp_eq (a b : String) (n : Nat) : Bool :=
  (c_str a).take n == (c_str b).take n

/-- `std::string(s.c_str() + n)`, used after `strncmp` found `n` equal characters. -/
def c_str_from (s : String) (n : Nat) : String :=
  String.mk ((c_str s).drop n)

/-! ## Shapes, contexts, tensors -/

/-- Element type `mx_float`, kept as the bit pattern of the value. -/
abbrev mx_float := Nat

/-- Shape `TShape`: the dimensions in order; no dimension is the unknown shape `TShape()`. -/
structure TShape where
  dims : List Nat
deriving DecidableEq

/-- Number of dimensions. -/
def TShape.ndim (s : TShape) : Nat := s.dims.length

/-- Modelled from the spec: `TShape::Size()` is code of nnvm, which is not among the sources.
It is the number of elements ("element count"), the product of the dimensions.  The product
is not reduced modulo `2 ^ 64`, so it is the `size_t` value that the code holds only for
shapes with fewer than `2 ^ 64` elements. -/
def TShape.Size (s : TShape) : Nat := s.dims.prod

/-- `nnvm::ShapeTypeCast` into a `uint32_t` buffer: every dimension is cast to 32 bits. -/
def ShapeTypeCast (s : TShape) : List Nat :=
  s.dims.map (fun d => d % 2 ^ 32)

/-- Device context: device type and device id. -/
structure Context where
  dev_type : Int
  dev_id : Int
deriving DecidableEq

/-- `Context::Create(dev_type, dev_id)`. -/
def Context.Create (dev_type dev_id : Int) : Context := ⟨dev_type, dev_id⟩

/-- The default-constructed `Context()`: CPU, device 0. -/
def Context.init : Context := ⟨1, 0⟩

/-- Tensor handle `NDArray`: its shape, its context and its values. -/
structure NDArray where
  shape : TShape
  ctx : Context
  data : List mx_float
deriving DecidableEq

/-- Modelled from the spec: `NDArray(shape, ctx)` is missing from the sources; it is to
"allocate zero-initialized device memory at the inferred shape". -/
def NDArray.alloc (shape : TShape) (ctx : Context) : NDArray :=
  ⟨shape, ctx, List.replicate shape.Size 0⟩

/-- Modelled from the spec: `CopyFromTo` is missing from the sources; it is to "copy it into
device memory at the inferred shape": the destination keeps shape and context and takes the
values; a source of another shape does not fit the destination and is an error. -/
def CopyFromTo (src dst : NDArray) : Except Fault NDArray :=
  if src.shape = dst.shape then .ok { dst with data := src.data }
  else .error (.error "operands shape mismatch")

/-- Modelled from the spec: `NDArray::ReshapeAndAlloc` is missing from the sources; it is to
"reallocate its device tensor to the new shape and free the old allocation". -/
def NDArray.ReshapeAndAlloc (nd : NDArray) (shape : TShape) : NDArray :=
  { nd with shape := shape, data := List.replicate shape.Size 0 }

/-- Modelled from the spec: `NDArray::SyncCopyFromCPU` is missing from the sources; it "copies
`size` elements from host memory into the bound device tensor — the tensor's allocated
capacity must already match `size` (no implicit reshape here)".  The host buffer and its
element count are the list `data`. -/
def NDArray.SyncCopyFromCPU (nd : NDArray) (data : List mx_float) : Except Fault NDArray :=
  if nd.shape.Size = data.length then .ok { nd with data := data }
  else .error (.error "Memory size do not match")

/-- Modelled from the spec: `NDArray::SyncCopyToCPU` is missing from the sources; it copies the
tensor's values into a host buffer of `size` elements, which must be the tensor's element
count. -/
def NDArray.SyncCopyToCPU (nd : NDArray) (size : Nat) : Except Fault (List mx_float) :=
  if nd.shape.Size = size then .ok nd.data
  else .error (.error "Memory size do not match")

/-! ## `std::unordered_map<std::string, V>` -/

/-- An unordered map with string keys, as an association list with one entry per key. -/
structure UnorderedMap (V : Type) where
  entries : List (String × V)

/-- The empty map. -/
def UnorderedMap.empty {V : Type} : UnorderedMap V := ⟨[]⟩

/-- `m.find(k)`: the mapped value, or `none` for `m.end()`. -/
def UnorderedMap.find {V : Type} (m : UnorderedMap V) (k : String) : Option V :=
  m.entries.lookup k

/-- `m.count(k)`. -/
def UnorderedMap.count {V : Type} (m : UnorderedMap V) (k : String) : Nat :=
  if (m.find k).isSome then 1 else 0

/-- `m[k] = v`: insert or overwrite. -/
def UnorderedMap.assign {V : Type} (m : UnorderedMap V) (k : String) (v : V) : UnorderedMap V :=
  ⟨(k, v) :: m.entries.filter (fun e => e.1 ≠ k)⟩

/-- The keys of the map. -/
def UnorderedMap.keys {V : Type} (m : UnorderedMap V) : List String :=
  m.entries.map Prod.fst

/-! ## Loops -/

/-- Run `body i` for `i = start, start + 1, ..., start + count - 1`, stopping at a fault. -/
def loopFrom {σ : Type} (body : Nat → σ → Except Fault σ) : Nat → Nat → σ → Except Fault σ
  | _, 0, s => .ok s
  | start, count + 1, s =>
    match body start s with
    | .error e => .error e
    | .ok s' => loopFrom body (start + 1) count s'

/-- The loop `for (size_t i = 0; i < n; ++i) body`. -/
def forLoop {σ : Type} (n : Nat) (body : Nat → σ → Except Fault σ) (s : σ) : Except Fault σ :=
  loopFrom body 0 n s

/-- The range-based loop `for (x : xs) body`. -/
def forEach {α σ : Type} (body : α → σ → Except Fault σ) : List α → σ → Except Fault σ
  | [], s => .ok s
  | x :: xs, s =>
    match body x s with
    | .error e => .error e
    | .ok s' => forEach body xs s'

/-! ## Graphs -/

/-- The part of `nnvm::IndexedGraph` that `CopyAttr` reads. -/
structure IndexedGraph where
  /-- node ids of the variable nodes, in graph order -/
  input_nodes : List Nat
  /-- node ids of the variable nodes that an operator mutates (auxiliary states) -/
  mutable_input_nodes : List Nat
  /-- entry id of output `index` of node `nid` -/
  entry_id : Nat → Nat → Nat
  /-- the output entries (node id, output index) -/
  outputs : List (Nat × Nat)
  /-- number of entries, the length of every attribute vector of the graph -/
  num_node_entries : Nat

/-- A graph `nnvm::Symbol`: the indexed graph of its outputs and the names in it. -/
structure Symbol where
  idx : IndexedGraph
  /-- name of the node with a given id -/
  node_name : Nat → String
  /-- names of the outputs, `ListOutputNames()` -/
  output_names : List String

/-- The default-constructed `Symbol()`: no outputs, hence no nodes. -/
def Symbol.init : Symbol :=
  { idx := { input_nodes := [], mutable_input_nodes := [], entry_id := fun _ _ => 0
             outputs := [], num_node_entries := 0 }
    node_name := fun _ => ""
    output_names := [] }

/-- Which inputs `ListInputNames` lists. -/
inductive ListInputOption where
  | kAll
  | kReadOnlyArgs
  | kAuxiliaryStates
deriving DecidableEq

/-- Names of the variable nodes in graph order: all of them, those no operator mutates,
or those some operator mutates (`Symbol::ListInputNames`). -/
def Symbol.ListInputNames (sym : Symbol) : ListInputOption → List String
  | .kAll => sym.idx.input_nodes.map sym.node_name
  | .kReadOnlyArgs =>
    (sym.idx.input_nodes.filter (fun nid => sym.idx.mutable_input_nodes.count nid = 0)).map
      sym.node_name
  | .kAuxiliaryStates =>
    (sym.idx.input_nodes.filter (fun nid => sym.idx.mutable_input_nodes.count nid ≠ 0)).map
      sym.node_name

/-- `Symbol::ListOutputNames`. -/
def Symbol.ListOutputNames (sym : Symbol) : List String := sym.output_names

/-- The bound executor, as far as the predict API reads it: its output tensors. -/
structure Executor where
  outputs : List NDArray

/-- What the tensor and graph library does; none of it is in these sources. -/
structure Library where
  /-- `upr::UPR_ENABLED`: parameters come from the external parameter source -/
  UPR_ENABLED : Bool
  /-- whether `MXNET_USE_CUDA` is defined -/
  MXNET_USE_CUDA : Bool
  /-- `upr::get_model_name()` -/
  get_model_name : String
  /-- `upr::Load(model_name, &data, &names)`: handle id, model id, tensors, names -/
  upr_Load : String → Except String (String × String × List NDArray × List String)
  /-- `NDArray::Load(&fi, &data, &names)` on the parameter bytes -/
  NDArray_Load : List Nat → Except String (List NDArray × List String)
  /-- the pass `LoadLegacyJSON` on the JSON text -/
  LoadLegacyJSON : String → Except String Symbol
  /-- `Symbol::GetInternals` -/
  GetInternals : Symbol → Symbol
  /-- `Symbol::operator[]`: the symbol of one output -/
  index : Symbol → Nat → Symbol
  /-- `Symbol::CreateGroup` -/
  CreateGroup : List Symbol → Symbol
  /-- `mxnet::exec::InferShape` over the graph, given one shape per input: the shape of
  every entry and `shape_num_unknown_nodes`, or an error -/
  InferShape : Symbol → List TShape → Except String (List TShape × Nat)
  /-- `Executor::Bind` with null gradient requests and an optional executor to reuse -/
  Bind : Symbol → Context → List NDArray → List NDArray → Option Executor →
    Except String Executor

/-- `CopyAttr`, loop over `idx.input_nodes()`: an input that is not mutable goes to `in_attr`,
a mutable one to `aux_attr`. -/
def CopyAttr_inputs {α : Type} (idx : IndexedGraph) (attr_vec : List α) (nid : Nat)
    (acc : List α × List α) : Except Fault (List α × List α) :=
  match attr_vec[idx.entry_id nid 0]? with
  | none => .error .undefined
  | some a =>
    if idx.mutable_input_nodes.count nid = 0 then .ok (acc.1 ++ [a], acc.2)
    else .ok (acc.1, acc.2 ++ [a])

/-- `CopyAttr`, loop over `idx.outputs()`. -/
def CopyAttr_outputs {α : Type} (idx : IndexedGraph) (attr_vec : List α) (e : Nat × Nat)
    (out_attr : List α) : Except Fault (List α) :=
  match attr_vec[idx.entry_id e.1 e.2]? with
  | none => .error .undefined
  | some a => .ok (out_attr ++ [a])

/-- `CopyAttr`: copy attributes from the inferred vector back to the vector of each type;
the result is `(in_attr, out_attr, aux_attr)`. -/
def CopyAttr {α : Type} (idx : IndexedGraph) (attr_vec : List α) :
    Except Fault (List α × List α × List α) :=
  match forEach (CopyAttr_inputs idx attr_vec) idx.input_nodes ([], []) with
  | .error e => .error e
  | .ok (in_attr, aux_attr) =>
    match forEach (CopyAttr_outputs idx attr_vec) idx.outputs [] with
    | .error e => .error e
    | .ok out_attr => .ok (in_attr, out_attr, aux_attr)

/-! ## The predictor -/

/-- The predictor `MXAPIPredictor`, with the fields of both of its declarations. -/
structure MXAPIPredictor where
  /-- output arrays -/
  out_arrays : List NDArray
  /-- argument arrays -/
  arg_arrays : List NDArray
  /-- auxiliary arrays -/
  aux_arrays : List NDArray
  /-- output shapes -/
  out_shapes : List TShape
  /-- uint32_t buffer for output shapes -/
  out_shapes_buffer : List Nat
  /-- key to arguments -/
  key2arg : UnorderedMap Nat
  /-- executor -/
  exec : Option Executor
  /-- symbol -/
  sym : Symbol
  /-- Context -/
  ctx : Context
  /-- handle id -/
  handle_id : String
  /-- model name -/
  model_name : String
  /-- model id to be used when opening / closing -/
  model_id : String

/-- The predictor made by `new MXAPIPredictor()`. -/
def MXAPIPredictor.init : MXAPIPredictor :=
  { out_arrays := [], arg_arrays := [], aux_arrays := [], out_shapes := []
    out_shapes_buffer := [], key2arg := UnorderedMap.empty, exec := none
    sym := Symbol.init, ctx := Context.init
    handle_id := "", model_name := "", model_id := "" }

/-- What an API call leaves behind: the status, the predictor behind `handle` after the
call, and the value written through the output pointer, if one was written. -/
structure ApiReturn (α : Type) where
  status : Status
  handle : MXAPIPredictor
  out : Option α

/-! ## `MXPredCreatePartialOut` -/

/-- The search `for (size_t j = 0; j < all_out.size(); ++j)` for `out_key`, from position `j`
with `count` positions left: the first position that holds `out_key` (then `break`);
`CHECK_NE(j, all_out.size() - 1)` fails when the last position does not hold it. -/
def searchOutput (all_out : List String) (out_key : String) :
    Nat → Nat → Except Fault (Option Nat)
  | _, 0 => .ok none
  | j, count + 1 =>
    match all_out[j]? with
    | none => .error .undefined
    | some name =>
      if name = out_key then .ok (some j)
      else if j = all_out.length - 1 then
        .error (.error ("didn't find node name: " ++ out_key))
      else searchOutput all_out out_key (j + 1) count

/-- Body of the loop over the requested output keys: `out_syms[i] = internal[j]`. -/
def selectOutput_body (lib : Library) (internal : Symbol) (all_out : List String)
    (output_keys : List String) (i : Nat) (out_syms : List Symbol) :
    Except Fault (List Symbol) :=
  match output_keys[i]? with
  | none => .error .undefined
  | some key =>
    match searchOutput all_out (std_string key ++ "_output") 0 all_out.length with
    | .error e => .error e
    | .ok none => .ok out_syms
    | .ok (some j) => .ok (out_syms.set i (lib.index internal j))

/-- The block `if (num_output_nodes != 0)`: regroup the graph by the requested outputs. -/
def selectOutputs (lib : Library) (sym : Symbol) (output_keys : List String) :
    Except Fault Symbol :=
  if output_keys.length ≠ 0 then
    let internal := lib.GetInternals sym
    let all_out := internal.ListOutputNames
    match forLoop output_keys.length (selectOutput_body lib internal all_out output_keys)
        (List.replicate output_keys.length Symbol.init) with
    | .error e => .error e
    | .ok out_syms => .ok (lib.CreateGroup out_syms)
  else .ok sym

/-- Body of the loop over the loaded names: an entry `aux:name` or `arg:name` is kept in its
map when the graph declares `name`.  The state is `(arg_params, aux_params)`. -/
def loadParams_body (arg_names aux_names : List String) (names : List String)
    (data : List NDArray) (i : Nat) (s : UnorderedMap NDArray × UnorderedMap NDArray) :
    Except Fault (UnorderedMap NDArray × UnorderedMap NDArray) :=
  match names[i]?, data[i]? with
  | some nm, some d =>
    let aux_params :=
      if strncmp_eq nm "aux:" 4 then
        if aux_names.count (c_str_from nm 4) ≠ 0 then s.2.assign (c_str_from nm 4) d else s.2
      else s.2
    let arg_params :=
      if strncmp_eq nm "arg:" 4 then
        if arg_names.count (c_str_from nm 4) ≠ 0 then s.1.assign (c_str_from nm 4) d else s.1
      else s.1
    .ok (arg_params, aux_params)
  | _, _ => .error .undefined

/-- The split of the loaded parameters, after `CHECK_EQ(names.size(), data.size())`; the
result is `(arg_params, aux_params)`. -/
def loadParams (sym : Symbol) (data : List NDArray) (names : List String) :
    Except Fault (UnorderedMap NDArray × UnorderedMap NDArray) :=
  let arg_names := sym.ListInputNames .kReadOnlyArgs
  let aux_names := sym.ListInputNames .kAuxiliaryStates
  if names.length = data.length then
    forLoop names.length (loadParams_body arg_names aux_names names data)
      (UnorderedMap.empty, UnorderedMap.empty)
  else .error (.error "Invalid param file format")

/-- Body of the loop that fills the shape table:
`table[input_keys[i]] = TShape(data + indptr[i], data + indptr[i + 1])`. -/
def shapeTable_body (input_keys : List String) (input_shape_indptr input_shape_data : List Nat)
    (i : Nat) (table : UnorderedMap TShape) : Except Fault (UnorderedMap TShape) :=
  match input_keys[i]?, input_shape_indptr[i]?, input_shape_indptr[i + 1]? with
  | some key, some b, some e =>
    if b ≤ e ∧ e ≤ input_shape_data.length then
      .ok (table.assign (std_string key) ⟨(input_shape_data.drop b).take (e - b)⟩)
    else .error .undefined
  | _, _, _ => .error .undefined

/-- The table `known_shape` of Create and `new_shape` of Reshape. -/
def shapeTable (input_keys : List String) (input_shape_indptr input_shape_data : List Nat) :
    Except Fault (UnorderedMap TShape) :=
  forLoop input_keys.length (shapeTable_body input_keys input_shape_indptr input_shape_data)
    UnorderedMap.empty

/-- The vector `in_shapes`: for every input, its shape in the table or `TShape()`. -/
def in_shapes (sym : Symbol) (table : UnorderedMap TShape) : List TShape :=
  (sym.ListInputNames .kAll).map (fun key =>
    if table.count key ≠ 0 then (table.find key).getD ⟨[]⟩ else ⟨[]⟩)

/-- The `try` block of Create and of Reshape: infer the shapes, require that none is left
unknown, and sort them into `(arg_shapes, out_shapes, aux_shapes)`. -/
def inferShapes (lib : Library) (sym : Symbol) (table : UnorderedMap TShape) :
    Except Fault (List TShape × List TShape × List TShape) :=
  match lib.InferShape sym (in_shapes sym table) with
  | .error msg => .error (.error msg)
  | .ok (shape, shape_num_unknown_nodes) =>
    if shape_num_unknown_nodes = 0 then CopyAttr sym.idx shape
    else .error (.error "The shape information of is not enough to get the shapes")

/-- Body of the loops that make `arg_arrays` and `aux_arrays`: the loaded parameter itself
when the external source is enabled, a copy of it at the inferred shape otherwise, and a
fresh tensor when there is no parameter of that name. -/
def materialize_body (lib : Library) (params : UnorderedMap NDArray) (names : List String)
    (shapes : List TShape) (ctx : Context) (i : Nat) (arrays : List NDArray) :
    Except Fault (List NDArray) :=
  match names[i]?, shapes[i]? with
  | some name, some shape =>
    match params.find name with
    | some param =>
      if lib.UPR_ENABLED then .ok (arrays ++ [param])
      else
        match CopyFromTo param (NDArray.alloc shape ctx) with
        | .error e => .error e
        | .ok nd => .ok (arrays ++ [nd])
    | none => .ok (arrays ++ [NDArray.alloc shape ctx])
  | _, _ => .error .undefined

/-- Body of the loop `ret->key2arg[arg_names[i]] = i`. -/
def key2arg_body (arg_names : List String) (i : Nat) (key2arg : UnorderedMap Nat) :
    Except Fault (UnorderedMap Nat) :=
  match arg_names[i]? with
  | some key => .ok (key2arg.assign key i)
  | none => .error .undefined

/-- The loading of `data` and `names`, from the external source or from the parameter bytes;
the result is `(ret, data, names)`. -/
def loadData (lib : Library) (ret : MXAPIPredictor) (param_bytes : List Nat) :
    Except Fault (MXAPIPredictor × List NDArray × List String) :=
  if lib.UPR_ENABLED then
    let ret1 := { ret with model_name := lib.get_model_name }
    if lib.MXNET_USE_CUDA then
      match lib.upr_Load lib.get_model_name with
      | .error msg => .error (.error msg)
      | .ok (handle_id, model_id, data, names) =>
        .ok ({ ret1 with handle_id := handle_id, model_id := model_id }, data, names)
    else .error (.error "enable USE_CUDA in the makefile to use the upr path")
  else
    match lib.NDArray_Load param_bytes with
    | .error msg => .error (.error msg)
    | .ok (data, names) => .ok (ret, data, names)

/-- The body of `MXPredCreatePartialOut` between `API_BEGIN()` and `API_END_HANDLE_ERROR`:
`none` is the early `return 0` for a null `symbol_json_str`, `some ret` is `*out = ret`. -/
def MXPredCreatePartialOut_body (lib : Library) (symbol_json_str : Option String)
    (param_bytes : List Nat) (dev_type dev_id : Int) (input_keys : List String)
    (input_shape_indptr input_shape_data : List Nat) (output_keys : List String) :
    Except Fault (Option MXAPIPredictor) :=
  let ret := MXAPIPredictor.init
  match symbol_json_str with
  | none => .ok none
  | some json =>
    -- load in the symbol
    match lib.LoadLegacyJSON (std_string json) with
    | .error msg => .error (.error msg)
    | .ok sym0 =>
    match selectOutputs lib sym0 output_keys with
    | .error e => .error e
    | .ok sym =>
    -- load the parameters
    match loadData lib ret param_bytes with
    | .error e => .error e
    | .ok (ret, data, names) =>
    match loadParams sym data names with
    | .error e => .error e
    | .ok (arg_params, aux_params) =>
    -- shape inference and bind
    match shapeTable input_keys input_shape_indptr input_shape_data with
    | .error e => .error e
    | .ok known_shape =>
    let arg_names := sym.ListInputNames .kReadOnlyArgs
    let aux_names := sym.ListInputNames .kAuxiliaryStates
    match forLoop arg_names.length (key2arg_body arg_names) ret.key2arg with
    | .error e => .error e
    | .ok key2arg =>
    let ret := { ret with key2arg := key2arg }
    match inferShapes lib sym known_shape with
    | .error e => .error e
    | .ok (arg_shapes, out_shapes, aux_shapes) =>
    let ctx := Context.Create dev_type dev_id
    match forLoop arg_shapes.length
        (materialize_body lib arg_params arg_names arg_shapes ctx) [] with
    | .error e => .error e
    | .ok arg_arrays =>
    match forLoop aux_shapes.length
        (materialize_body lib aux_params aux_names aux_shapes ctx) [] with
    | .error e => .error e
    | .ok aux_arrays =>
    let ret := { ret with arg_arrays := arg_arrays }
    -- bind
    match lib.Bind sym ctx arg_arrays aux_arrays none with
    | .error msg => .error (.error msg)
    | .ok exec =>
    let ret := { ret with exec := some exec }
    let ret := { ret with out_shapes := out_shapes }
    let ret := { ret with out_arrays := exec.outputs }
    .ok (some ret)

/-- What a creating call leaves behind: the status, the handle written to `*out`, if one
was written, and whether the object that `new MXAPIPredictor()` made at the head of the call
was destroyed by `delete ret` before the call returned. -/
structure CreateReturn where
  status : Status
  out : Option MXAPIPredictor
  deleted : Bool

/-- `MXPredCreatePartialOut`: `MXAPIPredictor *ret = new MXAPIPredictor()`, the body, and
`API_END_HANDLE_ERROR(delete ret)`.  When the body runs to `*out = ret` the object stays
allocated and the caller holds it; the early `return 0` for a null `symbol_json_str` comes
after `delete ret`; a `dmlc::Error` raised by the body is caught, `delete ret` is executed
and `-1` is returned.  After undefined behaviour nothing is known of the object; no
`delete` is recorded for it. -/
def MXPredCreatePartialOut (lib : Library) (symbol_json_str : Option String)
    (param_bytes : List Nat) (dev_type dev_id : Int) (input_keys : List String)
    (input_shape_indptr input_shape_data : List Nat) (output_keys : List String) :
    CreateReturn :=
  match MXPredCreatePartialOut_body lib symbol_json_str param_bytes dev_type dev_id input_keys
      input_shape_indptr input_shape_data output_keys with
  | .ok (some ret) => { status := .success, out := some ret, deleted := false }
  | .ok none => { status := .success, out := none, deleted := true }
  | .error (.error msg) => { status := .failure msg, out := none, deleted := true }
  | .error .undefined => { status := .undefined, out := none, deleted := false }

/-- `MXPredCreate`: `MXPredCreatePartialOut` with no output keys. -/
def MXPredCreate (lib : Library) (symbol_json_str : Option String) (param_bytes : List Nat)
    (dev_type dev_id : Int) (input_keys : List String)
    (input_shape_indptr input_shape_data : List Nat) : CreateReturn :=
  MXPredCreatePartialOut lib symbol_json_str param_bytes dev_type dev_id input_keys
    input_shape_indptr input_shape_data []

/-! ## `MXPredReshape` -/

/-- Body of the loop over the arguments; the state is `ret->arg_arrays`.  An argument named
in `new_shape` is reallocated at its new shape; for any other one
`CHECK_EQ(newShape.Size(), arr.shape().Size())` is made against the prior tensor. -/
def reshapeArg_body (new_shape : UnorderedMap TShape) (arg_names : List String)
    (arg_shapes : List TShape) (p_arg_arrays : List NDArray) (i : Nat)
    (ret_arg_arrays : List NDArray) : Except Fault (List NDArray) :=
  match arg_shapes[i]?, p_arg_arrays[i]?, arg_names[i]? with
  | some newShape, some arr, some name =>
    if new_shape.count name ≠ 0 then
      match ret_arg_arrays[i]? with
      | none => .error .undefined
      | some nd => .ok (ret_arg_arrays.set i (nd.ReshapeAndAlloc newShape))
    else if newShape.Size = arr.shape.Size then .ok ret_arg_arrays
    else
      .error (.error ("arg " ++ name ++
        " shape has been changed, only allow to change the shape of input data."))
  | _, _, _ => .error .undefined

/-- Body of the loop over the auxiliary states:
`CHECK_EQ(newShape.Size(), arr.shape().Size())` against the prior tensor. -/
def reshapeAux_body (aux_names : List String) (aux_shapes : List TShape)
    (p_aux_arrays : List NDArray) (i : Nat) (_u : Unit) : Except Fault Unit :=
  match aux_shapes[i]?, p_aux_arrays[i]?, aux_names[i]? with
  | some newShape, some arr, some name =>
    if newShape.Size = arr.shape.Size then .ok ()
    else
      .error (.error ("aux " ++ name ++
        " shape has been changed, only allow to change the shape of input data."))
  | _, _, _ => .error .undefined

/-- `MXPredReshape` on the predictor `p` behind `handle`. -/
def MXPredReshape (lib : Library) (input_keys : List String)
    (input_shape_indptr input_shape_data : List Nat) (p : MXAPIPredictor) :
    ApiReturn MXAPIPredictor :=
  let ret := MXAPIPredictor.init
  -- shape inference
  match shapeTable input_keys input_shape_indptr input_shape_data with
  | .error e => ⟨e.toStatus, p, none⟩
  | .ok new_shape =>
  let ret := { ret with sym := p.sym }
  let arg_names := ret.sym.ListInputNames .kReadOnlyArgs
  let aux_names := ret.sym.ListInputNames .kAuxiliaryStates
  let ret := { ret with key2arg := p.key2arg }
  match inferShapes lib ret.sym new_shape with
  | .error e => ⟨e.toStatus, p, none⟩
  | .ok (arg_shapes, out_shapes, aux_shapes) =>
  let ret := { ret with arg_arrays := p.arg_arrays }
  let ret := { ret with ctx := p.ctx }
  match forLoop arg_names.length
      (reshapeArg_body new_shape arg_names arg_shapes p.arg_arrays) ret.arg_arrays with
  | .error e => ⟨e.toStatus, p, none⟩
  | .ok ret_arg_arrays =>
  let ret := { ret with arg_arrays := ret_arg_arrays }
  let p := { p with arg_arrays := [] }
  match forLoop aux_names.length (reshapeAux_body aux_names aux_shapes p.aux_arrays) () with
  | .error e => ⟨e.toStatus, p, none⟩
  | .ok _ =>
  let ret := { ret with aux_arrays := p.aux_arrays }
  let p := { p with aux_arrays := [] }
  -- bind
  match lib.Bind ret.sym ret.ctx ret.arg_arrays ret.aux_arrays p.exec with
  | .error msg => ⟨.failure msg, p, none⟩
  | .ok exec =>
  let ret := { ret with exec := some exec }
  let ret := { ret with out_shapes := out_shapes }
  let ret := { ret with out_arrays := exec.outputs }
  ⟨.success, p, some ret⟩

/-! ## Reading and writing tensors -/

/-- `MXPredGetOutputShape`: the value written is `(*shape_data, *shape_ndim)`, the contents of
the shape buffer and the number of dimensions. -/
def MXPredGetOutputShape (p : MXAPIPredictor) (out_index : Nat) : ApiReturn (List Nat × Nat) :=
  if out_index < p.out_arrays.length then
    match p.out_shapes[out_index]? with
    | none => ⟨.undefined, p, none⟩
    | some s =>
      let p := { p with out_shapes_buffer := ShapeTypeCast s }
      ⟨.success, p, some (p.out_shapes_buffer, s.ndim)⟩
  else ⟨.failure "Index exceed number of outputs", p, none⟩

/-- `MXPredSetInput`: the host buffer and its element count `size` are the list `data`. -/
def MXPredSetInput (p : MXAPIPredictor) (key : String) (data : List mx_float) :
    ApiReturn Unit :=
  match p.key2arg.find (std_string key) with
  | none => ⟨.failure ("cannot find input key " ++ std_string key), p, none⟩
  | some i =>
    match p.arg_arrays[i]? with
    | none => ⟨.undefined, p, none⟩
    | some nd =>
      match nd.SyncCopyFromCPU data with
      | .error e => ⟨e.toStatus, p, none⟩
      | .ok nd1 => ⟨.success, { p with arg_arrays := p.arg_arrays.set i nd1 }, some ()⟩

/-- `MXPredGetOutput`: the value written is the contents of the host buffer. -/
def MXPredGetOutput (p : MXAPIPredictor) (index size : Nat) : ApiReturn (List mx_float) :=
  if index < p.out_arrays.length then
    match p.out_arrays[index]? with
    | none => ⟨.undefined, p, none⟩
    | some nd =>
      match nd.SyncCopyToCPU size with
      | .error e => ⟨e.toStatus, p, none⟩
      | .ok values => ⟨.success, p, some values⟩
  else ⟨.failure "Output index out of range", p, none⟩

/-! ## Example graphs, a library for them, and example sessions -/

/-- Shape inference of a graph of elementwise operators: all entries have one shape. -/
def elemwiseInfer (num_node_entries : Nat) (shapes : List TShape) :
    Except String (List TShape × Nat) :=
  match shapes.filter (fun s => s.ndim ≠ 0) with
  | [] => .ok (List.replicate num_node_entries ⟨[]⟩, num_node_entries)
  | s :: rest =>
    if rest.all (fun t => t = s) then .ok (List.replicate num_node_entries s, 0)
    else .error "Incompatible attr in node"

/-- Shape inference of `BatchNorm(data, gamma, beta, moving_mean, moving_var)`: the four
parameters and the two saved statistics have one dimension, the channel count. -/
def batchNormInfer (shapes : List TShape) : Except String (List TShape × Nat) :=
  match shapes.head? with
  | some ⟨n :: c :: rest⟩ =>
    .ok ([⟨n :: c :: rest⟩, ⟨[c]⟩, ⟨[c]⟩, ⟨[c]⟩, ⟨[c]⟩, ⟨n :: c :: rest⟩, ⟨[c]⟩, ⟨[c]⟩], 0)
  | _ => .ok (List.replicate 8 ⟨[]⟩, 8)

/-- The graph `identity(x) -> y`: node 0 is the variable `x`, node 1 the operator. -/
def identityGraph : Symbol :=
  { idx := { input_nodes := [0], mutable_input_nodes := []
             entry_id := fun nid index => nid + index
             outputs := [(1, 0)], num_node_entries := 2 }
    node_name := fun nid => if nid = 0 then "x" else "y"
    output_names := ["y_output"] }

/-- The graph `elemwise_add(x, w) -> y`: nodes 0 and 1 are the variables. -/
def addGraph : Symbol :=
  { idx := { input_nodes := [0, 1], mutable_input_nodes := []
             entry_id := fun nid index => nid + index
             outputs := [(2, 0)], num_node_entries := 3 }
    node_name := fun nid => if nid = 0 then "x" else if nid = 1 then "w" else "y"
    output_names := ["y_output"] }

/-- The graph `BatchNorm(data, gamma, beta, moving_mean, moving_var) -> bn`: nodes 0 to 4 are
the variables, the operator mutates nodes 3 and 4 and has three outputs. -/
def batchNormGraph : Symbol :=
  { idx := { input_nodes := [0, 1, 2, 3, 4], mutable_input_nodes := [3, 4]
             entry_id := fun nid index => nid + index
             outputs := [(5, 0)], num_node_entries := 8 }
    node_name := fun nid =>
      if nid = 0 then "data" else if nid = 1 then "gamma" else if nid = 2 then "beta"
      else if nid = 3 then "moving_mean" else if nid = 4 then "moving_var" else "bn"
    output_names := ["bn_output"] }

/-- A library that knows the three example graphs.  Its `Bind` accepts every binding and
makes one output tensor per graph output, shaped like the first argument. -/
def demoLib : Library :=
  { UPR_ENABLED := false
    MXNET_USE_CUDA := false
    get_model_name := ""
    upr_Load := fun _ => .error "no parameter source"
    NDArray_Load := fun _ => .ok ([], [])
    LoadLegacyJSON := fun json =>
      if json = "identity" then .ok identityGraph
      else if json = "add" then .ok addGraph
      else if json = "batchnorm" then .ok batchNormGraph
      else .error "invalid json"
    GetInternals := fun sym => sym
    index := fun sym _ => sym
    CreateGroup := fun syms => syms.headD Symbol.init
    InferShape := fun sym shapes =>
      if sym.idx.num_node_entries = 8 then batchNormInfer shapes
      else elemwiseInfer sym.idx.num_node_entries shapes
    Bind := fun sym ctx arg_arrays _ _ =>
      .ok ⟨sym.output_names.map (fun _ =>
        NDArray.alloc ((arg_arrays.map NDArray.shape).headD ⟨[]⟩) ctx)⟩ }

/-- A session over `addGraph` with `x` and `w` bound at shape `[2, 3]`. -/
def priorAdd : MXAPIPredictor :=
  { MXAPIPredictor.init with
    sym := addGraph
    arg_arrays := [NDArray.alloc ⟨[2, 3]⟩ Context.init, NDArray.alloc ⟨[2, 3]⟩ Context.init]
    key2arg := ⟨[("w", 1), ("x", 0)]⟩
    out_shapes := [⟨[2, 3]⟩]
    out_arrays := [NDArray.alloc ⟨[2, 3]⟩ Context.init]
    exec := some ⟨[NDArray.alloc ⟨[2, 3]⟩ Context.init]⟩ }

/-- A session over `identityGraph` with `x` bound at shape `[1, 3, 4, 4]`. -/
def priorIdentity : MXAPIPredictor :=
  { MXAPIPredictor.init with
    sym := identityGraph
    arg_arrays := [NDArray.alloc ⟨[1, 3, 4, 4]⟩ Context.init]
    key2arg := ⟨[("x", 0)]⟩
    out_shapes := [⟨[1, 3, 4, 4]⟩]
    out_arrays := [NDArray.alloc ⟨[1, 3, 4, 4]⟩ Context.init]
    exec := some ⟨[NDArray.alloc ⟨[1, 3, 4, 4]⟩ Context.init]⟩ }

/-- A session over `batchNormGraph` with `data` bound at shape `[1, 3, 4, 4]`. -/
def priorBatchNorm : MXAPIPredictor :=
  { MXAPIPredictor.init with
    sym := batchNormGraph
    arg_arrays := [NDArray.alloc ⟨[1, 3, 4, 4]⟩ Context.init, NDArray.alloc ⟨[3]⟩ Context.init,
                   NDArray.alloc ⟨[3]⟩ Context.init]
    aux_arrays := [NDArray.alloc ⟨[3]⟩ Context.init, NDArray.alloc ⟨[3]⟩ Context.init]
    key2arg := ⟨[("beta", 2), ("gamma", 1), ("data", 0)]⟩
    out_shapes := [⟨[1, 3, 4, 4]⟩]
    out_arrays := [NDArray.alloc ⟨[1, 3, 4, 4]⟩ Context.init]
    exec := some ⟨[NDArray.alloc ⟨[1, 3, 4, 4]⟩ Context.init]⟩ }

/-- The call `MXPredCreate` on `identity(x) -> y` with `x = [1, 3, 4, 4]`, on device type 2
(GPU), device 0. -/
def createdIdentity : CreateReturn :=
  MXPredCreate demoLib (some "identity") [] 2 0 ["x"] [0, 4] [1, 3, 4, 4]

/-- The call `MXPredReshape` with `x = [2, 3, 4, 4]` on the session of `createdIdentity`. -/
def reshapedIdentity : ApiReturn MXAPIPredictor :=
  match createdIdentity.out with
  | some p => MXPredReshape demoLib ["x"] [0, 4] [2, 3, 4, 4] p
  | none => ⟨.undefined, MXAPIPredictor.init, none⟩

/-- The new session of `MXPredReshape` with `x = [2, 3, 4, 4]` on `priorIdentity`. -/
def reshapedX2 : MXAPIPredictor :=
  (MXPredReshape demoLib ["x"] [0, 4] [2, 3, 4, 4] priorIdentity).out.getD MXAPIPredictor.init

/-- The call `MXPredCreate` on the BatchNorm graph with `data = [1, 3, 4, 4]`. -/
def createdBatchNorm : CreateReturn :=
  MXPredCreate demoLib (some "batchnorm") [] 1 0 ["data"] [0, 4] [1, 3, 4, 4]

/-- A loaded parameter name with a NUL character in it: `arg:w`, NUL, `z`. -/
def nulName : String :=
  String.mk ['a', 'r', 'g', ':', 'w', Char.ofNat 0, 'z']

/-! ## Session invariants -/

/-- Every index stored in `key2arg` is a position of `arg_arrays`. -/
def KeysValid (p : MXAPIPredictor) : Prop :=
  ∀ key i, p.key2arg.find key = some i → i < p.arg_arrays.length

/-- The sessions reachable through Create and Reshape: the session Create returns, the new
session Reshape returns, and the prior session Reshape leaves behind. -/
inductive Reachable (lib : Library) : MXAPIPredictor → Prop where
  | create (json : Option String) (bytes : List Nat) (dev_type dev_id : Int)
      (input_keys : List String) (indptr data : List Nat) (output_keys : List String)
      (ret : MXAPIPredictor) :
      (MXPredCreatePartialOut lib json bytes dev_type dev_id input_keys indptr data
        output_keys).out = some ret → Reachable lib ret
  | reshape_new (input_keys : List String) (indptr data : List Nat) (p ret : MXAPIPredictor) :
      Reachable lib p → (MXPredReshape lib input_keys indptr data p).out = some ret →
      Reachable lib ret
  | reshape_prior (input_keys : List String) (indptr data : List Nat) (p : MXAPIPredictor) :
      Reachable lib p → Reachable lib (MXPredReshape lib input_keys indptr data p).handle

/-- The sessions a caller holds after Create and Reshape when every prior handle is
discarded: the session Create returns and the new session Reshape returns for such a one. -/
inductive Live (lib : Library) : MXAPIPredictor → Prop where
  | create (json : Option String) (bytes : List Nat) (dev_type dev_id : Int)
      (input_keys : List String) (indptr data : List Nat) (output_keys : List String)
      (ret : MXAPIPredictor) :
      (MXPredCreatePartialOut lib json bytes dev_type dev_id input_keys indptr data
        output_keys).out = some ret → Live lib ret
  | reshape_new (input_keys : List String) (indptr data : List Nat) (p ret : MXAPIPredictor) :
      Live lib p → (MXPredReshape lib input_keys indptr data p).out = some ret →
      Live lib ret

/-! ## The parameter split, one map at a time -/

/-- What one iteration of the parameter loop does to the map of the tag `tag` (`arg:` or
`aux:`) for the entry `(nm, d)`, `declared` being the names the graph declares. -/
def keepParam (tag : String) (declared : List String) (nm : String) (d : NDArray)
    (m : UnorderedMap NDArray) : UnorderedMap NDArray :=
  if strncmp_eq nm tag 4 then
    if declared.count (c_str_from nm 4) ≠ 0 then m.assign (c_str_from nm 4) d else m
  else m

/-- The map `m` holds what the first `i` loaded entries give for the tag `tag`: every key is a
declared name and maps to the tensor of an entry that reads `tag` followed by the key, and
every such entry with a declared name has its key in the map. -/
def ParamsUpTo (tag : String) (declared : List String) (names : List String)
    (data : List NDArray) (i : Nat) (m : UnorderedMap NDArray) : Prop :=
  (∀ n t, m.find n = some t → n ∈ declared ∧
    ∃ j nm, j < i ∧ names[j]? = some nm ∧ data[j]? = some t ∧
      c_str nm = tag.toList ++ n.toList) ∧
  (∀ j nm n, j < i → names[j]? = some nm → c_str nm = tag.toList ++ n.toList →
    n ∈ declared → ∃ t, m.find n = some t)

/-! ## More example data -/

/-- The library `demoLib`, except that every JSON text parses to the graph without nodes. -/
def emptyGraphLib : Library :=
  { demoLib with LoadLegacyJSON := fun _ => .ok Symbol.init }

/-- The call `MXPredCreatePartialOut` on the graph without nodes, asking for the output of
the node `fc1`. -/
def createdUnmatched : CreateReturn :=
  MXPredCreatePartialOut emptyGraphLib (some "empty") [] 1 0 [] [0] [] ["fc1"]

/-- The call `MXPredCreate` on `identity(x) -> y` without any declared input shape. -/
def createdUnshaped : CreateReturn :=
  MXPredCreate demoLib (some "identity") [] 1 0 [] [0] []

/-! ## The declared shapes, in the words of the specification -/

/-- The shape the caller declares for the input `k` among the first `n` input keys: the
slice `input_shape_data[indptr[i] .. indptr[i + 1])` of the last position `i < n` whose key
is `k`, and nothing when no key is `k`. -/
def declaredShape (input_keys : List String) (input_shape_indptr input_shape_data : List Nat)
    (k : String) : Nat → Option TShape
  | 0 => none
  | i + 1 =>
    if input_keys[i]?.map std_string = some k then
      some ⟨(input_shape_data.drop (input_shape_indptr.getD i 0)).take
        (input_shape_indptr.getD (i + 1) 0 - input_shape_indptr.getD i 0)⟩
    else declaredShape input_keys input_shape_indptr input_shape_data k i

/-- The call `MXPredReshape` on `priorBatchNorm` with the override mapping
`data = [1, 5, 4, 4]`, `gamma = [5]`, `beta = [5]`. -/
def reshapedChannels : ApiReturn MXAPIPredictor :=
  MXPredReshape demoLib ["data", "gamma", "beta"] [0, 4, 5, 6] [1, 5, 4, 4, 5, 5]
    priorBatchNorm

/-- The decoded list `MXAPINDList`. -/
structure MXAPINDList where
  keys : List String
  shapes : List TShape
  shapes_buffer : List Nat
  indptr : List Nat
  data : List mx_float

/-- The list made by `new MXAPINDList()`. -/
def MXAPINDList.init : MXAPINDList :=
  { keys := [], shapes := [], shapes_buffer := [], indptr := [], data := [] }

/-- What a copy of `values` leaves in a zero-initialised host buffer of `size` elements. -/
def copyInto (values : List mx_float) (size : Nat) : List mx_float :=
  (values ++ List.replicate size 0).take size

/-- Body of the loop of `MXNDListCreate` over the loaded arrays: the shape is recorded, the
value buffer grows by `size` elements, the values are copied into them, and the end offset
is recorded. -/
def NDListCreate_body (arrays : List NDArray) (i : Nat) (ret : MXAPINDList) :
    Except Fault MXAPINDList :=
  match arrays[i]? with
  | none => .error .undefined
  | some nd =>
    let shape := nd.shape
    let begin_pos := ret.data.length
    let size := shape.Size
    let ret := { ret with shapes := ret.shapes ++ [shape] }
    match nd.SyncCopyToCPU size with
    | .error e => .error e
    | .ok values =>
      let ret := { ret with data := ret.data ++ copyInto values size }
      .ok { ret with indptr := ret.indptr ++ [begin_pos + size] }

/-- What `MXNDListCreate` leaves behind: the status, the list written to `*out` and the
count written to `*out_length`, if they were written. -/
structure NDListCreateReturn where
  status : Status
  out : Option MXAPINDList
  out_length : Option Nat

/-- `MXNDListCreate` on the bytes of a tensor bundle. -/
def MXNDListCreate (lib : Library) (nd_file_bytes : List Nat) : NDListCreateReturn :=
  let ret := MXAPINDList.init
  match lib.NDArray_Load nd_file_bytes with
  | .error msg => ⟨.failure msg, none, none⟩
  | .ok (arrays, keys) =>
    let ret := { ret with keys := keys }
    let ret :=
      if ret.keys.length = 0 then { ret with keys := List.replicate arrays.length "" }
      else ret
    let ret := { ret with indptr := ret.indptr ++ [0] }
    match forLoop arrays.length (NDListCreate_body arrays) ret with
    | .error e => ⟨e.toStatus, none, none⟩
    | .ok ret => ⟨.success, some ret, some (arrays.length % 2 ^ 32)⟩

/-- What `MXNDListGet` writes: the key as the C string at `*out_key`, the values from
`*out_data` on, the contents of the shape buffer at `*out_shape`, and `*out_ndim`. -/
structure NDListEntry where
  out_key : String
  out_data : List mx_float
  out_shape : List Nat
  out_ndim : Nat
deriving DecidableEq

/-- What `MXNDListGet` leaves behind: the status, the list behind `handle` after the call,
and the entry written through the output pointers, if it was written. -/
structure NDListGetReturn where
  status : Status
  handle : MXAPINDList
  out : Option NDListEntry

/-- `MXNDListGet` on the list `p` behind `handle`. -/
def MXNDListGet (p : MXAPINDList) (index : Nat) : NDListGetReturn :=
  if index < p.shapes.length then
    match p.keys[index]?, p.indptr[index]?, p.shapes[index]? with
    | some key, some offset, some s =>
      let p := { p with shapes_buffer := ShapeTypeCast s }
      ⟨.success, p, some ⟨std_string key, p.data.drop offset, p.shapes_buffer, s.ndim⟩⟩
    | _, _, _ => ⟨.undefined, p, none⟩
  else ⟨.failure "Index out of range", p, none⟩

/-- A bundle of one tensor without elements, of shape `[4294967296, 0]`, under a name with a
NUL character in it: `a`, NUL, `b`. -/
def oddBundleLib : Library :=
  { demoLib with
    NDArray_Load := fun _ =>
      .ok ([⟨⟨[4294967296, 0]⟩, Context.init, []⟩], [String.mk ['a', Char.ofNat 0, 'b']]) }

/-- A bundle of 4294967296 tensors without names, each the one-element tensor `[0]`. -/
def manyTensorsLib : Library :=
  { demoLib with
    NDArray_Load := fun _ =>
      .ok (List.replicate 4294967296 ⟨⟨[1]⟩, Context.init, [0]⟩, []) }

/-- A bundle of two named tensors. -/
def twoTensorsLib : Library :=
  { demoLib with
    NDArray_Load := fun _ =>
      .ok ([⟨⟨[2, 2]⟩, Context.init, [1, 2, 3, 4]⟩, ⟨⟨[3]⟩, Context.init, [5, 6, 7]⟩],
        ["weight", "bias"]) }

/-- What the loop of `MXNDListCreate` has built after `i` of the arrays: the keys are
untouched, there is one shape per array and one offset more, offset 0 comes first and the
length of the value buffer last, and the values of every array lie between its two
offsets. -/
def NDListUpTo (arrays : List NDArray) (keys : List String) (i : Nat) (l : MXAPINDList) :
    Prop :=
  l.keys = keys ∧
  l.shapes = (arrays.take i).map NDArray.shape ∧
  l.indptr.length = i + 1 ∧
  l.indptr[0]? = some 0 ∧
  l.indptr[i]? = some l.data.length ∧
  ∀ (j : Nat) (nd : NDArray), j < i → arrays[j]? = some nd →
    ∃ b, l.indptr[j]? = some b ∧ l.indptr[j + 1]? = some (b + nd.shape.Size) ∧
      b + nd.shape.Size ≤ l.data.length ∧
      (l.data.drop b).take nd.shape.Size = copyInto nd.data nd.shape.Size

/-! ## The profiler (`src/engine/profiler.cc`)

The header `profiler.h` is not among the sources.  What it fixes, and what the process
environment fixes, is the parameter `ProfilerEnv` or is modelled from the specification.
The clock `NowInUsec()` is read by the caller of the model and passed as `now`; times are
64-bit unsigned.  A pointer to an `OprExecStat` is its position in `Profiler.records`, the
records allocated so far; `none` is the null pointer. -/

/-- The device types `Context::kCPU`, `Context::kGPU`, `Context::kCPUPinned`. -/
def Context.kCPU : Int := 1

/-- Device type of a GPU. -/
def Context.kGPU : Int := 2

/-- Device type of pinned host memory. -/
def Context.kCPUPinned : Int := 3

/-- The profiler states. -/
inductive ProfilerState where
  | kNotRunning
  | kRunning
deriving DecidableEq

/-- Modelled from the spec: the span record `OprExecStat` is declared in `profiler.h`; it is
"(operation name, category tag, device id, thread id, start-offset-micros,
end-offset-micros, arbitrary string metadata)", with the device type that AddOprStat
stores. -/
structure OprExecStat where
  opr_name : String
  category : String
  dev_type : Int
  dev_id : Nat
  thread_id : Nat
  opr_start_rel_micros : Nat
  opr_end_rel_micros : Nat
  metadata : List (String × String)
deriving DecidableEq

/-- Modelled from the spec: the device bucket `DevStat` is declared in `profiler.h`; "each
bucket owns a concurrent multi-producer/single-consumer queue of span records", here a
first-in first-out list of record pointers: `enqueue` appends and `try_dequeue` takes the
head. -/
structure DevStat where
  dev_id_ : Nat
  dev_name_ : String
  opr_exec_stats_ : List (Option Nat)
deriving DecidableEq

/-- What the machine, the build and the environment variables fix for the profiler. -/
structure ProfilerEnv where
  /-- `std::thread::hardware_concurrency()` -/
  hardware_concurrency : Nat
  /-- whether `MXNET_USE_CUDA` is set -/
  MXNET_USE_CUDA : Bool
  /-- `dmlc::GetEnv("UPR_PROFILE_TARGET", "profile.json")` -/
  UPR_PROFILE_TARGET : String
  /-- `dmlc::GetEnv("MXNET_PROFILER_MODE", kAllOperator)` -/
  MXNET_PROFILER_MODE : Int
  /-- `dmlc::GetEnv("MXNET_PROFILER_AUTOSTART", 1)` -/
  MXNET_PROFILER_AUTOSTART : Int
  /-- `engine_type()`, from `MXNET_ENGINE_TYPE` -/
  engine_type : String
  /-- a default-constructed `DevStat`; its queue is taken to be empty -/
  new_DevStat : DevStat
  /-- the object `new OprExecStat` -/
  new_OprExecStat : OprExecStat

/-- The profiler, with the span records allocated so far. -/
structure Profiler where
  state_ : ProfilerState
  enable_output_ : Bool
  filename_ : String
  init_time_ : Nat
  cpu_num_ : Nat
  gpu_num_ : Nat
  profile_stat : List DevStat
  mode_ : Int
  /-- the `OprExecStat` objects on the heap; a pointer is a position in this list -/
  records : List OprExecStat

/-- Unsigned 64-bit subtraction `a - b`. -/
def sub64 (a b : Nat) : Nat :=
  (a % 2 ^ 64 + 2 ^ 64 - b % 2 ^ 64) % 2 ^ 64

/-- The conversion of an unsigned 32-bit value to `int`. -/
def toInt32 (n : Nat) : Int :=
  if n % 2 ^ 32 < 2 ^ 31 then ((n % 2 ^ 32 : Nat) : Int) else ((n % 2 ^ 32 : Nat) : Int) - 2 ^ 32

/-- Body of the constructor loop over the CPU buckets. -/
def Profiler_cpu_body (i : Nat) (profile_stat : List DevStat) : Except Fault (List DevStat) :=
  match profile_stat[i]? with
  | none => .error .undefined
  | some d =>
    .ok (profile_stat.set i { d with dev_id_ := i, dev_name_ := "cpu/" ++ toString i })

/-- Body of the constructor loop over the GPU buckets. -/
def Profiler_gpu_body (cpu_num_ : Nat) (i : Nat) (profile_stat : List DevStat) :
    Except Fault (List DevStat) :=
  match profile_stat[(cpu_num_ + i) % 2 ^ 32]? with
  | none => .error .undefined
  | some d =>
    .ok (profile_stat.set ((cpu_num_ + i) % 2 ^ 32) { d with dev_name_ := "gpu/" ++ toString i })

/-- The constructor `Profiler::Profiler()`, the clock reading `now`. -/
def Profiler.new (env : ProfilerEnv) (now : Nat) : Except Fault Profiler :=
  let cpu_num_ := env.hardware_concurrency % 2 ^ 32
  let gpu_num_ := if env.MXNET_USE_CUDA then 32 else 0
  let profile_stat :=
    List.replicate ((cpu_num_ + gpu_num_ + 1) % 2 ^ 32)
      { env.new_DevStat with opr_exec_stats_ := [] }
  match forLoop cpu_num_ Profiler_cpu_body profile_stat with
  | .error e => .error e
  | .ok profile_stat =>
  match forLoop gpu_num_ (Profiler_gpu_body cpu_num_) profile_stat with
  | .error e => .error e
  | .ok profile_stat =>
  match profile_stat[(cpu_num_ + gpu_num_) % 2 ^ 32]? with
  | none => .error .undefined
  | some d =>
  let profile_stat :=
    profile_stat.set ((cpu_num_ + gpu_num_) % 2 ^ 32) { d with dev_name_ := "cpu pinned/" }
  let autostart := env.MXNET_PROFILER_AUTOSTART ≠ 0
  .ok { state_ := if autostart then .kRunning else .kNotRunning
        enable_output_ := if autostart then true else false
        filename_ := env.UPR_PROFILE_TARGET
        init_time_ := now % 2 ^ 64
        cpu_num_ := cpu_num_
        gpu_num_ := gpu_num_
        profile_stat := profile_stat
        mode_ := env.MXNET_PROFILER_MODE
        records := [] }

/-- `Profiler::SetState`, the clock reading `now`. -/
def Profiler.SetState (p : Profiler) (state : ProfilerState) (now : Nat) : Profiler :=
  let p := { p with state_ := state }
  -- once running, output will be enabled.
  if state = .kRunning then { p with enable_output_ := true, init_time_ := now % 2 ^ 64 }
  else p

/-- `Profiler::SetConfig`. -/
def Profiler.SetConfig (p : Profiler) (mode : Int) (output_filename : String) : Profiler :=
  { p with mode_ := mode, filename_ := output_filename }

/-- The `switch` of `Profiler::AddOprStat`: the bucket index `idx`, an `int`. -/
def AddOprStat_idx (p : Profiler) (dev_type : Int) (dev_id : Nat) : Except Fault Int :=
  if dev_type = Context.kCPU then .ok (toInt32 dev_id)
  else if dev_type = Context.kGPU then .ok (toInt32 ((p.cpu_num_ + dev_id) % 2 ^ 32))
  else if dev_type = Context.kCPUPinned then
    .ok (toInt32 ((p.cpu_num_ + p.gpu_num_) % 2 ^ 32))
  else .error (.error ("Unknown dev_type: " ++ toString dev_type))

/-- `Profiler::AddOprStat`: the profiler afterwards and the pointer to the new record. -/
def Profiler.AddOprStat (env : ProfilerEnv) (p : Profiler) (dev_type : Int) (dev_id : Nat) :
    Except Fault (Profiler × Nat) :=
  let opr_stat : OprExecStat :=
    { env.new_OprExecStat with
      category := "generic", dev_type := dev_type, dev_id := dev_id, opr_name := "undefined" }
  match AddOprStat_idx p dev_type dev_id with
  | .error e => .error e
  | .ok idx =>
    if 0 ≤ idx then
      match p.profile_stat[idx.toNat]? with
      | none => .error .undefined
      | some dev_stat =>
        .ok ({ p with
                records := p.records ++ [opr_stat]
                profile_stat := p.profile_stat.set idx.toNat
                  { dev_stat with
                    opr_exec_stats_ := dev_stat.opr_exec_stats_ ++ [some p.records.length] } },
          p.records.length)
    else .error .undefined

/-- `AddOprMetadata`: `metadata.insert` keeps the value of a key that is present. -/
def AddOprMetadata (p : Profiler) (opr_stat : Option Nat) (key value : String) :
    Except Fault Profiler :=
  match opr_stat with
  | none => .error .undefined
  | some ptr =>
    match p.records[ptr]? with
    | none => .error .undefined
    | some r =>
      if (r.metadata.lookup key).isSome then .ok p
      else .ok { p with records := p.records.set ptr { r with metadata := r.metadata ++ [(key, value)] } }

/-- `SetOprCategory`. -/
def SetOprCategory (p : Profiler) (opr_stat : Option Nat) (category : String) :
    Except Fault Profiler :=
  match opr_stat with
  | none => .error .undefined
  | some ptr =>
    match p.records[ptr]? with
    | none => .error .undefined
    | some r => .ok { p with records := p.records.set ptr { r with category := category } }

/-- `SetOprStart`, the clock reading `now`: a null pointer is only warned about. -/
def SetOprStart (p : Profiler) (opr_stat : Option Nat) (now : Nat) : Except Fault Profiler :=
  match opr_stat with
  | none => .ok p
  | some ptr =>
    match p.records[ptr]? with
    | none => .error .undefined
    | some r =>
      .ok { p with
            records := p.records.set ptr { r with opr_start_rel_micros := sub64 now p.init_time_ } }

/-- `SetOprEnd`, the clock reading `now`. -/
def SetOprEnd (p : Profiler) (opr_stat : Option Nat) (now : Nat) : Except Fault Profiler :=
  match opr_stat with
  | none => .error .undefined
  | some ptr =>
    match p.records[ptr]? with
    | none => .error .undefined
    | some r =>
      .ok { p with
            records := p.records.set ptr { r with opr_end_rel_micros := sub64 now p.init_time_ } }

/-- The `args` of a trace event. -/
inductive TraceArgs where
  /-- the list `{"name", name}` of a process-metadata record -/
  | process_name (name : String)
  /-- the metadata of a span -/
  | metadata (m : List (String × String))
deriving DecidableEq

/-- A JSON object of `traceEvents`; a key that the object does not have is `none`. -/
structure TraceEvent where
  name : String
  cat : Option String
  ph : String
  ts : Option Nat
  pid : Nat
  tid : Option Nat
  args : TraceArgs
deriving DecidableEq

/-- `emitPid`: the process-metadata record of a bucket. -/
def emitPid (env : ProfilerEnv) (d : DevStat) : TraceEvent :=
  let name := d.dev_name_
  let pid := if env.engine_type = "NaiveEngine" then 0 else d.dev_id_
  { ph := "M", args := .process_name name, pid := pid, name := "process_name"
    cat := none, ts := none, tid := none }

/-- `emitEvent`: the begin or the end event of a span. -/
def emitEvent (env : ProfilerEnv) (d : DevStat) (opr_stat : OprExecStat) (begin_end : String) :
    TraceEvent :=
  let ts := if begin_end = "B" then opr_stat.opr_start_rel_micros else opr_stat.opr_end_rel_micros
  let pid := if env.engine_type = "NaiveEngine" then 0 else d.dev_id_
  let tid := if env.engine_type = "NaiveEngine" then 0 else opr_stat.thread_id
  { name := opr_stat.opr_name, cat := some opr_stat.category, ph := begin_end, ts := some ts
    pid := pid, tid := some tid, args := .metadata opr_stat.metadata }

/-- A `while` loop whose body returns `none` when its condition fails; `fuel` bounds the
number of times the condition is tested, and `none` is returned when it runs out. -/
def whileLoop {σ : Type} (body : σ → Except Fault (Option σ)) : Nat → σ → Option (Except Fault σ)
  | 0, _ => none
  | fuel + 1, s =>
    match body s with
    | .error e => some (.error e)
    | .ok none => some (.ok s)
    | .ok (some s1) => whileLoop body fuel s1

/-- Body of the loop of `DumpProfile` that emits the process-metadata records. -/
def dumpPid_body (env : ProfilerEnv) (p : Profiler) (i : Nat) (trace_events : List TraceEvent) :
    Except Fault (List TraceEvent) :=
  match p.profile_stat[i]? with
  | none => .error .undefined
  | some d => .ok (trace_events ++ [emitPid env d])

/-- One test of `while (d.opr_exec_stats_->try_dequeue(_opr_stat))` on bucket `i` and, when a
record was taken, the body of the loop; the state is the profiler and `trace_events`. -/
def drain_body (env : ProfilerEnv) (i : Nat) (s : Profiler × List TraceEvent) :
    Except Fault (Option (Profiler × List TraceEvent)) :=
  match s.1.profile_stat[i]? with
  | none => .error .undefined
  | some d =>
    match d.opr_exec_stats_ with
    | [] => .ok none
    | _opr_stat :: rest =>
      let p := { s.1 with
                 profile_stat := s.1.profile_stat.set i { d with opr_exec_stats_ := rest } }
      match _opr_stat with
      | none => .error (.error "Check notnull: _opr_stat")
      | some ptr =>
        match p.records[ptr]? with
        | none => .error .undefined
        | some opr_stat =>
          .ok (some (p, s.2 ++ [emitEvent env d opr_stat "B", emitEvent env d opr_stat "E"]))

/-- The loop of `DumpProfile` over the buckets `start, ..., start + count - 1`, each drained
by its `while` loop. -/
def drainBuckets (env : ProfilerEnv) (fuel : Nat) :
    Nat → Nat → Profiler × List TraceEvent → Option (Except Fault (Profiler × List TraceEvent))
  | _, 0, s => some (.ok s)
  | start, count + 1, s =>
    match whileLoop (drain_body env start) fuel s with
    | none => none
    | some (.error e) => some (.error e)
    | some (.ok s1) => drainBuckets env fuel (start + 1) count s1

/-- What `DumpProfile` leaves behind: the profiler and the list `traceEvents` of the
document it writes. -/
structure DumpResult where
  profiler : Profiler
  trace_events : List TraceEvent

/-- `Profiler::DumpProfile`, the clock reading `now`; `fuel` bounds each `while` loop.  The
`otherData` block and the writing of the file are left out. -/
def Profiler.DumpProfile (env : ProfilerEnv) (fuel : Nat) (p : Profiler) (now : Nat) :
    Option (Except Fault DumpResult) :=
  let p := p.SetState .kNotRunning now
  let dev_num := (p.cpu_num_ + p.gpu_num_ + 1) % 2 ^ 32
  match forLoop dev_num (dumpPid_body env p) [] with
  | .error e => some (.error e)
  | .ok trace_events =>
    match drainBuckets env fuel 0 dev_num (p, trace_events) with
    | none => none
    | some (.error e) => some (.error e)
    | some (.ok (p, trace_events)) =>
      let p := { p with enable_output_ := false }
      some (.ok ⟨p, trace_events⟩)

/-- An operation on the profiler or on a span record. -/
inductive ProfilerOp where
  | SetState (state : ProfilerState)
  | SetConfig (mode : Int) (output_filename : String)
  | AddOprStat (dev_type : Int) (dev_id : Nat)
  | AddOprMetadata (opr_stat : Option Nat) (key value : String)
  | SetOprCategory (opr_stat : Option Nat) (category : String)
  | SetOprStart (opr_stat : Option Nat)
  | SetOprEnd (opr_stat : Option Nat)
deriving DecidableEq

/-- One operation, the clock reading `now` when it runs. -/
def ProfilerOp.run (env : ProfilerEnv) (p : Profiler) (now : Nat) :
    ProfilerOp → Except Fault Profiler
  | .SetState state => .ok (p.SetState state now)
  | .SetConfig mode output_filename => .ok (p.SetConfig mode output_filename)
  | .AddOprStat dev_type dev_id =>
    match p.AddOprStat env dev_type dev_id with
    | .error e => .error e
    | .ok (p1, _) => .ok p1
  | .AddOprMetadata opr_stat key value => MXPredict.AddOprMetadata p opr_stat key value
  | .SetOprCategory opr_stat category => MXPredict.SetOprCategory p opr_stat category
  | .SetOprStart opr_stat => MXPredict.SetOprStart p opr_stat now
  | .SetOprEnd opr_stat => MXPredict.SetOprEnd p opr_stat now

/-- A sequence of operations, each with the clock reading when it runs. -/
def runOps (env : ProfilerEnv) : Profiler → List (Nat × ProfilerOp) → Except Fault Profiler
  | p, [] => .ok p
  | p, (now, op) :: rest =>
    match op.run env p now with
    | .error e => .error e
    | .ok p1 => runOps env p1 rest

/-- The clock readings of a sequence never decrease and lie between `lo` and `hi`. -/
def MonotoneClock (lo hi : Nat) : List (Nat × ProfilerOp) → Prop
  | [] => lo ≤ hi
  | (now, _) :: rest => lo ≤ now ∧ MonotoneClock now hi rest

/-- A machine with two hardware threads and no GPU support. -/
def demoEnv : ProfilerEnv :=
  { hardware_concurrency := 2
    MXNET_USE_CUDA := false
    UPR_PROFILE_TARGET := "profile.json"
    MXNET_PROFILER_MODE := 1
    MXNET_PROFILER_AUTOSTART := 1
    engine_type := "ThreadedEnginePerDevice"
    new_DevStat := ⟨0, "", []⟩
    new_OprExecStat := ⟨"", "", 0, 0, 0, 0, 0, []⟩ }

/-- The profiler constructed on `demoEnv` at clock reading 0. -/
def demoProfiler : Profiler :=
  match Profiler.new demoEnv 0 with
  | .ok p => p
  | .error _ =>
    { state_ := .kNotRunning, enable_output_ := false, filename_ := "", init_time_ := 0
      cpu_num_ := 0, gpu_num_ := 0, profile_stat := [], mode_ := 0, records := [] }

/-! ## Profiler invariants and the trace, in the words of the specification -/

/-- The entries of a queue are pointers to allocated records, none of them null. -/
def QueueValid (records : List OprExecStat) (queue : List (Option Nat)) : Prop :=
  ∀ e ∈ queue, ∃ ptr, e = some ptr ∧ ptr < records.length

/-- The profiler has its `cpu_num_ + gpu_num_ + 1` buckets, that count fits 32 bits
unsigned, and every queue holds pointers to allocated records. -/
def ProfilerWF (p : Profiler) : Prop :=
  p.profile_stat.length = p.cpu_num_ + p.gpu_num_ + 1 ∧
  p.cpu_num_ + p.gpu_num_ + 1 < 2 ^ 32 ∧
  ∀ d ∈ p.profile_stat, QueueValid p.records d.opr_exec_stats_

/-- The profilers reachable from the constructor by the operations of the profiler, by the
operations on span records, and by DumpProfile. -/
inductive ProfilerReached (env : ProfilerEnv) : Profiler → Prop where
  | new (now : Nat) (p : Profiler) : Profiler.new env now = .ok p → ProfilerReached env p
  | op (now : Nat) (op : ProfilerOp) (p p1 : Profiler) :
      ProfilerReached env p → op.run env p now = .ok p1 → ProfilerReached env p1
  | dump (fuel now : Nat) (p : Profiler) (r : DumpResult) :
      ProfilerReached env p → p.DumpProfile env fuel now = some (.ok r) →
      ProfilerReached env r.profiler

/-- The bucket of a device in the words of the specification: "CPU buckets are indexed by
core id `0..cpuCount-1`; GPU buckets follow at `cpuCount..cpuCount+gpuCount-1`; one final
bucket is reserved for pinned host memory"; no bucket for any other device. -/
def bucketOf (p : Profiler) (dev_type : Int) (dev_id : Nat) : Option Nat :=
  if dev_type = Context.kCPU then
    if dev_id < p.cpu_num_ then some dev_id else none
  else if dev_type = Context.kGPU then
    if dev_id < p.gpu_num_ then some (p.cpu_num_ + dev_id) else none
  else if dev_type = Context.kCPUPinned then some (p.cpu_num_ + p.gpu_num_)
  else none

/-- The begin event and the end event of every record in the queue of a bucket, in queue
order. -/
def spanEvents (env : ProfilerEnv) (records : List OprExecStat) (d : DevStat) :
    List TraceEvent :=
  d.opr_exec_stats_.flatMap (fun e =>
    match e with
    | some ptr =>
      match records[ptr]? with
      | some r => [emitEvent env d r "B", emitEvent env d r "E"]
      | none => []
    | none => [])

/-- The trace in the words of the specification: "one process metadata record per device
followed by a begin/end pair per span", buckets in index order. -/
def traceOf (env : ProfilerEnv) (p : Profiler) : List TraceEvent :=
  p.profile_stat.map (emitPid env) ++ p.profile_stat.flatMap (spanEvents env p.records)

/-- The number of records in all queues. -/
def totalQueued (p : Profiler) : Nat :=
  (p.profile_stat.map (fun d => d.opr_exec_stats_.length)).sum

/-- A profiler with 2147483648 CPU buckets and no GPU bucket. -/
def hugeProfiler : Profiler :=
  { state_ := .kRunning, enable_output_ := true, filename_ := "profile.json", init_time_ := 0
    cpu_num_ := 2147483648, gpu_num_ := 0
    profile_stat := List.replicate 2147483649 ⟨0, "", []⟩
    mode_ := 1, records := [] }

/-- The profiler of the machine with two hardware threads after a sequence of operations;
the fresh profiler if one of them fails. -/
def demoAfter (ops : List (Nat × ProfilerOp)) : Profiler :=
  match runOps demoEnv demoProfiler ops with
  | .ok p => p
  | .error _ => demoProfiler

/-! ## Lemmas on maps and loops -/

theorem lookup_filter_ne {V : Type} (k k1 : String) (es : List (String × V)) (h : k1 ≠ k) :
    (es.filter (fun e => e.1 ≠ k)).lookup k1 = es.lookup k1 := by
  induction es with
  | nil => rfl
  | cons e es ih =>
    obtain ⟨a, b⟩ := e
    by_cases ha : a = k
    · subst ha
      have : (k1 == a) = false := by simpa using h
      simp only [decide_not] at ih
      simp [List.filter, List.lookup, this, ih]
    · by_cases hk : k1 = a
      · subst hk
        simp [List.filter, List.lookup, ha]
      · have : (k1 == a) = false := by simpa using hk
        simp only [decide_not] at ih
        simp [List.filter, List.lookup, ha, this, ih]

theorem UnorderedMap.find_assign {V : Type} (m : UnorderedMap V) (k k1 : String) (v : V) :
    (m.assign k v).find k1 = if k1 = k then some v else m.find k1 := by
  unfold UnorderedMap.assign UnorderedMap.find
  by_cases h : k1 = k
  · subst h
    simp [List.lookup]
  · have hb : (k1 == k) = false := by simpa using h
    have hf := lookup_filter_ne k k1 m.entries h
    simp only [decide_not] at hf
    simp [List.lookup, hb, h, hf]

theorem UnorderedMap.find_empty {V : Type} (k : String) :
    (UnorderedMap.empty : UnorderedMap V).find k = none := rfl

theorem UnorderedMap.count_ne_zero {V : Type} (m : UnorderedMap V) (k : String) :
    m.count k ≠ 0 ↔ ∃ v, m.find k = some v := by
  unfold UnorderedMap.count
  cases h : m.find k <;> simp

theorem UnorderedMap.count_eq_zero {V : Type} (m : UnorderedMap V) (k : String) :
    m.count k = 0 ↔ m.find k = none := by
  unfold UnorderedMap.count
  cases h : m.find k <;> simp

/-- Hoare rule for `loopFrom`: an invariant kept by every successful step holds at the end. -/
theorem loopFrom_inv {σ : Type} (body : Nat → σ → Except Fault σ) (P : Nat → σ → Prop)
    (n : Nat) (hstep : ∀ i s s1, i < n → P i s → body i s = .ok s1 → P (i + 1) s1) :
    ∀ (count start : Nat) (s s1 : σ), start + count = n → P start s →
      loopFrom body start count s = .ok s1 → P n s1 := by
  intro count
  induction count with
  | zero =>
    intro start s s1 hn hP h
    simp [loopFrom] at h
    subst h
    simpa [← hn] using hP
  | succ c ih =>
    intro start s s1 hn hP h
    unfold loopFrom at h
    cases hb : body start s with
    | error e => simp [hb] at h
    | ok s2 =>
      simp [hb] at h
      exact ih (start + 1) s2 s1 (by omega) (hstep start s s2 (by omega) hP hb) h

/-- Hoare rule for `forLoop`. -/
theorem forLoop_inv {σ : Type} (body : Nat → σ → Except Fault σ) (P : Nat → σ → Prop)
    (n : Nat) (s s1 : σ)
    (hstep : ∀ i s s1, i < n → P i s → body i s = .ok s1 → P (i + 1) s1)
    (h0 : P 0 s) (h : forLoop n body s = .ok s1) : P n s1 :=
  loopFrom_inv body P n hstep n 0 s s1 (by omega) h0 h

/-- A loop whose body cannot fault under the invariant runs to its end. -/
theorem loopFrom_total {σ : Type} (body : Nat → σ → Except Fault σ) (P : Nat → σ → Prop)
    (n : Nat) (hstep : ∀ i s, i < n → P i s → ∃ s1, body i s = .ok s1 ∧ P (i + 1) s1) :
    ∀ (count start : Nat) (s : σ), start + count = n → P start s →
      ∃ s1, loopFrom body start count s = .ok s1 ∧ P n s1 := by
  intro count
  induction count with
  | zero =>
    intro start s hn hP
    exact ⟨s, by simp [loopFrom], by simpa [← hn] using hP⟩
  | succ c ih =>
    intro start s hn hP
    obtain ⟨s2, hb, hP2⟩ := hstep start s (by omega) hP
    obtain ⟨s1, h1, hP1⟩ := ih (start + 1) s2 (by omega) hP2
    exact ⟨s1, by simp [loopFrom, hb, h1], hP1⟩

/-- Totality rule for `forLoop`. -/
theorem forLoop_total {σ : Type} (body : Nat → σ → Except Fault σ) (P : Nat → σ → Prop)
    (n : Nat) (s : σ)
    (hstep : ∀ i s, i < n → P i s → ∃ s1, body i s = .ok s1 ∧ P (i + 1) s1)
    (h0 : P 0 s) : ∃ s1, forLoop n body s = .ok s1 ∧ P n s1 :=
  loopFrom_total body P n hstep n 0 s (by omega) h0

/-- Hoare rule for `forEach`, the invariant ranging over the elements already visited. -/
theorem forEach_inv {α σ : Type} (body : α → σ → Except Fault σ) (P : List α → σ → Prop)
    (hstep : ∀ pre x s s1, P pre s → body x s = .ok s1 → P (pre ++ [x]) s1) :
    ∀ (xs pre : List α) (s s1 : σ), P pre s → forEach body xs s = .ok s1 → P (pre ++ xs) s1 := by
  intro xs
  induction xs with
  | nil =>
    intro pre s s1 hP h
    simp [forEach] at h
    subst h
    simpa using hP
  | cons x xs ih =>
    intro pre s s1 hP h
    unfold forEach at h
    cases hb : body x s with
    | error e => simp [hb] at h
    | ok s2 =>
      simp [hb] at h
      have := ih (pre ++ [x]) s2 s1 (hstep pre x s s2 hP hb) h
      simpa using this

/-- The loading of the parameters leaves the bindings, the graph and the context alone. -/
theorem loadData_fields (lib : Library) (r r0 : MXAPIPredictor) (bytes : List Nat)
    (data : List NDArray) (names : List String)
    (h : loadData lib r bytes = .ok (r0, data, names)) :
    r0.key2arg = r.key2arg ∧ r0.arg_arrays = r.arg_arrays ∧ r0.aux_arrays = r.aux_arrays ∧
      r0.sym = r.sym ∧ r0.ctx = r.ctx := by
  unfold loadData at h
  split at h
  · split at h
    · split at h
      · simp at h
      · simp at h
        obtain ⟨h1, -, -⟩ := h
        subst h1
        simp
    · simp at h
  · split at h
    · simp at h
    · simp at h
      obtain ⟨h1, -, -⟩ := h
      subst h1
      simp

/-- The stages of a successful creation. -/
theorem create_body_ok (lib : Library) (json : Option String) (bytes : List Nat)
    (dev_type dev_id : Int) (input_keys : List String) (indptr data : List Nat)
    (output_keys : List String) (ret : MXAPIPredictor)
    (h : MXPredCreatePartialOut_body lib json bytes dev_type dev_id input_keys indptr data
      output_keys = .ok (some ret)) :
    ∃ js sym0 sym ret0 pdata names arg_params aux_params known_shape key2arg arg_shapes
      out_shapes aux_shapes arg_arrays aux_arrays exec,
      json = some js ∧
      lib.LoadLegacyJSON (std_string js) = .ok sym0 ∧
      selectOutputs lib sym0 output_keys = .ok sym ∧
      loadData lib MXAPIPredictor.init bytes = .ok (ret0, pdata, names) ∧
      loadParams sym pdata names = .ok (arg_params, aux_params) ∧
      shapeTable input_keys indptr data = .ok known_shape ∧
      forLoop (sym.ListInputNames .kReadOnlyArgs).length
        (key2arg_body (sym.ListInputNames .kReadOnlyArgs)) ret0.key2arg = .ok key2arg ∧
      inferShapes lib sym known_shape = .ok (arg_shapes, out_shapes, aux_shapes) ∧
      forLoop arg_shapes.length
        (materialize_body lib arg_params (sym.ListInputNames .kReadOnlyArgs) arg_shapes
          (Context.Create dev_type dev_id)) [] = .ok arg_arrays ∧
      forLoop aux_shapes.length
        (materialize_body lib aux_params (sym.ListInputNames .kAuxiliaryStates) aux_shapes
          (Context.Create dev_type dev_id)) [] = .ok aux_arrays ∧
      lib.Bind sym (Context.Create dev_type dev_id) arg_arrays aux_arrays none = .ok exec ∧
      ret = { ret0 with key2arg := key2arg, arg_arrays := arg_arrays, exec := some exec,
                        out_shapes := out_shapes, out_arrays := exec.outputs } := by
  unfold MXPredCreatePartialOut_body at h
  cases json with
  | none => simp at h
  | some js =>
    simp only at h
    split at h
    · simp at h
    · rename_i sym0 h0
      split at h
      · simp at h
      · rename_i sym h1
        split at h
        · simp at h
        · rename_i ret0 pdata names h2
          split at h
          · simp at h
          · rename_i arg_params aux_params h3
            split at h
            · simp at h
            · rename_i known_shape h4
              split at h
              · simp at h
              · rename_i key2arg h5
                split at h
                · simp at h
                · rename_i arg_shapes out_shapes aux_shapes h6
                  split at h
                  · simp at h
                  · rename_i arg_arrays h7
                    split at h
                    · simp at h
                    · rename_i aux_arrays h8
                      split at h
                      · simp at h
                      · rename_i exec h9
                        simp at h
                        exact ⟨js, sym0, sym, ret0, pdata, names, arg_params, aux_params,
                          known_shape, key2arg, arg_shapes, out_shapes, aux_shapes, arg_arrays,
                          aux_arrays, exec, rfl, h0, h1, h2, h3, h4, h5, h6, h7, h8, h9, h.symm⟩

/-- On success `CopyAttr` returns one attribute per read-only input, per output and per
mutable input. -/
theorem CopyAttr_length {α : Type} (idx : IndexedGraph) (attr_vec in_attr out_attr aux_attr : List α)
    (h : CopyAttr idx attr_vec = .ok (in_attr, out_attr, aux_attr)) :
    in_attr.length = (idx.input_nodes.filter (fun nid => idx.mutable_input_nodes.count nid = 0)).length ∧
    out_attr.length = idx.outputs.length ∧
    aux_attr.length = (idx.input_nodes.filter (fun nid => idx.mutable_input_nodes.count nid ≠ 0)).length := by
  unfold CopyAttr at h
  split at h
  · simp at h
  · rename_i a b h1
    split at h
    · simp at h
    · rename_i c h2
      simp at h
      obtain ⟨ha, hc, hb⟩ := h
      subst ha hb hc
      have hin := forEach_inv (CopyAttr_inputs idx attr_vec)
        (fun pre s =>
          s.1.length = (pre.filter (fun nid => idx.mutable_input_nodes.count nid = 0)).length ∧
          s.2.length = (pre.filter (fun nid => idx.mutable_input_nodes.count nid ≠ 0)).length)
        (by
          intro pre x s s1 hP hb
          unfold CopyAttr_inputs at hb
          split at hb
          · simp at hb
          · split at hb
            · rename_i hm
              simp at hb
              subst hb
              simp [List.filter_append, hP.1, hP.2, hm]
            · rename_i hm
              simp at hb
              subst hb
              simp [List.filter_append, hP.1, hP.2, hm])
        idx.input_nodes [] ([], []) (a, b) (by simp) h1
      have hout := forEach_inv (CopyAttr_outputs idx attr_vec)
        (fun pre s => s.length = pre.length)
        (by
          intro pre x s s1 hP hb
          unfold CopyAttr_outputs at hb
          split at hb
          · simp at hb
          · simp at hb
            subst hb
            simp [hP])
        idx.outputs [] [] c (by simp) h2
      simp at hin hout
      refine ⟨hin.1, hout, ?_⟩
      simpa using hin.2

/-- Inferred shapes come one per read-only input name, per output and per auxiliary name. -/
theorem inferShapes_length (lib : Library) (sym : Symbol) (table : UnorderedMap TShape)
    (arg_shapes out_shapes aux_shapes : List TShape)
    (h : inferShapes lib sym table = .ok (arg_shapes, out_shapes, aux_shapes)) :
    arg_shapes.length = (sym.ListInputNames .kReadOnlyArgs).length ∧
    out_shapes.length = sym.idx.outputs.length ∧
    aux_shapes.length = (sym.ListInputNames .kAuxiliaryStates).length := by
  unfold inferShapes at h
  split at h
  · simp at h
  · split at h
    · have := CopyAttr_length _ _ _ _ _ h
      simpa [Symbol.ListInputNames] using this
    · simp at h

/-- The materialising loop makes one tensor per shape. -/
theorem materialize_length (lib : Library) (params : UnorderedMap NDArray) (names : List String)
    (shapes : List TShape) (ctx : Context) (arrays : List NDArray)
    (h : forLoop shapes.length (materialize_body lib params names shapes ctx) [] = .ok arrays) :
    arrays.length = shapes.length := by
  refine forLoop_inv _ (fun i (s : List NDArray) => s.length = i) shapes.length [] arrays ?_ rfl h
  intro i s s1 _ hP hb
  unfold materialize_body at hb
  split at hb
  · split at hb
    · split at hb
      · simp at hb
        subst hb
        simp [hP]
      · split at hb
        · simp at hb
        · simp at hb
          subst hb
          simp [hP]
    · simp at hb
      subst hb
      simp [hP]
  · simp at hb

/-- After the loop `key2arg[arg_names[i]] = i` on an empty map every index is a position of
`arg_names`, and position `i` of a duplicate-free `arg_names` is mapped to `i`. -/
theorem key2arg_loop (arg_names : List String) (key2arg : UnorderedMap Nat)
    (h : forLoop arg_names.length (key2arg_body arg_names) UnorderedMap.empty = .ok key2arg) :
    (∀ key j, key2arg.find key = some j → j < arg_names.length) ∧
    (arg_names.Nodup → ∀ i name, arg_names[i]? = some name → key2arg.find name = some i) := by
  constructor
  · refine forLoop_inv _ (fun i (m : UnorderedMap Nat) => ∀ key j, m.find key = some j → j < i)
      arg_names.length _ key2arg ?_ ?_ h
    · intro i s s1 _ hP hb
      unfold key2arg_body at hb
      split at hb
      · simp at hb
        subst hb
        intro key j hj
        rw [UnorderedMap.find_assign] at hj
        split at hj
        · simp at hj
          omega
        · have := hP key j hj
          omega
      · simp at hb
    · intro key j hj
      simp [UnorderedMap.find_empty] at hj
  · intro hnd
    have := forLoop_inv (key2arg_body arg_names)
      (fun i (m : UnorderedMap Nat) =>
        ∀ j name, j < i → arg_names[j]? = some name → m.find name = some j)
      arg_names.length _ key2arg ?_ ?_ h
    · intro i name hi
      have hlt : i < arg_names.length := by
        rcases Nat.lt_or_ge i arg_names.length with h1 | h1
        · exact h1
        · simp [List.getElem?_eq_none h1] at hi
      exact this i name hlt hi
    · intro i s s1 hi hP hb j name hj hname
      unfold key2arg_body at hb
      split at hb
      · rename_i key hkey
        simp at hb
        subst hb
        rw [UnorderedMap.find_assign]
        by_cases hji : j = i
        · subst hji
          rw [hkey] at hname
          simp at hname
          simp [hname]
        · have hjlt : j < i := by omega
          have hne : name ≠ key := by
            intro heq
            subst heq
            have h1 : arg_names[j] = name := by
              have := List.getElem?_eq_some.mp hname
              exact this.2
            have h2 : arg_names[i] = name := by
              have := List.getElem?_eq_some.mp hkey
              exact this.2
            have hjl : j < arg_names.length := by omega
            have := (@List.Nodup.getElem_inj_iff _ arg_names hnd j hjl i hi).mp
              (h1.trans h2.symm)
            omega
          simp [hne, hP j name hjlt hname]
      · simp at hb
    · intro j name hj
      omega

/-- A fault is never the status of a successful call. -/
theorem Fault.toStatus_ne_success (e : Fault) : e.toStatus ≠ .success := by
  cases e <;> simp [Fault.toStatus]

/-- The keys of the shape table are the given input keys. -/
theorem shapeTable_keys (input_keys : List String) (indptr data : List Nat)
    (table : UnorderedMap TShape) (h : shapeTable input_keys indptr data = .ok table)
    (name : String) :
    table.count name ≠ 0 ↔ ∃ k ∈ input_keys, std_string k = name := by
  have := forLoop_inv (shapeTable_body input_keys indptr data)
    (fun i (m : UnorderedMap TShape) =>
      ∀ name, m.count name ≠ 0 ↔ ∃ j k, j < i ∧ input_keys[j]? = some k ∧ std_string k = name)
    input_keys.length _ table ?_ ?_ h
  · rw [this name]
    constructor
    · rintro ⟨j, k, _, hk, hname⟩
      exact ⟨k, List.getElem?_mem hk, hname⟩
    · rintro ⟨k, hk, hname⟩
      obtain ⟨j, hj, hjk⟩ := List.getElem_of_mem hk
      exact ⟨j, k, hj, by simp [List.getElem?_eq_getElem hj, hjk], hname⟩
  · intro i s s1 _ hP hb name
    unfold shapeTable_body at hb
    split at hb
    · rename_i key b e hkey _ _
      split at hb
      · simp at hb
        subst hb
        rw [UnorderedMap.count_ne_zero, UnorderedMap.find_assign]
        by_cases hn : name = std_string key
        · rw [if_pos hn]
          constructor
          · intro _
            exact ⟨i, key, by omega, hkey, hn.symm⟩
          · intro _
            exact ⟨_, rfl⟩
        · rw [if_neg hn]
          rw [← UnorderedMap.count_ne_zero, hP name]
          constructor
          · rintro ⟨j, k, hj, hk, hname⟩
            exact ⟨j, k, by omega, hk, hname⟩
          · rintro ⟨j, k, hj, hk, hname⟩
            have hji : j ≠ i := by
              intro heq
              subst heq
              rw [hkey] at hk
              simp at hk
              subst hk
              exact hn hname.symm
            exact ⟨j, k, by omega, hk, hname⟩
      · simp at hb
    · simp at hb
  · intro name
    simp [UnorderedMap.count, UnorderedMap.find_empty]

/-- The loop over the arguments of Reshape keeps the number of tensors and every tensor
whose position is not named in `new_shape`. -/
theorem reshapeArg_loop (new_shape : UnorderedMap TShape) (arg_names : List String)
    (arg_shapes : List TShape) (p_arg_arrays ret_arg_arrays : List NDArray)
    (h : forLoop arg_names.length
      (reshapeArg_body new_shape arg_names arg_shapes p_arg_arrays) p_arg_arrays =
        .ok ret_arg_arrays) :
    ret_arg_arrays.length = p_arg_arrays.length ∧
    ∀ j : Nat, (∀ name, arg_names[j]? = some name → new_shape.count name = 0) →
      ret_arg_arrays[j]? = p_arg_arrays[j]? := by
  have := forLoop_inv (reshapeArg_body new_shape arg_names arg_shapes p_arg_arrays)
    (fun i (a : List NDArray) =>
      a.length = p_arg_arrays.length ∧
      ∀ j : Nat, (i ≤ j ∨ ∀ name, arg_names[j]? = some name → new_shape.count name = 0) →
        a[j]? = p_arg_arrays[j]?)
    arg_names.length _ ret_arg_arrays ?_ ?_ h
  · exact ⟨this.1, fun j hj => this.2 j (Or.inr hj)⟩
  · intro i s s1 _ hP hb
    unfold reshapeArg_body at hb
    split at hb
    · rename_i newShape arr name _ _ hname
      split at hb
      · rename_i hcount
        split at hb
        · simp at hb
        · simp at hb
          subst hb
          refine ⟨by simp [hP.1], ?_⟩
          intro j hj
          have hji : i ≠ j := by
            intro heq
            subst heq
            rcases hj with hj | hj
            · omega
            · exact hcount (hj name hname)
          rw [List.getElem?_set_ne hji]
          apply hP.2 j
          rcases hj with hj | hj
          · left; omega
          · right; exact hj
      · split at hb
        · simp at hb
          subst hb
          refine ⟨hP.1, ?_⟩
          intro j hj
          apply hP.2 j
          rcases hj with hj | hj
          · left; omega
          · right; exact hj
        · simp at hb
    · simp at hb
  · refine ⟨rfl, ?_⟩
    intro j _
    rfl

/-- The stages of a Reshape that writes a new handle. -/
theorem reshape_out_some (lib : Library) (input_keys : List String) (indptr data : List Nat)
    (p ret : MXAPIPredictor)
    (h : (MXPredReshape lib input_keys indptr data p).out = some ret) :
    ∃ new_shape arg_shapes out_shapes aux_shapes ret_arg_arrays exec,
      shapeTable input_keys indptr data = .ok new_shape ∧
      inferShapes lib p.sym new_shape = .ok (arg_shapes, out_shapes, aux_shapes) ∧
      forLoop (p.sym.ListInputNames .kReadOnlyArgs).length
        (reshapeArg_body new_shape (p.sym.ListInputNames .kReadOnlyArgs) arg_shapes p.arg_arrays)
        p.arg_arrays = .ok ret_arg_arrays ∧
      forLoop (p.sym.ListInputNames .kAuxiliaryStates).length
        (reshapeAux_body (p.sym.ListInputNames .kAuxiliaryStates) aux_shapes p.aux_arrays) () =
        .ok () ∧
      lib.Bind p.sym p.ctx ret_arg_arrays p.aux_arrays p.exec = .ok exec ∧
      ret = { MXAPIPredictor.init with
                sym := p.sym, key2arg := p.key2arg, arg_arrays := ret_arg_arrays, ctx := p.ctx
                aux_arrays := p.aux_arrays, exec := some exec, out_shapes := out_shapes
                out_arrays := exec.outputs } ∧
      (MXPredReshape lib input_keys indptr data p).status = .success ∧
      (MXPredReshape lib input_keys indptr data p).handle =
        { p with arg_arrays := [], aux_arrays := [] } := by
  unfold MXPredReshape at h ⊢
  split at h
  · simp at h
  · rename_i new_shape h0
    simp only at h
    split at h
    · simp at h
    · rename_i arg_shapes out_shapes aux_shapes h1
      split at h
      · simp at h
      · rename_i ret_arg_arrays h2
        split at h
        · simp at h
        · rename_i u h3
          split at h
          · simp at h
          · rename_i exec h4
            simp at h
            refine ⟨new_shape, arg_shapes, out_shapes, aux_shapes, ret_arg_arrays, exec,
              h0, h1, h2, h3, h4, h.symm, ?_, ?_⟩
            · simp only [h1, h2, h3, h4]
            · simp only [h1, h2, h3, h4]

/-- A successful Reshape writes a new handle. -/
theorem reshape_success_out (lib : Library) (input_keys : List String) (indptr data : List Nat)
    (p : MXAPIPredictor)
    (h : (MXPredReshape lib input_keys indptr data p).status = .success) :
    ∃ ret, (MXPredReshape lib input_keys indptr data p).out = some ret := by
  unfold MXPredReshape at h ⊢
  split
  · rename_i e h0
    simp only [h0] at h
    exact absurd h (Fault.toStatus_ne_success e)
  · rename_i new_shape h0
    simp only [h0] at h ⊢
    split
    · rename_i e h1
      simp only [h1] at h
      exact absurd h (Fault.toStatus_ne_success e)
    · rename_i arg_shapes out_shapes aux_shapes h1
      simp only [h1] at h ⊢
      split
      · rename_i e h2
        simp only [h2] at h
        exact absurd h (Fault.toStatus_ne_success e)
      · rename_i ret_arg_arrays h2
        simp only [h2] at h ⊢
        split
        · rename_i e h3
          simp only [h3] at h
          exact absurd h (Fault.toStatus_ne_success e)
        · rename_i u h3
          simp only [h3] at h ⊢
          split
          · rename_i e h4
            simp only [h4] at h
            simp at h
          · exact ⟨_, rfl⟩

/-- A creating call writes a handle only when its body ran to the end. -/
theorem create_out_some (lib : Library) (json : Option String) (bytes : List Nat)
    (dev_type dev_id : Int) (input_keys : List String) (indptr data : List Nat)
    (output_keys : List String) (ret : MXAPIPredictor)
    (h : (MXPredCreatePartialOut lib json bytes dev_type dev_id input_keys indptr data
      output_keys).out = some ret) :
    MXPredCreatePartialOut_body lib json bytes dev_type dev_id input_keys indptr data
      output_keys = .ok (some ret) := by
  unfold MXPredCreatePartialOut at h
  split at h
  · rename_i ret0 hb
    simp at h
    rw [hb, h]
  · simp at h
  · simp at h
  · simp at h

/-- What a session returned by Create holds: valid argument indices, for a duplicate-free
list of read-only input names the position of every name, one argument tensor per
read-only input, and the initial graph, context and auxiliary bindings. -/
theorem create_fields (lib : Library) (json : Option String) (bytes : List Nat)
    (dev_type dev_id : Int) (input_keys : List String) (indptr data : List Nat)
    (output_keys : List String) (ret : MXAPIPredictor)
    (h : (MXPredCreatePartialOut lib json bytes dev_type dev_id input_keys indptr data
      output_keys).out = some ret) :
    ∃ js sym0 sym, json = some js ∧ lib.LoadLegacyJSON (std_string js) = .ok sym0 ∧
      selectOutputs lib sym0 output_keys = .ok sym ∧
      KeysValid ret ∧
      ((sym.ListInputNames .kReadOnlyArgs).Nodup → ∀ (i : Nat) (name : String),
        (sym.ListInputNames .kReadOnlyArgs)[i]? = some name → ret.key2arg.find name = some i) ∧
      ret.arg_arrays.length = (sym.ListInputNames .kReadOnlyArgs).length ∧
      ret.aux_arrays = [] ∧ ret.sym = Symbol.init ∧ ret.ctx = Context.init := by
  obtain ⟨js, sym0, sym, ret0, pdata, names, arg_params, aux_params, known_shape, key2arg,
    arg_shapes, out_shapes, aux_shapes, arg_arrays, aux_arrays, exec, hjs, h0, h1, h2, -, -,
    h5, h6, h7, -, -, hret⟩ := create_body_ok _ _ _ _ _ _ _ _ _ _ (create_out_some _ _ _ _ _ _ _ _ _ _ h)
  obtain ⟨hk, -, haux, hsym, hctx⟩ := loadData_fields _ _ _ _ _ _ h2
  have hk0 : ret0.key2arg = UnorderedMap.empty := by rw [hk]; rfl
  rw [hk0] at h5
  obtain ⟨hvalid, hpos⟩ := key2arg_loop _ _ h5
  have hlen : arg_arrays.length = (sym.ListInputNames .kReadOnlyArgs).length := by
    rw [materialize_length _ _ _ _ _ _ h7]
    exact (inferShapes_length _ _ _ _ _ _ h6).1
  refine ⟨js, sym0, sym, hjs, h0, h1, ?_, ?_, ?_, ?_, ?_, ?_⟩
  · intro key i hi
    rw [hret] at hi ⊢
    simp only at hi ⊢
    rw [hlen]
    exact hvalid key i hi
  · intro hnd i name hname
    rw [hret]
    exact hpos hnd i name hname
  · rw [hret]; exact hlen
  · rw [hret]; simp only; rw [haux]; rfl
  · rw [hret]; simp only; rw [hsym]; rfl
  · rw [hret]; simp only; rw [hctx]; rfl

/-- The new session of Reshape has the key map of the prior session and as many argument
tensors, so valid argument indices stay valid. -/
theorem reshape_keys (lib : Library) (input_keys : List String) (indptr data : List Nat)
    (p ret : MXAPIPredictor)
    (h : (MXPredReshape lib input_keys indptr data p).out = some ret) :
    ret.key2arg = p.key2arg ∧ ret.arg_arrays.length = p.arg_arrays.length ∧
      (KeysValid p → KeysValid ret) := by
  obtain ⟨new_shape, arg_shapes, out_shapes, aux_shapes, ret_arg_arrays, exec, -, -, h2, -, -,
    hr, -, -⟩ := reshape_out_some lib input_keys indptr data p ret h
  have hloop := reshapeArg_loop _ _ _ _ _ h2
  have hk : ret.key2arg = p.key2arg := by rw [hr]
  have hl : ret.arg_arrays.length = p.arg_arrays.length := by rw [hr]; exact hloop.1
  refine ⟨hk, hl, ?_⟩
  intro hv key i hi
  rw [hl]
  rw [hk] at hi
  exact hv key i hi

/-- With valid argument indices MXPredSetInput has a defined status. -/
theorem setInput_defined (p : MXAPIPredictor) (hv : KeysValid p) (key : String)
    (data : List mx_float) : (MXPredSetInput p key data).status ≠ .undefined := by
  unfold MXPredSetInput NDArray.SyncCopyFromCPU
  cases hk : p.key2arg.find (std_string key) with
  | none => simp
  | some i =>
    have hi := hv _ _ hk
    simp only [List.getElem?_eq_getElem hi]
    by_cases hs : p.arg_arrays[i].shape.Size = data.length <;> simp [hs, Fault.toStatus]

/-- A name passes `strncmp` against a four-character tag and leaves the rest `n` exactly
when, read as a C string, it is the tag followed by `n`. -/
theorem cstr_tag_split (tag nm n : String) (htag : c_str tag = tag.toList)
    (h4 : tag.toList.length = 4) :
    (strncmp_eq nm tag 4 = true ∧ c_str_from nm 4 = n) ↔ c_str nm = tag.toList ++ n.toList := by
  unfold strncmp_eq c_str_from
  rw [htag]
  simp only [String.toList] at *
  have ht : tag.data.take 4 = tag.data := by
    rw [← h4]; exact List.take_length _
  rw [ht]
  constructor
  · rintro ⟨h1, h2⟩
    have h1 : (c_str nm).take 4 = tag.data := by simpa using h1
    subst h2
    show c_str nm = tag.data ++ (c_str nm).drop 4
    rw [← h1]
    exact (List.take_append_drop 4 (c_str nm)).symm
  · intro h
    rw [h]
    have hd : (tag.data ++ n.data).drop 4 = n.data := by
      rw [← h4]; exact List.drop_left _ _
    have htk : (tag.data ++ n.data).take 4 = tag.data := by
      rw [← h4]; exact List.take_left _ _
    rw [hd, htk]
    simp

/-- One iteration of the parameter loop extends `ParamsUpTo` by one entry. -/
theorem keepParam_step (tag : String) (declared names : List String) (data : List NDArray)
    (htag : c_str tag = tag.toList) (h4 : tag.toList.length = 4)
    (i : Nat) (m : UnorderedMap NDArray) (nm : String) (d : NDArray)
    (hnm : names[i]? = some nm) (hd : data[i]? = some d)
    (hP : ParamsUpTo tag declared names data i m) :
    ParamsUpTo tag declared names data (i + 1) (keepParam tag declared nm d m) := by
  obtain ⟨hP1, hP2⟩ := hP
  have hweak1 : ∀ n t, m.find n = some t → n ∈ declared ∧
      ∃ j nm, j < i + 1 ∧ names[j]? = some nm ∧ data[j]? = some t ∧
        c_str nm = tag.toList ++ n.toList := by
    intro n t h
    obtain ⟨h1, j, nm1, hj, h2, h3, h4⟩ := hP1 n t h
    exact ⟨h1, j, nm1, by omega, h2, h3, h4⟩
  unfold keepParam
  by_cases hs : strncmp_eq nm tag 4 = true
  · have hsplit := (cstr_tag_split tag nm (c_str_from nm 4) htag h4).mp ⟨hs, rfl⟩
    by_cases hc : declared.count (c_str_from nm 4) ≠ 0
    · have hmem : c_str_from nm 4 ∈ declared := by
        by_contra hnot
        exact hc (List.count_eq_zero_of_not_mem hnot)
      rw [if_pos hs, if_pos hc]
      constructor
      · intro n t h
        rw [UnorderedMap.find_assign] at h
        by_cases hn : n = c_str_from nm 4
        · rw [if_pos hn] at h
          simp at h
          subst h
          subst hn
          exact ⟨hmem, i, nm, by omega, hnm, hd, hsplit⟩
        · rw [if_neg hn] at h
          exact hweak1 n t h
      · intro j nm1 n hj hnm1 hcs hdecl
        rw [UnorderedMap.find_assign]
        by_cases hn : n = c_str_from nm 4
        · rw [if_pos hn]
          exact ⟨d, rfl⟩
        · rw [if_neg hn]
          have hji : j ≠ i := by
            intro heq
            subst heq
            rw [hnm] at hnm1
            simp at hnm1
            subst hnm1
            exact hn ((cstr_tag_split tag nm n htag h4).mpr hcs).2.symm
          exact hP2 j nm1 n (by omega) hnm1 hcs hdecl
    · rw [if_pos hs, if_neg hc]
      refine ⟨hweak1, ?_⟩
      intro j nm1 n hj hnm1 hcs hdecl
      have hji : j ≠ i := by
        intro heq
        subst heq
        rw [hnm] at hnm1
        simp at hnm1
        subst hnm1
        have hn := ((cstr_tag_split tag nm n htag h4).mpr hcs).2
        rw [hn] at hc
        exact hc (by
          intro h0
          exact (List.count_eq_zero.mp h0) hdecl)
      exact hP2 j nm1 n (by omega) hnm1 hcs hdecl
  · rw [if_neg hs]
    refine ⟨hweak1, ?_⟩
    intro j nm1 n hj hnm1 hcs hdecl
    have hji : j ≠ i := by
      intro heq
      subst heq
      rw [hnm] at hnm1
      simp at hnm1
      subst hnm1
      exact hs ((cstr_tag_split tag nm n htag h4).mpr hcs).1
    exact hP2 j nm1 n (by omega) hnm1 hcs hdecl

/-- The body of the parameter loop applies `keepParam` to each of the two maps. -/
theorem loadParams_body_eq (arg_names aux_names names : List String) (data : List NDArray)
    (i : Nat) (s : UnorderedMap NDArray × UnorderedMap NDArray) (nm : String) (d : NDArray)
    (hnm : names[i]? = some nm) (hd : data[i]? = some d) :
    loadParams_body arg_names aux_names names data i s =
      .ok (keepParam "arg:" arg_names nm d s.1, keepParam "aux:" aux_names nm d s.2) := by
  unfold loadParams_body keepParam
  simp [hnm, hd]

/-- A string without a NUL character is its own C string. -/
theorem c_str_of_no_nul (s : String) (h : Char.ofNat 0 ∉ s.toList) : c_str s = s.toList := by
  unfold c_str
  rw [List.takeWhile_eq_self_iff]
  intro c hc
  simp only [ne_eq, decide_not, Bool.not_eq_true', decide_eq_false_iff_not]
  intro heq
  exact h (heq ▸ hc)

/-- The parameter split never faults on lists of equal length, and its two maps hold
exactly what all the loaded entries give. -/
theorem loadParams_spec (sym : Symbol) (data : List NDArray) (names : List String)
    (hlen : names.length = data.length) :
    ∃ arg_params aux_params, loadParams sym data names = .ok (arg_params, aux_params) ∧
      ParamsUpTo "arg:" (sym.ListInputNames .kReadOnlyArgs) names data names.length arg_params ∧
      ParamsUpTo "aux:" (sym.ListInputNames .kAuxiliaryStates) names data names.length
        aux_params := by
  unfold loadParams
  simp only [hlen, if_true]
  have := forLoop_total
    (loadParams_body (sym.ListInputNames .kReadOnlyArgs) (sym.ListInputNames .kAuxiliaryStates)
      names data)
    (fun i s =>
      ParamsUpTo "arg:" (sym.ListInputNames .kReadOnlyArgs) names data i s.1 ∧
      ParamsUpTo "aux:" (sym.ListInputNames .kAuxiliaryStates) names data i s.2)
    data.length (UnorderedMap.empty, UnorderedMap.empty) ?_ ?_
  · obtain ⟨⟨a, x⟩, h1, h2, h3⟩ := this
    exact ⟨a, x, h1, h2, h3⟩
  · intro i s hi hP
    have hi2 : i < names.length := by omega
    have hnm : names[i]? = some names[i] := List.getElem?_eq_getElem hi2
    have hd : data[i]? = some data[i] := List.getElem?_eq_getElem hi
    refine ⟨_, loadParams_body_eq _ _ _ _ _ _ _ _ hnm hd, ?_, ?_⟩
    · exact keepParam_step "arg:" _ _ _ (by decide) (by decide) i s.1 _ _ hnm hd hP.1
    · exact keepParam_step "aux:" _ _ _ (by decide) (by decide) i s.2 _ _ hnm hd hP.2
  · constructor
    · constructor
      · intro n t h
        simp [UnorderedMap.find_empty] at h
      · intro j nm n hj
        omega
    · constructor
      · intro n t h
        simp [UnorderedMap.find_empty] at h
      · intro j nm n hj
        omega

/-- The keys of a map that holds what all the loaded entries give. -/
theorem ParamsUpTo_keys (tag : String) (declared names : List String) (data : List NDArray)
    (m : UnorderedMap NDArray) (hP : ParamsUpTo tag declared names data names.length m)
    (n : String) :
    (∃ t, m.find n = some t) ↔
      n ∈ declared ∧ ∃ nm ∈ names, c_str nm = tag.toList ++ n.toList := by
  constructor
  · rintro ⟨t, ht⟩
    obtain ⟨h1, j, nm, -, h2, -, h3⟩ := hP.1 n t ht
    exact ⟨h1, nm, List.getElem?_mem h2, h3⟩
  · rintro ⟨h1, nm, hnm, h3⟩
    obtain ⟨j, hj, hjk⟩ := List.getElem_of_mem hnm
    exact hP.2 j nm n hj (by simp [List.getElem?_eq_getElem hj, hjk]) h3 h1

/-- The shape table of well-formed caller arrays holds, for every name, the declared
shape. -/
theorem shapeTable_spec (input_keys : List String) (indptr data : List Nat)
    (hlen : input_keys.length + 1 ≤ indptr.length)
    (hmono : ∀ (i b e : Nat), i < input_keys.length → indptr[i]? = some b →
      indptr[i + 1]? = some e → b ≤ e ∧ e ≤ data.length) :
    ∃ table, shapeTable input_keys indptr data = .ok table ∧
      ∀ k, table.find k = declaredShape input_keys indptr data k input_keys.length := by
  unfold shapeTable
  refine forLoop_total (shapeTable_body input_keys indptr data)
    (fun i (m : UnorderedMap TShape) =>
      ∀ k, m.find k = declaredShape input_keys indptr data k i)
    input_keys.length UnorderedMap.empty ?_ ?_
  · intro i m hi hP
    have h1 : i < indptr.length := by omega
    have h2 : i + 1 < indptr.length := by omega
    have hk : input_keys[i]? = some input_keys[i] := List.getElem?_eq_getElem hi
    have hb : indptr[i]? = some indptr[i] := List.getElem?_eq_getElem h1
    have he : indptr[i + 1]? = some indptr[i + 1] := List.getElem?_eq_getElem h2
    have hm := hmono i _ _ hi hb he
    refine ⟨m.assign (std_string input_keys[i])
      ⟨(data.drop indptr[i]).take (indptr[i + 1] - indptr[i])⟩, ?_, ?_⟩
    · unfold shapeTable_body
      simp only [hk, hb, he]
      rw [if_pos hm]
    · intro k
      rw [UnorderedMap.find_assign]
      unfold declaredShape
      simp only [hk, hb, he, Option.map_some', Option.some.injEq, List.getD_eq_getElem?_getD,
        Option.getD_some]
      by_cases hkk : k = std_string input_keys[i]
      · subst hkk
        simp
      · have hkk2 : ¬ std_string input_keys[i] = k := fun h => hkk h.symm
        rw [if_neg hkk, if_neg hkk2]
        exact hP k
  · intro k
    rfl

/-- No declared shape for a name that no input key has. -/
theorem declaredShape_none (input_keys : List String) (indptr data : List Nat) (k : String)
    (h : ∀ key ∈ input_keys, std_string key ≠ k) (n : Nat) :
    declaredShape input_keys indptr data k n = none := by
  induction n with
  | zero => rfl
  | succ i ih =>
    unfold declaredShape
    have : ¬ (input_keys[i]?.map std_string = some k) := by
      intro hc
      cases hk : input_keys[i]? with
      | none => simp [hk] at hc
      | some key =>
        simp [hk] at hc
        exact h key (List.getElem?_mem hk) hc
    rw [if_neg this]
    exact ih

/-- The declared shape for a name is the slice of the last input key that has it. -/
theorem declaredShape_last (input_keys : List String) (indptr data : List Nat) (k : String)
    (i : Nat) (key : String) (b e : Nat) (hkey : input_keys[i]? = some key)
    (hname : std_string key = k)
    (hlast : ∀ (i1 : Nat) (key1 : String), i < i1 → input_keys[i1]? = some key1 →
      std_string key1 ≠ k)
    (hb : indptr[i]? = some b) (he : indptr[i + 1]? = some e) (n : Nat) (hn : i < n) :
    declaredShape input_keys indptr data k n = some ⟨(data.drop b).take (e - b)⟩ := by
  induction n with
  | zero => omega
  | succ m ih =>
    unfold declaredShape
    by_cases hmi : m = i
    · subst hmi
      simp [hkey, hname, hb, he]
    · have hlt : i < m := by omega
      have : ¬ (input_keys[m]?.map std_string = some k) := by
        intro hc
        cases hk : input_keys[m]? with
        | none => simp [hk] at hc
        | some key1 =>
          simp [hk] at hc
          exact hlast m key1 hlt hk hc
      rw [if_neg this]
      exact ih hlt

/-- The loop `ret->key2arg[arg_names[i]] = i` never faults. -/
theorem key2arg_loop_total (arg_names : List String) (m : UnorderedMap Nat) :
    ∃ key2arg, forLoop arg_names.length (key2arg_body arg_names) m = .ok key2arg := by
  obtain ⟨k, hk, -⟩ := forLoop_total (key2arg_body arg_names) (fun _ _ => True)
    arg_names.length m
    (by
      intro i s hi _
      refine ⟨s.assign arg_names[i] i, ?_, trivial⟩
      unfold key2arg_body
      simp [List.getElem?_eq_getElem hi])
    trivial
  exact ⟨k, hk⟩

/-- A copy of as many values as the buffer has elements leaves exactly the values. -/
theorem copyInto_of_length (values : List mx_float) (size : Nat) (h : values.length = size) :
    copyInto values size = values := by
  unfold copyInto
  rw [← h]
  exact List.take_left _ _

/-- The copy fills the whole buffer. -/
theorem copyInto_length (values : List mx_float) (size : Nat) :
    (copyInto values size).length = size := by
  unfold copyInto
  simp

/-- One iteration of the loop of `MXNDListCreate` never faults and extends `NDListUpTo`. -/
theorem NDListCreate_step (arrays : List NDArray) (keys : List String) (i : Nat)
    (l : MXAPINDList) (hi : i < arrays.length) (hP : NDListUpTo arrays keys i l) :
    ∃ l1, NDListCreate_body arrays i l = .ok l1 ∧ NDListUpTo arrays keys (i + 1) l1 := by
  obtain ⟨hk, hs, hlen, h0, hlast, hval⟩ := hP
  have hnd : arrays[i]? = some arrays[i] := List.getElem?_eq_getElem hi
  refine ⟨{ l with
      shapes := l.shapes ++ [arrays[i].shape]
      data := l.data ++ copyInto arrays[i].data arrays[i].shape.Size
      indptr := l.indptr ++ [l.data.length + arrays[i].shape.Size] }, ?_, ?_⟩
  · unfold NDListCreate_body NDArray.SyncCopyToCPU
    simp [hnd]
  · refine ⟨hk, ?_, ?_, ?_, ?_, ?_⟩
    · show l.shapes ++ [arrays[i].shape] = (arrays.take (i + 1)).map NDArray.shape
      rw [hs, List.take_succ, hnd, List.map_append]
      rfl
    · simp [hlen]
    · rw [List.getElem?_append_left (by omega)]
      exact h0
    · have : (l.indptr ++ [l.data.length + arrays[i].shape.Size])[i + 1]? =
          some (l.data.length + arrays[i].shape.Size) := by
        rw [List.getElem?_append_right (by omega)]
        simp [hlen]
      rw [this]
      simp [copyInto_length]
    · intro j nd hj hjnd
      by_cases hji : j = i
      · subst hji
        rw [hnd] at hjnd
        simp at hjnd
        subst hjnd
        refine ⟨l.data.length, ?_, ?_, ?_, ?_⟩
        · rw [List.getElem?_append_left (by omega)]
          exact hlast
        · rw [List.getElem?_append_right (by omega)]
          simp [hlen]
        · simp [copyInto_length]
        · simp [copyInto_length]
      · have hjlt : j < i := by omega
        obtain ⟨b, hb1, hb2, hb3, hb4⟩ := hval j nd hjlt hjnd
        refine ⟨b, ?_, ?_, ?_, ?_⟩
        · rw [List.getElem?_append_left (by omega)]
          exact hb1
        · rw [List.getElem?_append_left (by omega)]
          exact hb2
        · simp
          omega
        · rw [List.drop_append_of_le_length (by omega)]
          rw [List.take_append_of_le_length (by simp; omega)]
          exact hb4

/-- `MXNDListCreate` on a loaded bundle succeeds; its list holds what all arrays give. -/
theorem NDListCreate_spec (lib : Library) (bytes : List Nat) (arrays : List NDArray)
    (keys : List String) (hload : lib.NDArray_Load bytes = .ok (arrays, keys)) :
    ∃ l, MXNDListCreate lib bytes = ⟨.success, some l, some (arrays.length % 2 ^ 32)⟩ ∧
      NDListUpTo arrays (if keys.length = 0 then List.replicate arrays.length "" else keys)
        arrays.length l := by
  unfold MXNDListCreate
  simp only [hload]
  obtain ⟨l, hl, hP⟩ := forLoop_total (NDListCreate_body arrays)
    (fun i l => NDListUpTo arrays
      (if keys.length = 0 then List.replicate arrays.length "" else keys) i l)
    arrays.length
    ({ (if keys.length = 0 then
          { { MXAPINDList.init with keys := keys } with
            keys := List.replicate arrays.length "" }
        else { MXAPINDList.init with keys := keys }) with
        indptr := (if keys.length = 0 then
          { { MXAPINDList.init with keys := keys } with
            keys := List.replicate arrays.length "" }
        else { MXAPINDList.init with keys := keys }).indptr ++ [0] })
    (fun i l hi hP => NDListCreate_step arrays _ i l hi hP)
    (by
      by_cases hk : keys.length = 0
      · simp [hk, NDListUpTo, MXAPINDList.init]
      · simp [hk, NDListUpTo, MXAPINDList.init])
  refine ⟨l, ?_, hP⟩
  simp only [hl]

/-- A string without a NUL character is its own C string, as a `std::string`. -/
theorem std_string_of_no_nul (s : String) (h : Char.ofNat 0 ∉ s.toList) : std_string s = s := by
  unfold std_string
  rw [c_str_of_no_nul s h]
  cases s
  rfl

/-- The cast to 32 bits keeps dimensions below `2 ^ 32`. -/
theorem ShapeTypeCast_of_small (s : TShape) (h : ∀ d ∈ s.dims, d < 2 ^ 32) :
    ShapeTypeCast s = s.dims := by
  unfold ShapeTypeCast
  have : ∀ l : List Nat, (∀ d ∈ l, d < 2 ^ 32) → l.map (fun d => d % 2 ^ 32) = l := by
    intro l
    induction l with
    | nil => intro _; rfl
    | cons a t ih =>
      intro hl
      rw [List.map_cons, ih (fun d hd => hl d (List.mem_cons_of_mem a hd)),
        Nat.mod_eq_of_lt (hl a (List.mem_cons_self a t))]
  exact this s.dims h

/-- What `MXNDListGet` does on a list that the loop of `MXNDListCreate` has built. -/
theorem NDListGet_of_built (arrays : List NDArray) (keys : List String) (l : MXAPINDList)
    (hP : NDListUpTo arrays keys arrays.length l) (index : Nat) :
    (arrays.length ≤ index →
      MXNDListGet l index = ⟨.failure "Index out of range", l, none⟩) ∧
    (∀ name nd, keys[index]? = some name → arrays[index]? = some nd →
      ∃ b, l.indptr[index]? = some b ∧ l.indptr[index + 1]? = some (b + nd.shape.Size) ∧
        (l.data.drop b).take nd.shape.Size = copyInto nd.data nd.shape.Size ∧
        MXNDListGet l index =
          ⟨.success, { l with shapes_buffer := ShapeTypeCast nd.shape },
            some ⟨std_string name, l.data.drop b, ShapeTypeCast nd.shape, nd.shape.ndim⟩⟩) := by
  obtain ⟨hkeys, hs, hlen, h0, hlast, hval⟩ := hP
  have hslen : l.shapes.length = arrays.length := by simp [hs]
  constructor
  · intro hle
    unfold MXNDListGet
    have : ¬ index < l.shapes.length := by omega
    rw [if_neg this]
  · intro name nd hname hnd
    have hi : index < arrays.length := by
      rcases Nat.lt_or_ge index arrays.length with h1 | h1
      · exact h1
      · simp [List.getElem?_eq_none h1] at hnd
    obtain ⟨b, hb1, hb2, -, hb4⟩ := hval index nd hi hnd
    refine ⟨b, hb1, hb2, hb4, ?_⟩
    have hsh : l.shapes[index]? = some nd.shape := by
      rw [hs, List.getElem?_map, List.getElem?_take_of_lt hi, hnd]
      rfl
    unfold MXNDListGet
    have hlt : index < l.shapes.length := by omega
    rw [if_pos hlt]
    simp only [hkeys, hname, hb1, hsh]

/-- The element after a prefix is at the position of the length of the prefix. -/
theorem getElem?_append_cons {α : Type} (pre suf : List α) (x : α) :
    (pre ++ x :: suf)[pre.length]? = some x := by
  rw [List.getElem?_append_right (Nat.le_refl _)]
  simp

/-- Overwriting the element after a prefix. -/
theorem set_append_cons {α : Type} (pre suf : List α) (x y : α) :
    (pre ++ x :: suf).set pre.length y = pre ++ y :: suf := by
  rw [List.set_append_right _ _ (Nat.le_refl _)]
  simp

/-- The events of a span do not depend on the queue of the bucket. -/
theorem emitEvent_queue (env : ProfilerEnv) (d : DevStat) (q : List (Option Nat))
    (r : OprExecStat) (s : String) :
    emitEvent env { d with opr_exec_stats_ := q } r s = emitEvent env d r s := rfl

/-- The `while` loop of DumpProfile on one bucket: with more fuel than the queue has valid
entries it empties the queue and appends the events of its records. -/
theorem drain_bucket (env : ProfilerEnv) (p : Profiler) (pre suf : List DevStat)
    (dev_id : Nat) (dev_name : String) :
    ∀ (q : List (Option Nat)) (ev : List TraceEvent) (fuel : Nat), q.length < fuel →
      QueueValid p.records q →
      whileLoop (drain_body env pre.length) fuel
        ({ p with profile_stat := pre ++ ⟨dev_id, dev_name, q⟩ :: suf }, ev) =
      some (.ok ({ p with profile_stat := pre ++ ⟨dev_id, dev_name, []⟩ :: suf },
        ev ++ spanEvents env p.records ⟨dev_id, dev_name, q⟩)) := by
  intro q
  induction q with
  | nil =>
    intro ev fuel hf _
    obtain ⟨f, rfl⟩ : ∃ f, fuel = f + 1 := ⟨fuel - 1, by omega⟩
    have hstep : drain_body env pre.length
        ({ p with profile_stat := pre ++ ⟨dev_id, dev_name, []⟩ :: suf }, ev) = .ok none := by
      unfold drain_body
      simp only [getElem?_append_cons]
    unfold whileLoop
    rw [hstep]
    simp [spanEvents]
  | cons e q ih =>
    intro ev fuel hf hv
    obtain ⟨f, rfl⟩ : ∃ f, fuel = f + 1 := ⟨fuel - 1, by simp at hf; omega⟩
    obtain ⟨ptr, he, hptr⟩ := hv e (List.mem_cons_self e q)
    subst he
    have hq : QueueValid p.records q := fun x hx => hv x (List.mem_cons_of_mem _ hx)
    have hf2 : q.length < f := by simp at hf; omega
    have hrec : p.records[ptr]? = some p.records[ptr] := List.getElem?_eq_getElem hptr
    have hstep : drain_body env pre.length
        ({ p with profile_stat := pre ++ ⟨dev_id, dev_name, some ptr :: q⟩ :: suf }, ev) =
        .ok (some ({ p with profile_stat := pre ++ ⟨dev_id, dev_name, q⟩ :: suf },
          ev ++ [emitEvent env ⟨dev_id, dev_name, some ptr :: q⟩ p.records[ptr] "B",
            emitEvent env ⟨dev_id, dev_name, some ptr :: q⟩ p.records[ptr] "E"])) := by
      unfold drain_body
      simp only [getElem?_append_cons, set_append_cons, hrec]
    unfold whileLoop
    rw [hstep]
    simp only
    rw [ih _ f hf2 hq]
    simp [spanEvents, hrec, List.flatMap_cons, emitEvent]

/-- The loop of DumpProfile over the buckets: with more fuel than any queue has entries it
empties every queue and appends the events of all records, bucket after bucket. -/
theorem drain_all (env : ProfilerEnv) (p : Profiler) (fuel : Nat) :
    ∀ (suf pre : List DevStat) (ev : List TraceEvent),
      (∀ d ∈ suf, QueueValid p.records d.opr_exec_stats_ ∧ d.opr_exec_stats_.length < fuel) →
      drainBuckets env fuel pre.length suf.length ({ p with profile_stat := pre ++ suf }, ev) =
      some (.ok ({ p with
          profile_stat := pre ++ suf.map (fun d => { d with opr_exec_stats_ := [] }) },
        ev ++ suf.flatMap (spanEvents env p.records))) := by
  intro suf
  induction suf with
  | nil =>
    intro pre ev _
    simp [drainBuckets]
  | cons d suf ih =>
    intro pre ev h
    obtain ⟨hv, hf⟩ := h d (List.mem_cons_self d suf)
    have hrest : ∀ x ∈ suf,
        QueueValid p.records x.opr_exec_stats_ ∧ x.opr_exec_stats_.length < fuel :=
      fun x hx => h x (List.mem_cons_of_mem _ hx)
    have hd : d = ⟨d.dev_id_, d.dev_name_, d.opr_exec_stats_⟩ := by cases d; rfl
    have hw := drain_bucket env p pre suf d.dev_id_ d.dev_name_ d.opr_exec_stats_ ev fuel hf hv
    rw [← hd] at hw
    simp only [List.length_cons, drainBuckets]
    rw [hw]
    simp only
    have hih := ih (pre ++ [⟨d.dev_id_, d.dev_name_, []⟩])
      (ev ++ spanEvents env p.records d) hrest
    simp only [List.length_append, List.length_singleton, List.append_assoc,
      List.singleton_append] at hih
    rw [hih]
    simp [List.flatMap_cons]

/-- The first loop of DumpProfile emits the process-metadata record of every bucket. -/
theorem dumpPid_loop (env : ProfilerEnv) (p : Profiler) :
    forLoop p.profile_stat.length (dumpPid_body env p) [] =
      .ok (p.profile_stat.map (emitPid env)) := by
  obtain ⟨ev, hev, hP⟩ := forLoop_total (dumpPid_body env p)
    (fun i (ev : List TraceEvent) => ev = (p.profile_stat.take i).map (emitPid env))
    p.profile_stat.length []
    (by
      intro i s hi hP
      refine ⟨s ++ [emitPid env p.profile_stat[i]], ?_, ?_⟩
      · unfold dumpPid_body
        simp [List.getElem?_eq_getElem hi]
      · show s ++ [emitPid env p.profile_stat[i]] =
          (p.profile_stat.take (i + 1)).map (emitPid env)
        rw [hP, List.take_succ, List.getElem?_eq_getElem hi, List.map_append]
        rfl)
    (by simp)
  rw [hev, hP, List.take_length]

/-- Every queue is at most as long as all queues together. -/
theorem queue_le_totalQueued (p : Profiler) (d : DevStat) (hd : d ∈ p.profile_stat) :
    d.opr_exec_stats_.length ≤ totalQueued p := by
  unfold totalQueued
  have : ∀ l : List DevStat, d ∈ l →
      d.opr_exec_stats_.length ≤ (l.map (fun d => d.opr_exec_stats_.length)).sum := by
    intro l
    induction l with
    | nil => intro h; cases h
    | cons a t ih =>
      intro h
      rw [List.map_cons, List.sum_cons]
      rcases List.mem_cons.mp h with h1 | h1
      · subst h1; omega
      · have := ih h1; omega
  exact this p.profile_stat hd

/-- DumpProfile on a well-formed profiler, with more fuel than records are queued: it returns,
leaves the profiler stopped with output disabled and every queue empty, and its trace is
the trace of the specification. -/
theorem dump_spec (env : ProfilerEnv) (p : Profiler) (fuel now : Nat) (hwf : ProfilerWF p)
    (hfuel : totalQueued p < fuel) :
    p.DumpProfile env fuel now =
      some (.ok ⟨{ p with
          state_ := .kNotRunning, enable_output_ := false
          profile_stat := p.profile_stat.map (fun d => { d with opr_exec_stats_ := [] }) },
        traceOf env p⟩) := by
  obtain ⟨hlen, hfit, hq⟩ := hwf
  unfold Profiler.DumpProfile
  have hs : p.SetState .kNotRunning now = { p with state_ := .kNotRunning } := by
    simp [Profiler.SetState]
  simp only [hs]
  have hnum : (p.cpu_num_ + p.gpu_num_ + 1) % 2 ^ 32 = p.profile_stat.length := by
    rw [Nat.mod_eq_of_lt hfit, hlen]
  rw [hnum]
  have hpid := dumpPid_loop env { p with state_ := .kNotRunning }
  simp only at hpid
  rw [hpid]
  simp only
  have hall := drain_all env { p with state_ := .kNotRunning } fuel p.profile_stat []
    (p.profile_stat.map (emitPid env))
    (fun d hd => ⟨hq d hd, Nat.lt_of_le_of_lt (queue_le_totalQueued p d hd) hfuel⟩)
  simp only [List.length_nil, List.nil_append] at hall
  rw [hall]
  rfl

/-- A queue that is valid stays valid when records are added. -/
theorem QueueValid_mono (records : List OprExecStat) (n : Nat) (queue : List (Option Nat))
    (hn : records.length ≤ n) (h : QueueValid records queue) :
    ∀ e ∈ queue, ∃ ptr, e = some ptr ∧ ptr < n := by
  intro e he
  obtain ⟨ptr, h1, h2⟩ := h e he
  exact ⟨ptr, h1, by omega⟩

/-- The constructor builds a well-formed profiler without records. -/
theorem new_wf (env : ProfilerEnv) (now : Nat) (p : Profiler)
    (h : Profiler.new env now = .ok p) : ProfilerWF p ∧ p.records = [] := by
  unfold Profiler.new at h
  simp only at h
  split at h
  · simp at h
  · rename_i ps1 h1
    split at h
    · simp at h
    · rename_i ps2 h2
      split at h
      · simp at h
      · rename_i d h3
        simp at h
        have hc := forLoop_inv Profiler_cpu_body
          (fun i (ps : List DevStat) =>
            ps.length = (env.hardware_concurrency % 2 ^ 32 +
              (if env.MXNET_USE_CUDA = true then 32 else 0) + 1) % 2 ^ 32 ∧
            (∀ x ∈ ps, x.opr_exec_stats_ = []) ∧ i ≤ ps.length)
          (env.hardware_concurrency % 2 ^ 32) _ ps1
          (by
            intro i ps ps' _ hP hb
            unfold Profiler_cpu_body at hb
            split at hb
            · simp at hb
            · rename_i x hx
              simp at hb
              subst hb
              have hi : i < ps.length := by
                rcases Nat.lt_or_ge i ps.length with h1 | h1
                · exact h1
                · simp [List.getElem?_eq_none h1] at hx
              refine ⟨by simp [hP.1], ?_, by simp; omega⟩
              intro y hy
              rcases List.mem_or_eq_of_mem_set hy with hy1 | hy1
              · exact hP.2.1 y hy1
              · subst hy1
                exact hP.2.1 x (List.getElem?_mem hx))
          (by
            refine ⟨by simp, ?_, by simp⟩
            intro x hx
            rw [List.eq_of_mem_replicate hx])
          h1
        have hg := forLoop_inv
          (Profiler_gpu_body (env.hardware_concurrency % 2 ^ 32))
          (fun _ (ps : List DevStat) =>
            ps.length = ps1.length ∧ (∀ x ∈ ps, x.opr_exec_stats_ = []))
          (if env.MXNET_USE_CUDA = true then 32 else 0) _ ps2
          (by
            intro i ps ps' _ hP hb
            unfold Profiler_gpu_body at hb
            split at hb
            · simp at hb
            · rename_i x hx
              simp at hb
              subst hb
              refine ⟨by simp [hP.1], ?_⟩
              intro y hy
              rcases List.mem_or_eq_of_mem_set hy with hy1 | hy1
              · exact hP.2 y hy1
              · subst hy1
                exact hP.2 x (List.getElem?_mem hx))
          ⟨rfl, hc.2.1⟩
          h2
        obtain ⟨hlen1, hq1, hle⟩ := hc
        obtain ⟨hlen2, hq2⟩ := hg
        have hcpu : env.hardware_concurrency % 2 ^ 32 < 2 ^ 32 := Nat.mod_lt _ (by norm_num)
        have hgpu : (if env.MXNET_USE_CUDA = true then 32 else 0) ≤ 32 := by
          split <;> omega
        have hnowrap : env.hardware_concurrency % 2 ^ 32 +
            (if env.MXNET_USE_CUDA = true then 32 else 0) + 1 < 2 ^ 32 := by
          rw [hlen1] at hle
          omega
        subst h
        refine ⟨⟨?_, hnowrap, ?_⟩, rfl⟩
        · simp only [List.length_set]
          rw [hlen2, hlen1, Nat.mod_eq_of_lt hnowrap]
          norm_num
        · intro y hy e he
          have hy0 : y.opr_exec_stats_ = [] := by
            rcases List.mem_or_eq_of_mem_set hy with hy1 | hy1
            · exact hq2 y hy1
            · subst hy1
              exact hq2 d (List.getElem?_mem h3)
          rw [hy0] at he
          cases he

/-- Every operation keeps the profiler well-formed. -/
theorem op_wf (env : ProfilerEnv) (p p1 : Profiler) (now : Nat) (op : ProfilerOp)
    (hwf : ProfilerWF p) (h : op.run env p now = .ok p1) : ProfilerWF p1 := by
  obtain ⟨hlen, hfit, hq⟩ := hwf
  have hrec : ∀ (opr_stat : Option Nat) (f : OprExecStat → OprExecStat) (q : Profiler),
      (match opr_stat with
        | none => (.error .undefined : Except Fault Profiler)
        | some ptr =>
          match p.records[ptr]? with
          | none => .error .undefined
          | some r => .ok { p with records := p.records.set ptr (f r) }) = .ok q →
      ProfilerWF q := by
    intro opr_stat f q hq1
    split at hq1
    · simp at hq1
    · split at hq1
      · simp at hq1
      · simp at hq1
        subst hq1
        exact ⟨hlen, hfit, fun d hd e he => by
          obtain ⟨ptr, h1, h2⟩ := hq d hd e he
          exact ⟨ptr, h1, by simpa using h2⟩⟩
  cases op with
  | SetState state =>
    simp [ProfilerOp.run] at h
    subst h
    unfold Profiler.SetState
    split
    · exact ⟨hlen, hfit, hq⟩
    · exact ⟨hlen, hfit, hq⟩
  | SetConfig mode output_filename =>
    simp [ProfilerOp.run] at h
    subst h
    exact ⟨hlen, hfit, hq⟩
  | AddOprStat dev_type dev_id =>
    simp only [ProfilerOp.run] at h
    split at h
    · simp at h
    · rename_i q ptr ha
      simp at h
      subst h
      unfold Profiler.AddOprStat at ha
      simp only at ha
      split at ha
      · simp at ha
      · split at ha
        · split at ha
          · simp at ha
          · rename_i dev_stat hds
            simp at ha
            obtain ⟨ha1, -⟩ := ha
            subst ha1
            refine ⟨by simpa using hlen, hfit, ?_⟩
            intro d hd e he
            simp only [List.length_append, List.length_singleton]
            rcases List.mem_or_eq_of_mem_set hd with hd1 | hd1
            · obtain ⟨ptr1, h1, h2⟩ := hq d hd1 e he
              exact ⟨ptr1, h1, by omega⟩
            · subst hd1
              simp only [List.mem_append, List.mem_singleton] at he
              rcases he with he1 | he1
              · obtain ⟨ptr1, h1, h2⟩ := hq dev_stat (List.getElem?_mem hds) e he1
                exact ⟨ptr1, h1, by omega⟩
              · exact ⟨p.records.length, he1, by omega⟩
        · simp at ha
  | AddOprMetadata opr_stat key value =>
    simp only [ProfilerOp.run, AddOprMetadata] at h
    split at h
    · simp at h
    · split at h
      · simp at h
      · split at h
        · simp at h
          subst h
          exact ⟨hlen, hfit, hq⟩
        · simp at h
          subst h
          exact ⟨hlen, hfit, fun d hd e he => by
            obtain ⟨ptr, h1, h2⟩ := hq d hd e he
            exact ⟨ptr, h1, by simpa using h2⟩⟩
  | SetOprCategory opr_stat category =>
    simp only [ProfilerOp.run, SetOprCategory] at h
    exact hrec opr_stat (fun r => { r with category := category }) p1 h
  | SetOprStart opr_stat =>
    simp only [ProfilerOp.run, SetOprStart] at h
    cases opr_stat with
    | none =>
      simp at h
      subst h
      exact ⟨hlen, hfit, hq⟩
    | some ptr =>
      exact hrec (some ptr)
        (fun r => { r with opr_start_rel_micros := sub64 now p.init_time_ }) p1 h
  | SetOprEnd opr_stat =>
    simp only [ProfilerOp.run, SetOprEnd] at h
    exact hrec opr_stat (fun r => { r with opr_end_rel_micros := sub64 now p.init_time_ }) p1 h

/-- Hoare rule for `whileLoop`. -/
theorem whileLoop_inv {σ : Type} (body : σ → Except Fault (Option σ)) (P : σ → Prop)
    (hstep : ∀ s s1, P s → body s = .ok (some s1) → P s1) :
    ∀ (fuel : Nat) (s s1 : σ), P s → whileLoop body fuel s = some (.ok s1) → P s1 := by
  intro fuel
  induction fuel with
  | zero =>
    intro s s1 _ h
    simp [whileLoop] at h
  | succ f ih =>
    intro s s1 hP h
    unfold whileLoop at h
    cases hb : body s with
    | error e => simp [hb] at h
    | ok o =>
      cases o with
      | none =>
        simp [hb] at h
        subst h
        exact hP
      | some s2 =>
        simp [hb] at h
        exact ih s2 s1 (hstep s s2 hP hb) h

/-- One step of a drain keeps the profiler well-formed. -/
theorem drain_body_wf (env : ProfilerEnv) (i : Nat) (s s1 : Profiler × List TraceEvent)
    (hwf : ProfilerWF s.1) (h : drain_body env i s = .ok (some s1)) : ProfilerWF s1.1 := by
  obtain ⟨hlen, hfit, hq⟩ := hwf
  unfold drain_body at h
  split at h
  · simp at h
  · rename_i d hd
    split at h
    · simp at h
    · rename_i e rest hrest
      split at h
      · simp at h
      · simp only at h
        split at h
        · simp at h
        · simp at h
          subst h
          refine ⟨by simpa using hlen, hfit, ?_⟩
          intro x hx
          rcases List.mem_or_eq_of_mem_set hx with hx1 | hx1
          · exact hq x hx1
          · subst hx1
            intro y hy
            have := hq d (List.getElem?_mem hd)
            rw [hrest] at this
            exact this y (List.mem_cons_of_mem _ hy)

/-- The loop over the buckets keeps the profiler well-formed. -/
theorem drainBuckets_wf (env : ProfilerEnv) (fuel : Nat) :
    ∀ (count start : Nat) (s s1 : Profiler × List TraceEvent), ProfilerWF s.1 →
      drainBuckets env fuel start count s = some (.ok s1) → ProfilerWF s1.1 := by
  intro count
  induction count with
  | zero =>
    intro start s s1 hwf h
    simp [drainBuckets] at h
    subst h
    exact hwf
  | succ c ih =>
    intro start s s1 hwf h
    unfold drainBuckets at h
    split at h
    · simp at h
    · simp at h
    · rename_i s2 hw
      exact ih (start + 1) s2 s1
        (whileLoop_inv (drain_body env start) (fun s => ProfilerWF s.1)
          (fun a b ha hb => drain_body_wf env start a b ha hb) fuel s s2 hwf hw) h

/-- DumpProfile keeps the profiler well-formed. -/
theorem dump_wf (env : ProfilerEnv) (fuel now : Nat) (p : Profiler) (r : DumpResult)
    (hwf : ProfilerWF p) (h : p.DumpProfile env fuel now = some (.ok r)) :
    ProfilerWF r.profiler := by
  unfold Profiler.DumpProfile at h
  simp only at h
  split at h
  · simp at h
  · split at h
    · simp at h
    · simp at h
    · rename_i p2 ev2 hd
      simp at h
      subst h
      have hwf0 : ProfilerWF (p.SetState .kNotRunning now) := by
        simp [Profiler.SetState]
        exact hwf
      have := drainBuckets_wf env fuel _ _ _ _ hwf0 hd
      exact this

/-- Every reachable profiler is well-formed. -/
theorem reached_wf (env : ProfilerEnv) (p : Profiler) (h : ProfilerReached env p) :
    ProfilerWF p := by
  induction h with
  | new now p hnew => exact (new_wf env now p hnew).1
  | op now op p p1 _ hrun ih => exact op_wf env p p1 now op ih hrun
  | dump fuel now p r _ hdump ih => exact dump_wf env fuel now p r ih hdump

/-- Unsigned subtraction is subtraction when nothing wraps. -/
theorem sub64_eq (a b : Nat) (hab : b ≤ a) (ha : a < 2 ^ 64) : sub64 a b = a - b := by
  unfold sub64
  have hb : b < 2 ^ 64 := by omega
  rw [Nat.mod_eq_of_lt ha, Nat.mod_eq_of_lt hb]
  have : a + 2 ^ 64 - b = (a - b) + 2 ^ 64 := by omega
  rw [this, Nat.add_mod_right, Nat.mod_eq_of_lt (by omega)]

/-- The conversion to `int` keeps a value below `2 ^ 31`. -/
theorem toInt32_eq (n : Nat) (h : n < 2 ^ 31) : toInt32 n = (n : Int) := by
  unfold toInt32
  have h1 : n % 2 ^ 32 = n := Nat.mod_eq_of_lt (by omega)
  rw [h1, if_pos h]

/-- AddOprStat on a device that has a bucket: the record is allocated and its pointer is
appended to the queue of that bucket. -/
theorem addOprStat_bucket (env : ProfilerEnv) (p : Profiler) (dev_type : Int)
    (dev_id idx : Nat) (hwf : ProfilerWF p) (hfit : p.cpu_num_ + p.gpu_num_ < 2 ^ 31)
    (hb : bucketOf p dev_type dev_id = some idx) :
    ∃ d, p.profile_stat[idx]? = some d ∧
      p.AddOprStat env dev_type dev_id =
        .ok ({ p with
            records := p.records ++
              [{ env.new_OprExecStat with
                  category := "generic", dev_type := dev_type, dev_id := dev_id
                  opr_name := "undefined" }]
            profile_stat := p.profile_stat.set idx
              { d with opr_exec_stats_ := d.opr_exec_stats_ ++ [some p.records.length] } },
          p.records.length) := by
  obtain ⟨hlen, -, -⟩ := hwf
  have hidx : AddOprStat_idx p dev_type dev_id = .ok (idx : Int) ∧ idx < p.profile_stat.length := by
    unfold bucketOf at hb
    unfold AddOprStat_idx
    by_cases h1 : dev_type = Context.kCPU
    · rw [if_pos h1] at hb ⊢
      split at hb
      · rename_i hlt
        simp at hb
        subst hb
        rw [toInt32_eq dev_id (by omega)]
        exact ⟨rfl, by omega⟩
      · simp at hb
    · rw [if_neg h1] at hb ⊢
      by_cases h2 : dev_type = Context.kGPU
      · rw [if_pos h2] at hb ⊢
        split at hb
        · rename_i hlt
          simp at hb
          subst hb
          rw [Nat.mod_eq_of_lt (by omega), toInt32_eq _ (by omega)]
          exact ⟨rfl, by omega⟩
        · simp at hb
      · rw [if_neg h2] at hb ⊢
        by_cases h3 : dev_type = Context.kCPUPinned
        · rw [if_pos h3] at hb ⊢
          simp at hb
          subst hb
          rw [Nat.mod_eq_of_lt (by omega), toInt32_eq _ (by omega)]
          exact ⟨rfl, by omega⟩
        · rw [if_neg h3] at hb
          simp at hb
  obtain ⟨hi1, hi2⟩ := hidx
  refine ⟨p.profile_stat[idx], List.getElem?_eq_getElem hi2, ?_⟩
  unfold Profiler.AddOprStat
  simp only [hi1]
  rw [if_pos (Int.ofNat_nonneg idx)]
  simp only [Int.toNat_ofNat, List.getElem?_eq_getElem hi2]

/-- AddOprStat on a device of no known type is a fatal error. -/
theorem addOprStat_unknown (env : ProfilerEnv) (p : Profiler) (dev_type : Int) (dev_id : Nat)
    (h1 : dev_type ≠ Context.kCPU) (h2 : dev_type ≠ Context.kGPU)
    (h3 : dev_type ≠ Context.kCPUPinned) :
    p.AddOprStat env dev_type dev_id =
      .error (.error ("Unknown dev_type: " ++ toString dev_type)) := by
  unfold Profiler.AddOprStat AddOprStat_idx
  simp [h1, h2, h3]

/-- Two devices with one bucket are one device, or both are pinned host memory. -/
theorem bucketOf_inj (p : Profiler) (t1 t2 : Int) (i1 i2 idx : Nat)
    (h1 : bucketOf p t1 i1 = some idx) (h2 : bucketOf p t2 i2 = some idx) :
    (t1 = t2 ∧ i1 = i2) ∨ (t1 = Context.kCPUPinned ∧ t2 = Context.kCPUPinned) := by
  unfold bucketOf at h1 h2
  have hk : Context.kCPU ≠ Context.kGPU ∧ Context.kCPU ≠ Context.kCPUPinned ∧
      Context.kGPU ≠ Context.kCPUPinned := by decide
  by_cases a1 : t1 = Context.kCPU
  · rw [if_pos a1] at h1
    split at h1
    · simp at h1
      by_cases b1 : t2 = Context.kCPU
      · rw [if_pos b1] at h2
        split at h2
        · simp at h2
          left; exact ⟨a1.trans b1.symm, by omega⟩
        · simp at h2
      · rw [if_neg b1] at h2
        by_cases b2 : t2 = Context.kGPU
        · rw [if_pos b2] at h2
          split at h2
          · simp at h2; omega
          · simp at h2
        · rw [if_neg b2] at h2
          by_cases b3 : t2 = Context.kCPUPinned
          · rw [if_pos b3] at h2
            simp at h2; omega
          · rw [if_neg b3] at h2
            simp at h2
    · simp at h1
  · rw [if_neg a1] at h1
    by_cases a2 : t1 = Context.kGPU
    · rw [if_pos a2] at h1
      split at h1
      · simp at h1
        by_cases b1 : t2 = Context.kCPU
        · rw [if_pos b1] at h2
          split at h2
          · simp at h2; omega
          · simp at h2
        · rw [if_neg b1] at h2
          by_cases b2 : t2 = Context.kGPU
          · rw [if_pos b2] at h2
            split at h2
            · simp at h2
              left; exact ⟨a2.trans b2.symm, by omega⟩
            · simp at h2
          · rw [if_neg b2] at h2
            by_cases b3 : t2 = Context.kCPUPinned
            · rw [if_pos b3] at h2
              simp at h2; omega
            · rw [if_neg b3] at h2
              simp at h2
      · simp at h1
    · rw [if_neg a2] at h1
      by_cases a3 : t1 = Context.kCPUPinned
      · rw [if_pos a3] at h1
        simp at h1
        by_cases b1 : t2 = Context.kCPU
        · rw [if_pos b1] at h2
          split at h2
          · simp at h2; omega
          · simp at h2
        · rw [if_neg b1] at h2
          by_cases b2 : t2 = Context.kGPU
          · rw [if_pos b2] at h2
            split at h2
            · simp at h2; omega
            · simp at h2
          · rw [if_neg b2] at h2
            by_cases b3 : t2 = Context.kCPUPinned
            · right; exact ⟨a3, b3⟩
            · rw [if_neg b3] at h2
              simp at h2
      · rw [if_neg a3] at h1
        simp at h1

/-- Overwriting record `q` by a record with the same offsets, or with `q` another record,
keeps the offsets of record `ptr`. -/
theorem set_record_frame (records : List OprExecStat) (q ptr : Nat) (rq new r : OprExecStat)
    (hq : records[q]? = some rq) (hr : records[ptr]? = some r)
    (hsame : q ≠ ptr ∨ (new.opr_start_rel_micros = rq.opr_start_rel_micros ∧
      new.opr_end_rel_micros = rq.opr_end_rel_micros)) :
    ∃ r1, (records.set q new)[ptr]? = some r1 ∧
      r1.opr_start_rel_micros = r.opr_start_rel_micros ∧
      r1.opr_end_rel_micros = r.opr_end_rel_micros := by
  by_cases hqp : q = ptr
  · subst hqp
    rw [hq] at hr
    simp at hr
    subst hr
    have hlt : q < records.length := by
      rcases Nat.lt_or_ge q records.length with h1 | h1
      · exact h1
      · simp [List.getElem?_eq_none h1] at hq
    rcases hsame with h | h
    · exact absurd rfl h
    · exact ⟨new, by simp [List.getElem?_set_self hlt], h.1, h.2⟩
  · exact ⟨r, by rw [List.getElem?_set_ne hqp]; exact hr, rfl, rfl⟩

/-- An operation other than a start of the profiler keeps `init_time_`; an operation other
than the start or the end of the span `ptr` keeps the offsets of that span. -/
theorem op_frame (env : ProfilerEnv) (p p1 : Profiler) (now : Nat) (op : ProfilerOp)
    (h : op.run env p now = .ok p1) :
    (op ≠ .SetState .kRunning → p1.init_time_ = p.init_time_) ∧
    ∀ (ptr : Nat) (r : OprExecStat), p.records[ptr]? = some r →
      op ≠ .SetOprStart (some ptr) → op ≠ .SetOprEnd (some ptr) →
      ∃ r1, p1.records[ptr]? = some r1 ∧
        r1.opr_start_rel_micros = r.opr_start_rel_micros ∧
        r1.opr_end_rel_micros = r.opr_end_rel_micros := by
  cases op with
  | SetState state =>
    simp [ProfilerOp.run] at h
    subst h
    cases state with
    | kNotRunning =>
      exact ⟨fun _ => rfl, fun ptr r hr _ _ => ⟨r, hr, rfl, rfl⟩⟩
    | kRunning =>
      exact ⟨fun hne => absurd rfl hne, fun ptr r hr _ _ => ⟨r, hr, rfl, rfl⟩⟩
  | SetConfig mode output_filename =>
    simp [ProfilerOp.run] at h
    subst h
    exact ⟨fun _ => rfl, fun ptr r hr _ _ => ⟨r, hr, rfl, rfl⟩⟩
  | AddOprStat dev_type dev_id =>
    simp only [ProfilerOp.run] at h
    split at h
    · simp at h
    · rename_i q ptr0 ha
      simp at h
      subst h
      unfold Profiler.AddOprStat at ha
      simp only at ha
      split at ha
      · simp at ha
      · split at ha
        · split at ha
          · simp at ha
          · simp at ha
            obtain ⟨ha1, -⟩ := ha
            subst ha1
            refine ⟨fun _ => rfl, ?_⟩
            intro ptr r hr _ _
            have hlt : ptr < p.records.length := by
              rcases Nat.lt_or_ge ptr p.records.length with h1 | h1
              · exact h1
              · simp [List.getElem?_eq_none h1] at hr
            exact ⟨r, by simp only; rw [List.getElem?_append_left hlt]; exact hr, rfl, rfl⟩
        · simp at ha
  | AddOprMetadata opr_stat key value =>
    simp only [ProfilerOp.run, AddOprMetadata] at h
    split at h
    · simp at h
    · rename_i q
      split at h
      · simp at h
      · rename_i rq hrq
        split at h
        · simp at h
          subst h
          exact ⟨fun _ => rfl, fun ptr r hr _ _ => ⟨r, hr, rfl, rfl⟩⟩
        · simp at h
          subst h
          refine ⟨fun _ => rfl, ?_⟩
          intro ptr r hr _ _
          exact set_record_frame p.records q ptr rq _ r hrq hr (Or.inr ⟨rfl, rfl⟩)
  | SetOprCategory opr_stat category =>
    simp only [ProfilerOp.run, SetOprCategory] at h
    split at h
    · simp at h
    · rename_i q
      split at h
      · simp at h
      · rename_i rq hrq
        simp at h
        subst h
        refine ⟨fun _ => rfl, ?_⟩
        intro ptr r hr _ _
        exact set_record_frame p.records q ptr rq _ r hrq hr (Or.inr ⟨rfl, rfl⟩)
  | SetOprStart opr_stat =>
    simp only [ProfilerOp.run, SetOprStart] at h
    split at h
    · simp at h
      subst h
      exact ⟨fun _ => rfl, fun ptr r hr _ _ => ⟨r, hr, rfl, rfl⟩⟩
    · rename_i q
      split at h
      · simp at h
      · rename_i rq hrq
        simp at h
        subst h
        refine ⟨fun _ => rfl, ?_⟩
        intro ptr r hr hne _
        have hqp : q ≠ ptr := by
          intro heq
          subst heq
          exact hne rfl
        exact set_record_frame p.records q ptr rq _ r hrq hr (Or.inl hqp)
  | SetOprEnd opr_stat =>
    simp only [ProfilerOp.run, SetOprEnd] at h
    split at h
    · simp at h
    · rename_i q
      split at h
      · simp at h
      · rename_i rq hrq
        simp at h
        subst h
        refine ⟨fun _ => rfl, ?_⟩
        intro ptr r hr _ hne
        have hqp : q ≠ ptr := by
          intro heq
          subst heq
          exact hne rfl
        exact set_record_frame p.records q ptr rq _ r hrq hr (Or.inl hqp)

/-- A sequence of operations without a start of the profiler and without the start or the
end of the span `ptr` keeps `init_time_` and the offsets of that span. -/
theorem runOps_frame (env : ProfilerEnv) (ptr : Nat) :
    ∀ (ops : List (Nat × ProfilerOp)) (p p1 : Profiler) (r : OprExecStat),
      runOps env p ops = .ok p1 →
      (∀ x ∈ ops, x.2 ≠ .SetState .kRunning ∧ x.2 ≠ .SetOprStart (some ptr) ∧
        x.2 ≠ .SetOprEnd (some ptr)) →
      p.records[ptr]? = some r →
      p1.init_time_ = p.init_time_ ∧
      ∃ r1, p1.records[ptr]? = some r1 ∧
        r1.opr_start_rel_micros = r.opr_start_rel_micros ∧
        r1.opr_end_rel_micros = r.opr_end_rel_micros := by
  intro ops
  induction ops with
  | nil =>
    intro p p1 r h _ hr
    simp [runOps] at h
    subst h
    exact ⟨rfl, r, hr, rfl, rfl⟩
  | cons x ops ih =>
    intro p p1 r h hno hr
    obtain ⟨now, op⟩ := x
    unfold runOps at h
    split at h
    · simp at h
    · rename_i p2 hrun
      obtain ⟨hn1, hn2, hn3⟩ := hno (now, op) (List.mem_cons_self _ _)
      obtain ⟨hinit, hrec⟩ := op_frame env p p2 now op hrun
      obtain ⟨r2, hr2, hs2, he2⟩ := hrec ptr r hr hn2 hn3
      obtain ⟨hi, r1, hr1, hs1, he1⟩ := ih p2 p1 r2 h
        (fun y hy => hno y (List.mem_cons_of_mem _ hy)) hr2
      exact ⟨hi.trans (hinit hn1), r1, hr1, hs1.trans hs2, he1.trans he2⟩

/-- The last clock reading of a monotone sequence is not before the first. -/
theorem MonotoneClock_le : ∀ (ops : List (Nat × ProfilerOp)) (lo hi : Nat),
    MonotoneClock lo hi ops → lo ≤ hi := by
  intro ops
  induction ops with
  | nil => intro lo hi h; exact h
  | cons x ops ih =>
    intro lo hi h
    obtain ⟨now, op⟩ := x
    obtain ⟨h1, h2⟩ := h
    exact Nat.le_trans h1 (ih now hi h2)

/-- The events of a queue of valid pointers are the begin and end events of the records
pointed to, one pair for each entry of the queue, in queue order. -/
theorem spanEvents_queue (env : ProfilerEnv) (records : List OprExecStat) (d : DevStat) :
    ∀ q : List (Option Nat), QueueValid records q →
      ∃ rs : List OprExecStat,
        q.map (fun e => e.bind (fun ptr => records[ptr]?)) = rs.map some ∧
        rs.length = q.length ∧
        spanEvents env records { d with opr_exec_stats_ := q } =
          rs.flatMap (fun r => [emitEvent env d r "B", emitEvent env d r "E"]) := by
  intro q
  induction q with
  | nil =>
    intro _
    exact ⟨[], rfl, rfl, rfl⟩
  | cons e q ih =>
    intro hq
    obtain ⟨rs, h1, h2, h3⟩ := ih (fun x hx => hq x (List.mem_cons_of_mem _ hx))
    obtain ⟨ptr, he, hlt⟩ := hq e (List.mem_cons_self _ _)
    subst he
    refine ⟨records[ptr] :: rs, ?_, ?_, ?_⟩
    · simp [h1, List.getElem?_eq_getElem hlt]
    · simp [h2]
    · unfold spanEvents at h3 ⊢
      simp only [List.flatMap_cons, List.getElem?_eq_getElem hlt]
      simp only at h3
      rw [← h3]
      rfl

/-- The events of a queue of valid pointers are twice as many as its entries. -/
theorem spanEvents_length (env : ProfilerEnv) (records : List OprExecStat) (d : DevStat)
    (hq : QueueValid records d.opr_exec_stats_) :
    (spanEvents env records d).length = 2 * d.opr_exec_stats_.length := by
  obtain ⟨rs, -, h2, h3⟩ := spanEvents_queue env records d d.opr_exec_stats_ hq
  have hd : ({ d with opr_exec_stats_ := d.opr_exec_stats_ } : DevStat) = d := rfl
  rw [hd] at h3
  rw [h3, ← h2]
  clear h2 h3
  induction rs with
  | nil => rfl
  | cons r rs ih =>
    simp only [List.flatMap_cons, List.length_append, List.length_cons, List.length_nil, ih]
    omega

/-- The span events of a list of buckets with valid queues are twice as many as the queued
records. -/
theorem flatMap_spanEvents_length (env : ProfilerEnv) (records : List OprExecStat) :
    ∀ l : List DevStat, (∀ d ∈ l, QueueValid records d.opr_exec_stats_) →
      (l.flatMap (spanEvents env records)).length =
        2 * (l.map (fun d => d.opr_exec_stats_.length)).sum := by
  intro l
  induction l with
  | nil => intro _; rfl
  | cons d l ih =>
    intro h
    simp only [List.flatMap_cons, List.length_append, List.map_cons, List.sum_cons]
    rw [ih (fun x hx => h x (List.mem_cons_of_mem _ hx)),
      spanEvents_length env records d (h d (List.mem_cons_self _ _))]
    omega

/-- The trace of a well-formed profiler has one entry for each bucket and two for each
queued record. -/
theorem traceOf_length (env : ProfilerEnv) (p : Profiler) (hwf : ProfilerWF p) :
    (traceOf env p).length = p.cpu_num_ + p.gpu_num_ + 1 + 2 * totalQueued p := by
  obtain ⟨hlen, -, hq⟩ := hwf
  unfold traceOf totalQueued
  rw [List.length_append, List.length_map, hlen,
    flatMap_spanEvents_length env p.records p.profile_stat hq]

/-- A sequence of operations leads from a reachable profiler to a reachable profiler. -/
theorem reached_runOps (env : ProfilerEnv) :
    ∀ (ops : List (Nat × ProfilerOp)) (p p1 : Profiler),
      ProfilerReached env p → runOps env p ops = .ok p1 → ProfilerReached env p1 := by
  intro ops
  induction ops with
  | nil =>
    intro p p1 hp h
    simp [runOps] at h
    subst h
    exact hp
  | cons x ops ih =>
    intro p p1 hp h
    obtain ⟨now, op⟩ := x
    unfold runOps at h
    split at h
    · simp at h
    · rename_i p2 hrun
      exact ih p2 p1 (ProfilerReached.op now op p p2 hp hrun) h

/-- The profiler of the machine with two hardware threads is reachable after any sequence
of operations. -/
theorem demoAfter_reached (ops : List (Nat × ProfilerOp)) :
    ProfilerReached demoEnv (demoAfter ops) := by
  have h0 : ProfilerReached demoEnv demoProfiler := ProfilerReached.new 0 _ rfl
  unfold demoAfter
  split
  · rename_i p h
    exact reached_runOps demoEnv ops demoProfiler p h0 h
  · exact h0

/-- A sequence of operations without a start of the profiler keeps `init_time_`. -/
theorem runOps_init_time (env : ProfilerEnv) :
    ∀ (ops : List (Nat × ProfilerOp)) (p p1 : Profiler),
      runOps env p ops = .ok p1 → (∀ x ∈ ops, x.2 ≠ .SetState .kRunning) →
      p1.init_time_ = p.init_time_ := by
  intro ops
  induction ops with
  | nil =>
    intro p p1 h _
    simp [runOps] at h
    subst h
    rfl
  | cons x ops ih =>
    intro p p1 h hno
    obtain ⟨now, op⟩ := x
    unfold runOps at h
    split at h
    · simp at h
    · rename_i p2 hrun
      have h1 := (op_frame env p p2 now op hrun).1 (hno (now, op) (List.mem_cons_self _ _))
      have h2 := ih p2 p1 h (fun y hy => hno y (List.mem_cons_of_mem _ hy))
      exact h2.trans h1

/-- What MXPredReshape leaves of the prior session: an error of the shape table, of shape
inference or of the loop over the arguments leaves it as it was; an error of the loop over
the auxiliary states leaves it without its argument bindings; an error of Bind, and
success, leave it without its argument and auxiliary bindings. -/
theorem reshape_prior_handle (lib : Library) (input_keys : List String)
    (indptr data : List Nat) (p : MXAPIPredictor) :
    (∀ e, shapeTable input_keys indptr data = .error e →
      (MXPredReshape lib input_keys indptr data p).handle = p) ∧
    (∀ new_shape, shapeTable input_keys indptr data = .ok new_shape →
      (∀ e, inferShapes lib p.sym new_shape = .error e →
        (MXPredReshape lib input_keys indptr data p).handle = p) ∧
      ∀ arg_shapes out_shapes aux_shapes,
        inferShapes lib p.sym new_shape = .ok (arg_shapes, out_shapes, aux_shapes) →
        (∀ e, forLoop (p.sym.ListInputNames .kReadOnlyArgs).length
            (reshapeArg_body new_shape (p.sym.ListInputNames .kReadOnlyArgs) arg_shapes
              p.arg_arrays) p.arg_arrays = .error e →
          (MXPredReshape lib input_keys indptr data p).handle = p) ∧
        ∀ ret_arg_arrays, forLoop (p.sym.ListInputNames .kReadOnlyArgs).length
            (reshapeArg_body new_shape (p.sym.ListInputNames .kReadOnlyArgs) arg_shapes
              p.arg_arrays) p.arg_arrays = .ok ret_arg_arrays →
          (∀ e, forLoop (p.sym.ListInputNames .kAuxiliaryStates).length
              (reshapeAux_body (p.sym.ListInputNames .kAuxiliaryStates) aux_shapes
                p.aux_arrays) () = .error e →
            (MXPredReshape lib input_keys indptr data p).status = e.toStatus ∧
            (MXPredReshape lib input_keys indptr data p).handle =
              { p with arg_arrays := [] }) ∧
          (∀ u, forLoop (p.sym.ListInputNames .kAuxiliaryStates).length
              (reshapeAux_body (p.sym.ListInputNames .kAuxiliaryStates) aux_shapes
                p.aux_arrays) () = .ok u →
            (MXPredReshape lib input_keys indptr data p).handle =
              { p with arg_arrays := [], aux_arrays := [] })) := by
  refine ⟨?_, ?_⟩
  · intro e h
    simp [MXPredReshape, h]
  · intro new_shape h
    refine ⟨?_, ?_⟩
    · intro e h1
      simp [MXPredReshape, h, h1]
    · intro arg_shapes out_shapes aux_shapes h1
      refine ⟨?_, ?_⟩
      · intro e h2
        simp [MXPredReshape, h, h1, h2]
      · intro ret_arg_arrays h2
        refine ⟨?_, ?_⟩
        · intro e h3
          simp [MXPredReshape, h, h1, h2, h3]
        · intro u h3
          simp only [MXPredReshape, h, h1, h2, h3]
          split <;> rfl

/-- The check of the loop over the arguments, on a session that holds its graph (no session
that Create returns does).  The session `priorAdd` binds `x` and `w` at shape `[2, 3]` and
the override mapping names only `x`, with shape `[3, 2]`.  Shape inference yields `[3, 2]`
for `w`, which is not its bound shape `[2, 3]`; the loop over the arguments still runs
through, because the check compares the element counts (6 and 6), and with a Bind that
accepts the binding MXPredReshape returns success and writes a new session in which `w` is
bound at `[2, 3]`. -/
theorem reshape_accepts_permuted_shape :
    priorAdd.arg_arrays.map NDArray.shape = [⟨[2, 3]⟩, ⟨[2, 3]⟩] ∧
    priorAdd.sym.ListInputNames .kReadOnlyArgs = ["x", "w"] ∧
    shapeTable ["x"] [0, 2] [3, 2] = .ok ⟨[("x", ⟨[3, 2]⟩)]⟩ ∧
    (∃ out_shapes aux_shapes,
      inferShapes demoLib priorAdd.sym ⟨[("x", ⟨[3, 2]⟩)]⟩ =
        .ok ([⟨[3, 2]⟩, ⟨[3, 2]⟩], out_shapes, aux_shapes)) ∧
    (∃ arrays,
      forLoop 2 (reshapeArg_body ⟨[("x", ⟨[3, 2]⟩)]⟩ ["x", "w"] [⟨[3, 2]⟩, ⟨[3, 2]⟩]
        priorAdd.arg_arrays) priorAdd.arg_arrays = .ok arrays) ∧
    (MXPredReshape demoLib ["x"] [0, 2] [3, 2] priorAdd).status = .success ∧
    (MXPredReshape demoLib ["x"] [0, 2] [3, 2] priorAdd).out.map
      (fun r => r.arg_arrays.map NDArray.shape) = some [⟨[3, 2]⟩, ⟨[2, 3]⟩] :=
  ⟨by decide, by decide, rfl, ⟨_, _, rfl⟩, ⟨_, rfl⟩, by decide, by decide⟩

/-- The order of the statements of MXPredReshape, on a session that holds its graph and its
auxiliary bindings (no session that Create returns does).  The session `priorBatchNorm`
binds `data` at `[1, 3, 4, 4]`, `gamma` and `beta` at `[3]` and the two auxiliary states at
`[3]`.  MXPredReshape with the override mapping `data = [1, 5, 4, 4]`, `gamma = [5]`,
`beta = [5]` infers `[5]` for the auxiliary state `moving_mean`; the loop over the
arguments runs through, the argument bindings of the prior session are cleared, and then
the check of the auxiliary state fails.  The call returns the failure status and writes no new session, and the prior
session is left without argument bindings while `key2arg` still maps `data` to position 0:
a following MXPredSetInput on the prior handle indexes `arg_arrays` out of range. -/
theorem reshape_failure_clears_prior_args :
    priorBatchNorm.arg_arrays.map NDArray.shape = [⟨[1, 3, 4, 4]⟩, ⟨[3]⟩, ⟨[3]⟩] ∧
    priorBatchNorm.aux_arrays.map NDArray.shape = [⟨[3]⟩, ⟨[3]⟩] ∧
    reshapedChannels.status =
      .failure ("aux moving_mean shape has been changed, " ++
        "only allow to change the shape of input data.") ∧
    reshapedChannels.out.isNone = true ∧
    reshapedChannels.handle.arg_arrays = [] ∧
    reshapedChannels.handle.arg_arrays ≠ priorBatchNorm.arg_arrays ∧
    reshapedChannels.handle.aux_arrays = priorBatchNorm.aux_arrays ∧
    reshapedChannels.handle.key2arg.find "data" = some 0 ∧
    reshapedChannels.handle.out_shapes = priorBatchNorm.out_shapes ∧
    (MXPredSetInput priorBatchNorm "data" (List.replicate 48 0)).status = .success ∧
    (MXPredSetInput reshapedChannels.handle "data" (List.replicate 48 0)).status =
      .undefined := by
  refine ⟨by decide, by decide, by decide, by decide, by decide, by decide, by decide,
    by decide, by decide, by decide, by decide⟩

/-! ## The claims -/

/-- C2 (defect of the code).  MXPredCreate on `identity(x) -> y` with `x = [1, 3, 4, 4]` on
device type 2 succeeds with output shape `[1, 3, 4, 4]` and binds `x` on that device, but
the session it returns holds the empty graph and the default context (device type 1), not
the parsed graph and the requested device.  MXPredReshape
with `x = [2, 3, 4, 4]` on that session infers shapes over the empty graph: it succeeds
with no output shape at all, `x` stays bound at `[1, 3, 4, 4]`, and
MXPredGetOutputShape(0) on the new session fails instead of returning `[2, 3, 4, 4]`. -/
theorem reshape_after_create_infers_over_empty_graph :
    createdIdentity.status = .success ∧
    createdIdentity.out.map (fun r => r.out_shapes) = some [⟨[1, 3, 4, 4]⟩] ∧
    createdIdentity.out.map (fun r => (r.sym.ListInputNames .kAll, r.sym.ListOutputNames)) =
      some ([], []) ∧
    createdIdentity.out.map (fun r => r.arg_arrays.map NDArray.ctx) =
      some [Context.Create 2 0] ∧
    createdIdentity.out.map (fun r => r.ctx) = some (Context.Create 1 0) ∧
    reshapedIdentity.status = .success ∧
    reshapedIdentity.out.map (fun r => r.out_shapes) = some [] ∧
    reshapedIdentity.out.map (fun r => r.arg_arrays.map NDArray.shape) =
      some [⟨[1, 3, 4, 4]⟩] ∧
    reshapedIdentity.out.map (fun r => (MXPredGetOutputShape r 0).status) =
      some (.failure "Index exceed number of outputs") ∧
    reshapedIdentity.out.map (fun r => (MXPredGetOutputShape r 0).out) = some none := by
  refine ⟨by decide, by decide, by decide, by decide, by decide, by decide, by decide,
    by decide, by decide, by decide⟩

/-- C3.  Whenever MXPredReshape succeeds it writes a new session that has as many argument
bindings and as many auxiliary bindings as the prior session had before the call; its
auxiliary bindings are the prior ones, in order; and at every position whose argument name
is not a key of the override mapping it binds the tensor that was bound there before. -/
theorem reshape_keeps_other_bindings (lib : Library) (input_keys : List String)
    (indptr data : List Nat) (p : MXAPIPredictor)
    (h : (MXPredReshape lib input_keys indptr data p).status = .success) :
    ∃ ret, (MXPredReshape lib input_keys indptr data p).out = some ret ∧
      ret.arg_arrays.length = p.arg_arrays.length ∧
      ret.aux_arrays.length = p.aux_arrays.length ∧
      ret.aux_arrays = p.aux_arrays ∧
      ∀ i : Nat,
        (∀ name, (p.sym.ListInputNames .kReadOnlyArgs)[i]? = some name →
          ∀ k ∈ input_keys, std_string k ≠ name) →
        ret.arg_arrays[i]? = p.arg_arrays[i]? := by
  obtain ⟨ret, hret⟩ := reshape_success_out lib input_keys indptr data p h
  obtain ⟨new_shape, arg_shapes, out_shapes, aux_shapes, ret_arg_arrays, exec, h0, -, h2, -, -,
    hr, -, -⟩ := reshape_out_some lib input_keys indptr data p ret hret
  have hloop := reshapeArg_loop _ _ _ _ _ h2
  refine ⟨ret, hret, ?_, ?_, ?_, ?_⟩
  · rw [hr]; exact hloop.1
  · rw [hr]
  · rw [hr]
  · intro i hi
    rw [hr]
    apply hloop.2 i
    intro name hname
    by_contra hc
    obtain ⟨k, hk, hkn⟩ := (shapeTable_keys input_keys indptr data new_shape h0 name).mp hc
    exact hi name hname k hk hkn

/-- Witness for C3: reshaping the batch size of the BatchNorm session from 1 to 2. -/
theorem reshape_keeps_other_bindings_witness :
    (MXPredReshape demoLib ["data"] [0, 4] [2, 3, 4, 4] priorBatchNorm).status = .success ∧
    ∃ ret, (MXPredReshape demoLib ["data"] [0, 4] [2, 3, 4, 4] priorBatchNorm).out = some ret ∧
      ret.arg_arrays.length = priorBatchNorm.arg_arrays.length ∧
      ret.aux_arrays.length = priorBatchNorm.aux_arrays.length ∧
      ret.aux_arrays = priorBatchNorm.aux_arrays ∧
      ∀ i : Nat,
        (∀ name, (priorBatchNorm.sym.ListInputNames .kReadOnlyArgs)[i]? = some name →
          ∀ k ∈ ["data"], std_string k ≠ name) →
        ret.arg_arrays[i]? = priorBatchNorm.arg_arrays[i]? :=
  ⟨by decide,
    reshape_keeps_other_bindings demoLib ["data"] [0, 4] [2, 3, 4, 4] priorBatchNorm
      (by decide)⟩

/-- C4 (defect of the code).  MXPredCreate on the BatchNorm graph with
`data = [1, 3, 4, 4]` succeeds; the graph has the three read-only inputs `data`, `gamma`,
`beta` and the two auxiliary states `moving_mean`, `moving_var`; the returned session has
three argument bindings of the inferred shapes but no auxiliary binding at all. -/
theorem create_drops_aux_bindings :
    createdBatchNorm.status = .success ∧
    batchNormGraph.ListInputNames .kReadOnlyArgs = ["data", "gamma", "beta"] ∧
    batchNormGraph.ListInputNames .kAuxiliaryStates = ["moving_mean", "moving_var"] ∧
    createdBatchNorm.out.map (fun r => r.arg_arrays.map NDArray.shape) =
      some [⟨[1, 3, 4, 4]⟩, ⟨[3]⟩, ⟨[3]⟩] ∧
    createdBatchNorm.out.map (fun r => r.aux_arrays) = some [] := by
  refine ⟨by decide, by decide, by decide, by decide, by decide⟩

/-- C5.  For every session and key, MXPredSetInput returns a failure status exactly when
the key is absent from `key2arg` or the copy into the tensor bound to the key fails; for an
absent key it fails and leaves the whole session, hence every argument tensor, as it was.
The call has no defined status exactly when `key2arg` maps the key to an index that is not
a position of `arg_arrays`. -/
theorem setInput_fails_iff (p : MXAPIPredictor) (key : String) (data : List mx_float) :
    ((MXPredSetInput p key data).status.isFailure = true ↔
      (p.key2arg.find (std_string key) = none ∨
        ∃ i nd msg, p.key2arg.find (std_string key) = some i ∧ p.arg_arrays[i]? = some nd ∧
          nd.SyncCopyFromCPU data = .error (.error msg))) ∧
    (p.key2arg.find (std_string key) = none →
      (MXPredSetInput p key data).status.isFailure = true ∧
      (MXPredSetInput p key data).handle = p) ∧
    ((MXPredSetInput p key data).status = .undefined ↔
      ∃ i, p.key2arg.find (std_string key) = some i ∧ p.arg_arrays.length ≤ i) := by
  unfold MXPredSetInput
  cases hk : p.key2arg.find (std_string key) with
  | none => simp [Status.isFailure]
  | some i =>
    simp only []
    cases hnd : p.arg_arrays[i]? with
    | none =>
      have hle : p.arg_arrays.length ≤ i := by
        rcases Nat.lt_or_ge i p.arg_arrays.length with h1 | h1
        · simp [List.getElem?_eq_getElem h1] at hnd
        · exact h1
      simp [Status.isFailure, hle, hnd]
    | some nd =>
      have hlt : ¬ p.arg_arrays.length ≤ i := by
        rcases Nat.lt_or_ge i p.arg_arrays.length with h1 | h1
        · omega
        · simp [List.getElem?_eq_none h1] at hnd
      unfold NDArray.SyncCopyFromCPU
      by_cases hs : nd.shape.Size = data.length
      · simp [hs, Status.isFailure, hlt, hnd]
      · simp [hs, Status.isFailure, Fault.toStatus, hlt, hnd]

/-- C6.  For every session, every key that `key2arg` maps to a bound tensor, and every
element count other than the tensor's number of elements, MXPredSetInput fails and leaves
the session as it was, so the tensor keeps its shape and its contents. -/
theorem setInput_rejects_wrong_count (p : MXAPIPredictor) (key : String)
    (data : List mx_float) (i : Nat) (nd : NDArray)
    (hkey : p.key2arg.find (std_string key) = some i) (hnd : p.arg_arrays[i]? = some nd)
    (hsize : data.length ≠ nd.shape.Size) :
    (MXPredSetInput p key data).status.isFailure = true ∧
    (MXPredSetInput p key data).out = none ∧
    (MXPredSetInput p key data).handle = p ∧
    (MXPredSetInput p key data).handle.arg_arrays[i]? = some nd := by
  unfold MXPredSetInput NDArray.SyncCopyFromCPU
  have hs : ¬ nd.shape.Size = data.length := fun h => hsize h.symm
  simp [hkey, hnd, hs, Status.isFailure, Fault.toStatus]

/-- Witness for C6: after reshaping `x` from `[1, 3, 4, 4]` to `[2, 3, 4, 4]` (96 elements)
in a session that holds the identity graph, 48 values are rejected. -/
theorem setInput_rejects_wrong_count_witness :
    (reshapedX2.key2arg.find (std_string "x") = some 0 ∧
      reshapedX2.arg_arrays[0]? = some (NDArray.alloc ⟨[2, 3, 4, 4]⟩ Context.init) ∧
      (List.replicate 48 1).length ≠ (NDArray.alloc ⟨[2, 3, 4, 4]⟩ Context.init).shape.Size) ∧
    ((MXPredSetInput reshapedX2 "x" (List.replicate 48 1)).status.isFailure = true ∧
      (MXPredSetInput reshapedX2 "x" (List.replicate 48 1)).out = none ∧
      (MXPredSetInput reshapedX2 "x" (List.replicate 48 1)).handle = reshapedX2 ∧
      (MXPredSetInput reshapedX2 "x" (List.replicate 48 1)).handle.arg_arrays[0]? =
        some (NDArray.alloc ⟨[2, 3, 4, 4]⟩ Context.init)) :=
  ⟨⟨by decide, by decide, by decide⟩,
    setInput_rejects_wrong_count reshapedX2 "x" (List.replicate 48 1) 0
      (NDArray.alloc ⟨[2, 3, 4, 4]⟩ Context.init) (by decide) (by decide) (by decide)⟩

/-- C7.  For every session with `n` outputs, that is with `n` output tensors and `n` output
shapes, and every index `i`: when `i >= n` both MXPredGetOutputShape and MXPredGetOutput
return a failure status and write nothing; when `i < n` MXPredGetOutputShape succeeds and
writes the dimensions of `out_shapes[i]`, each cast to 32 bits, and their number; and
neither call indexes `out_shapes` or `out_arrays` out of range. -/
theorem getOutput_bounds_checked (p : MXAPIPredictor) (i size : Nat)
    (hn : p.out_shapes.length = p.out_arrays.length) :
    (p.out_arrays.length ≤ i →
      (MXPredGetOutputShape p i).status.isFailure = true ∧
      (MXPredGetOutputShape p i).out = none ∧
      (MXPredGetOutput p i size).status.isFailure = true ∧
      (MXPredGetOutput p i size).out = none) ∧
    (i < p.out_arrays.length →
      ∃ s, p.out_shapes[i]? = some s ∧
        (MXPredGetOutputShape p i).status = .success ∧
        (MXPredGetOutputShape p i).out =
          some (s.dims.map (fun d => d % 2 ^ 32), s.dims.length)) ∧
    (MXPredGetOutputShape p i).status ≠ .undefined ∧
    (MXPredGetOutput p i size).status ≠ .undefined := by
  unfold MXPredGetOutputShape MXPredGetOutput NDArray.SyncCopyToCPU
  by_cases hi : i < p.out_arrays.length
  · have hi2 : i < p.out_shapes.length := by omega
    have hnot : ¬ p.out_arrays.length ≤ i := by omega
    refine ⟨fun h => absurd h hnot, fun _ => ⟨p.out_shapes[i], ?_, ?_, ?_⟩, ?_, ?_⟩
    · simp [List.getElem?_eq_getElem hi2]
    · simp [hi, List.getElem?_eq_getElem hi2]
    · simp [hi, List.getElem?_eq_getElem hi2, ShapeTypeCast, TShape.ndim]
    · simp [hi, List.getElem?_eq_getElem hi2]
    · simp only [hi, if_true, List.getElem?_eq_getElem hi]
      by_cases hs : p.out_arrays[i].shape.Size = size <;> simp [hs, Fault.toStatus]
  · have hle : p.out_arrays.length ≤ i := by omega
    simp [hi, Status.isFailure]

/-- Witness for C7: output 0 of a session with one output. -/
theorem getOutput_bounds_checked_witness :
    priorAdd.out_shapes.length = priorAdd.out_arrays.length ∧
    ((priorAdd.out_arrays.length ≤ 0 →
      (MXPredGetOutputShape priorAdd 0).status.isFailure = true ∧
      (MXPredGetOutputShape priorAdd 0).out = none ∧
      (MXPredGetOutput priorAdd 0 6).status.isFailure = true ∧
      (MXPredGetOutput priorAdd 0 6).out = none) ∧
    (0 < priorAdd.out_arrays.length →
      ∃ s, priorAdd.out_shapes[0]? = some s ∧
        (MXPredGetOutputShape priorAdd 0).status = .success ∧
        (MXPredGetOutputShape priorAdd 0).out =
          some (s.dims.map (fun d => d % 2 ^ 32), s.dims.length)) ∧
    (MXPredGetOutputShape priorAdd 0).status ≠ .undefined ∧
    (MXPredGetOutput priorAdd 0 6).status ≠ .undefined) :=
  ⟨by decide, getOutput_bounds_checked priorAdd 0 6 (by decide)⟩

/-- Counterexample to C8: MXPredGetOutputShape(0) on `priorAdd`, whose shape buffer is empty,
leaves a session whose shape buffer is `[2, 3]`. -/
theorem getOutputShape_changes_session :
    (MXPredGetOutputShape priorAdd 0).handle.out_shapes_buffer = [2, 3] ∧
    priorAdd.out_shapes_buffer = [] ∧
    (MXPredGetOutputShape priorAdd 0).handle ≠ priorAdd := by
  refine ⟨by decide, by decide, ?_⟩
  intro h
  have h1 := congrArg MXAPIPredictor.out_shapes_buffer h
  revert h1
  decide

/-- C8, amended.  For every session and index, MXPredGetOutput leaves every field of the
session as it was and has a defined status; MXPredGetOutputShape either has no defined
status or leaves every field other than `out_shapes_buffer` as it was; for an index out of
range it leaves `out_shapes_buffer` as it was too, and for an index in range it overwrites
`out_shapes_buffer` with the dimensions of `out_shapes[index]`, each cast to 32 bits. -/
theorem getOutput_frame (p : MXAPIPredictor) (index size : Nat) :
    ((MXPredGetOutput p index size).handle = p ∧
      (MXPredGetOutput p index size).status ≠ .undefined) ∧
    ((MXPredGetOutputShape p index).status = .undefined ∨
      (MXPredGetOutputShape p index).handle =
        { p with out_shapes_buffer := (MXPredGetOutputShape p index).handle.out_shapes_buffer }) ∧
    (p.out_arrays.length ≤ index → (MXPredGetOutputShape p index).handle = p) ∧
    (∀ s, index < p.out_arrays.length → p.out_shapes[index]? = some s →
      (MXPredGetOutputShape p index).handle.out_shapes_buffer =
        s.dims.map (fun d => d % 2 ^ 32)) := by
  refine ⟨⟨?_, ?_⟩, ?_, ?_, ?_⟩
  · unfold MXPredGetOutput
    split
    · split
      · rfl
      · split <;> rfl
    · rfl
  · unfold MXPredGetOutput NDArray.SyncCopyToCPU
    by_cases hi : index < p.out_arrays.length
    · simp only [hi, if_true, List.getElem?_eq_getElem hi]
      by_cases hs : p.out_arrays[index].shape.Size = size <;> simp [hs, Fault.toStatus]
    · simp [hi]
  · unfold MXPredGetOutputShape
    split
    · split
      · left; rfl
      · right; rfl
    · right; rfl
  · intro hle
    unfold MXPredGetOutputShape
    have : ¬ index < p.out_arrays.length := by omega
    simp [this]
  · intro s hi hs
    unfold MXPredGetOutputShape
    simp [hi, hs, ShapeTypeCast]
/-- Counterexample to C9: the prior session that Reshape leaves behind for the session
created on `identity(x) -> y` is reachable, its `key2arg` maps `x` to index 0, and it has no
argument binding, so MXPredSetInput on `x` indexes `arg_arrays` out of range. -/
theorem prior_session_keys_invalid :
    Reachable demoLib reshapedIdentity.handle ∧
    reshapedIdentity.handle.key2arg.find "x" = some 0 ∧
    reshapedIdentity.handle.arg_arrays.length = 0 ∧
    ¬ KeysValid reshapedIdentity.handle ∧
    (MXPredSetInput reshapedIdentity.handle "x" (List.replicate 48 1)).status = .undefined := by
  have hc : (MXPredCreatePartialOut demoLib (some "identity") [] 2 0 ["x"] [0, 4] [1, 3, 4, 4]
      []).out = some (createdIdentity.out.getD MXAPIPredictor.init) := rfl
  have hr : Reachable demoLib (createdIdentity.out.getD MXAPIPredictor.init) :=
    Reachable.create _ _ _ _ _ _ _ _ _ hc
  have hfind : reshapedIdentity.handle.key2arg.find "x" = some 0 := by decide
  have hlen : reshapedIdentity.handle.arg_arrays.length = 0 := by decide
  refine ⟨Reachable.reshape_prior ["x"] [0, 4] [2, 3, 4, 4] _ hr, hfind, hlen, ?_, by decide⟩
  intro hv
  have := hv "x" 0 hfind
  omega

/-- C9, amended.  In every session that Create returns and in every new session that
Reshape returns for such a session, every key of `key2arg` maps to an index smaller than
the number of argument bindings, and MXPredSetInput never indexes `arg_arrays` out of
range; the session Create returns for a graph with pairwise distinct read-only input names
maps the name at position `i` to `i`; and the new session of Reshape has the `key2arg` of
the prior session and as many argument bindings. -/
theorem live_session_keys_valid (lib : Library) :
    (∀ p, Live lib p → KeysValid p ∧
      ∀ key data, (MXPredSetInput p key data).status ≠ .undefined) ∧
    (∀ json bytes dev_type dev_id input_keys indptr data output_keys ret,
      (MXPredCreatePartialOut lib json bytes dev_type dev_id input_keys indptr data
        output_keys).out = some ret →
      ∃ js sym0 sym, json = some js ∧ lib.LoadLegacyJSON (std_string js) = .ok sym0 ∧
        selectOutputs lib sym0 output_keys = .ok sym ∧
        ((sym.ListInputNames .kReadOnlyArgs).Nodup → ∀ (i : Nat) (name : String),
          (sym.ListInputNames .kReadOnlyArgs)[i]? = some name →
            ret.key2arg.find name = some i)) ∧
    (∀ input_keys indptr data p ret,
      (MXPredReshape lib input_keys indptr data p).out = some ret →
      ret.key2arg = p.key2arg ∧ ret.arg_arrays.length = p.arg_arrays.length) := by
  refine ⟨?_, ?_, ?_⟩
  · intro p hp
    have hv : KeysValid p := by
      induction hp with
      | create json bytes dev_type dev_id input_keys indptr data output_keys ret h =>
        obtain ⟨_, _, _, -, -, -, hv, -⟩ := create_fields _ _ _ _ _ _ _ _ _ _ h
        exact hv
      | reshape_new input_keys indptr data p ret _ h ih =>
        exact (reshape_keys _ _ _ _ _ _ h).2.2 ih
    exact ⟨hv, fun key data => setInput_defined p hv key data⟩
  · intro json bytes dev_type dev_id input_keys indptr data output_keys ret h
    obtain ⟨js, sym0, sym, hjs, h0, h1, -, hpos, -⟩ := create_fields _ _ _ _ _ _ _ _ _ _ h
    exact ⟨js, sym0, sym, hjs, h0, h1, hpos⟩
  · intro input_keys indptr data p ret h
    exact ⟨(reshape_keys _ _ _ _ _ _ h).1, (reshape_keys _ _ _ _ _ _ h).2.1⟩

/-- Witness for C9: the new session of Reshape on the session created for
`identity(x) -> y`. -/
theorem live_session_keys_valid_witness :
    Live demoLib (reshapedIdentity.out.getD MXAPIPredictor.init) ∧
    (KeysValid (reshapedIdentity.out.getD MXAPIPredictor.init) ∧
      ∀ key data,
        (MXPredSetInput (reshapedIdentity.out.getD MXAPIPredictor.init) key data).status ≠
          .undefined) :=
  have hc : (MXPredCreatePartialOut demoLib (some "identity") [] 2 0 ["x"] [0, 4] [1, 3, 4, 4]
      []).out = some (createdIdentity.out.getD MXAPIPredictor.init) := rfl
  have hl : Live demoLib (reshapedIdentity.out.getD MXAPIPredictor.init) :=
    Live.reshape_new ["x"] [0, 4] [2, 3, 4, 4] _ _ (Live.create _ _ _ _ _ _ _ _ _ hc) rfl
  ⟨hl, (live_session_keys_valid demoLib).1 _ hl⟩

/-- Counterexample to C10: the one loaded name is `arg:w`, a NUL character, `z`, and the graph
declares the read-only input `w`.  The argument parameter map gets the key `w`, although
`arg:w` does not occur among the loaded names. -/
theorem loadParams_reads_names_as_c_strings :
    [nulName].length = [NDArray.alloc ⟨[2, 3]⟩ Context.init].length ∧
    (loadParams addGraph [NDArray.alloc ⟨[2, 3]⟩ Context.init] [nulName]).toOption.map
      (fun r => r.1.keys) = some ["w"] ∧
    "w" ∈ addGraph.ListInputNames .kReadOnlyArgs ∧
    ¬ ("arg:" ++ "w" ∈ [nulName]) := by
  refine ⟨by decide, by decide, by decide, by decide⟩

/-- C10, amended.  For every loaded parameter list of equal length and every graph the
split succeeds: the keys of the argument parameter map are exactly the read-only input
names `n` of the graph for which some loaded name, read as a C string (up to its first NUL
character), is `arg:` followed by `n`; likewise the auxiliary map with `aux:` and the
auxiliary-state names; each key maps to the tensor of such an entry; every other entry
leaves no key and raises no error.  When no loaded name has a NUL character the keys are
exactly the declared names `n` such that `arg:` + `n` (or `aux:` + `n`) occurs in the
names. -/
theorem loadParams_split (sym : Symbol) (data : List NDArray) (names : List String)
    (hlen : names.length = data.length) :
    ∃ arg_params aux_params, loadParams sym data names = .ok (arg_params, aux_params) ∧
      (∀ n, (∃ t, arg_params.find n = some t) ↔
        n ∈ sym.ListInputNames .kReadOnlyArgs ∧
          ∃ nm ∈ names, c_str nm = "arg:".toList ++ n.toList) ∧
      (∀ n, (∃ t, aux_params.find n = some t) ↔
        n ∈ sym.ListInputNames .kAuxiliaryStates ∧
          ∃ nm ∈ names, c_str nm = "aux:".toList ++ n.toList) ∧
      (∀ n t, arg_params.find n = some t →
        ∃ (i : Nat) (nm : String), names[i]? = some nm ∧ data[i]? = some t ∧
          c_str nm = "arg:".toList ++ n.toList) ∧
      (∀ n t, aux_params.find n = some t →
        ∃ (i : Nat) (nm : String), names[i]? = some nm ∧ data[i]? = some t ∧
          c_str nm = "aux:".toList ++ n.toList) ∧
      ((∀ nm ∈ names, Char.ofNat 0 ∉ nm.toList) →
        (∀ n, (∃ t, arg_params.find n = some t) ↔
          n ∈ sym.ListInputNames .kReadOnlyArgs ∧ "arg:" ++ n ∈ names) ∧
        (∀ n, (∃ t, aux_params.find n = some t) ↔
          n ∈ sym.ListInputNames .kAuxiliaryStates ∧ "aux:" ++ n ∈ names)) := by
  obtain ⟨arg_params, aux_params, hok, harg, haux⟩ := loadParams_spec sym data names hlen
  have hnul : (∀ nm ∈ names, Char.ofNat 0 ∉ nm.toList) → ∀ (tag n : String),
      (∃ nm ∈ names, c_str nm = tag.toList ++ n.toList) ↔ tag ++ n ∈ names := by
    intro hfree tag n
    constructor
    · rintro ⟨nm, hnm, hc⟩
      rw [c_str_of_no_nul nm (hfree nm hnm)] at hc
      have : nm = tag ++ n := by
        apply String.ext
        simpa [String.toList] using hc
      rw [← this]
      exact hnm
    · intro h
      refine ⟨tag ++ n, h, ?_⟩
      rw [c_str_of_no_nul _ (hfree _ h)]
      simp [String.toList]
  refine ⟨arg_params, aux_params, hok, ?_, ?_, ?_, ?_, ?_⟩
  · exact ParamsUpTo_keys _ _ _ _ _ harg
  · exact ParamsUpTo_keys _ _ _ _ _ haux
  · intro n t h
    obtain ⟨-, j, nm, -, h2, h3, h4⟩ := harg.1 n t h
    exact ⟨j, nm, h2, h3, h4⟩
  · intro n t h
    obtain ⟨-, j, nm, -, h2, h3, h4⟩ := haux.1 n t h
    exact ⟨j, nm, h2, h3, h4⟩
  · intro hfree
    constructor
    · intro n
      rw [ParamsUpTo_keys _ _ _ _ _ harg n, hnul hfree]
    · intro n
      rw [ParamsUpTo_keys _ _ _ _ _ haux n, hnul hfree]

/-- Witness for C10: three loaded entries for the BatchNorm graph, one argument, one
auxiliary state and one that the graph does not declare. -/
theorem loadParams_split_witness :
    ["arg:gamma", "aux:moving_mean", "arg:unused"].length =
      [NDArray.alloc ⟨[3]⟩ Context.init, NDArray.alloc ⟨[3]⟩ Context.init,
        NDArray.alloc ⟨[3]⟩ Context.init].length ∧
    ∃ arg_params aux_params,
      loadParams batchNormGraph
        [NDArray.alloc ⟨[3]⟩ Context.init, NDArray.alloc ⟨[3]⟩ Context.init,
          NDArray.alloc ⟨[3]⟩ Context.init]
        ["arg:gamma", "aux:moving_mean", "arg:unused"] = .ok (arg_params, aux_params) ∧
      (∀ n, (∃ t, arg_params.find n = some t) ↔
        n ∈ batchNormGraph.ListInputNames .kReadOnlyArgs ∧
          ∃ nm ∈ ["arg:gamma", "aux:moving_mean", "arg:unused"],
            c_str nm = "arg:".toList ++ n.toList) := by
  refine ⟨by decide, ?_⟩
  obtain ⟨arg_params, aux_params, hok, harg, -⟩ :=
    loadParams_split batchNormGraph
      [NDArray.alloc ⟨[3]⟩ Context.init, NDArray.alloc ⟨[3]⟩ Context.init,
        NDArray.alloc ⟨[3]⟩ Context.init]
      ["arg:gamma", "aux:moving_mean", "arg:unused"] (by decide)
  exact ⟨arg_params, aux_params, hok, harg⟩

/-- C11 (defect of the code).  The parsed graph has no node, so the list of its internal
output names is empty; the one requested key `fc1` has no internal output named
`fc1_output`.  The search loop makes no iteration, its check is never reached, the output
selection returns a regrouped graph and MXPredCreatePartialOut returns success with a
session instead of failing. -/
theorem partial_out_accepts_unmatched_key :
    (emptyGraphLib.GetInternals Symbol.init).ListOutputNames = [] ∧
    searchOutput [] (std_string "fc1" ++ "_output") 0 0 = .ok none ∧
    (∃ sym, selectOutputs emptyGraphLib Symbol.init ["fc1"] = .ok sym) ∧
    createdUnmatched.status = .success ∧
    createdUnmatched.out.isSome = true :=
  ⟨by decide, rfl, ⟨_, rfl⟩, by decide, by decide⟩

/-- C12.  For caller arrays that hold one key and one slice per declared input, the shape
table is built without fault, and the vector `in_shapes` that Create and Reshape hand to
shape inference has one entry per graph input, in the order of all inputs: the unknown
shape for an input that no key names, and for an input named by a key the slice
`input_shape_data[indptr[i] .. indptr[i + 1])` of that key (of the last such key when
several keys name the input). -/
theorem in_shapes_declared (sym : Symbol) (input_keys : List String) (indptr data : List Nat)
    (hlen : input_keys.length + 1 ≤ indptr.length)
    (hmono : ∀ (i b e : Nat), i < input_keys.length → indptr[i]? = some b →
      indptr[i + 1]? = some e → b ≤ e ∧ e ≤ data.length) :
    ∃ table, shapeTable input_keys indptr data = .ok table ∧
      (in_shapes sym table).length = (sym.ListInputNames .kAll).length ∧
      ∀ (j : Nat) (k : String), (sym.ListInputNames .kAll)[j]? = some k →
        ((∀ key ∈ input_keys, std_string key ≠ k) →
          (in_shapes sym table)[j]? = some ⟨[]⟩) ∧
        (∀ (i : Nat) (key : String) (b e : Nat), input_keys[i]? = some key →
          std_string key = k →
          (∀ (i1 : Nat) (key1 : String), i < i1 → input_keys[i1]? = some key1 →
            std_string key1 ≠ k) →
          indptr[i]? = some b → indptr[i + 1]? = some e →
          (in_shapes sym table)[j]? = some ⟨(data.drop b).take (e - b)⟩) := by
  obtain ⟨table, hok, hfind⟩ := shapeTable_spec input_keys indptr data hlen hmono
  refine ⟨table, hok, by simp [in_shapes], ?_⟩
  intro j k hj
  have hentry : (in_shapes sym table)[j]? =
      some (if table.count k ≠ 0 then (table.find k).getD ⟨[]⟩ else ⟨[]⟩) := by
    simp [in_shapes, hj]
  constructor
  · intro hnone
    rw [hentry]
    have := declaredShape_none input_keys indptr data k hnone input_keys.length
    have hf : table.find k = none := by rw [hfind, this]
    simp [UnorderedMap.count, hf]
  · intro i key b e hkey hname hlast hb he
    rw [hentry]
    have hi : i < input_keys.length := by
      rcases Nat.lt_or_ge i input_keys.length with h1 | h1
      · exact h1
      · simp [List.getElem?_eq_none h1] at hkey
    have := declaredShape_last input_keys indptr data k i key b e hkey hname hlast hb he
      input_keys.length hi
    have hf : table.find k = some ⟨(data.drop b).take (e - b)⟩ := by rw [hfind, this]
    simp [UnorderedMap.count, hf]

/-- Witness for C12: the BatchNorm graph with the one declared input `data`. -/
theorem in_shapes_declared_witness :
    (["data"].length + 1 ≤ [0, 4].length ∧
      ∀ (i b e : Nat), i < ["data"].length → [0, 4][i]? = some b →
        [0, 4][i + 1]? = some e → b ≤ e ∧ e ≤ [1, 3, 4, 4].length) ∧
    ∃ table, shapeTable ["data"] [0, 4] [1, 3, 4, 4] = .ok table ∧
      (in_shapes batchNormGraph table).length =
        (batchNormGraph.ListInputNames .kAll).length ∧
      ∀ (j : Nat) (k : String), (batchNormGraph.ListInputNames .kAll)[j]? = some k →
        ((∀ key ∈ ["data"], std_string key ≠ k) →
          (in_shapes batchNormGraph table)[j]? = some ⟨[]⟩) ∧
        (∀ (i : Nat) (key : String) (b e : Nat), ["data"][i]? = some key →
          std_string key = k →
          (∀ (i1 : Nat) (key1 : String), i < i1 → ["data"][i1]? = some key1 →
            std_string key1 ≠ k) →
          [0, 4][i]? = some b → [0, 4][i + 1]? = some e →
          (in_shapes batchNormGraph table)[j]? =
            some ⟨(([1, 3, 4, 4] : List Nat).drop b).take (e - b)⟩) := by
  have hlen : ["data"].length + 1 ≤ [0, 4].length := by decide
  have hmono : ∀ (i b e : Nat), i < ["data"].length → [0, 4][i]? = some b →
      [0, 4][i + 1]? = some e → b ≤ e ∧ e ≤ [1, 3, 4, 4].length := by
    intro i b e hi hb he
    have hi0 : i = 0 := by simpa using hi
    subst hi0
    simp at hb he
    subst hb he
    decide
  exact ⟨⟨hlen, hmono⟩, in_shapes_declared batchNormGraph ["data"] [0, 4] [1, 3, 4, 4] hlen hmono⟩

/-- C13.  Whenever the body of MXPredCreatePartialOut raises an error the call returns the
failure status, executes `delete ret` on the session under construction and writes no
handle; this is so in particular when the graph is parsed, the parameters are loaded and
shape inference leaves `shape_num_unknown_nodes != 0`.  Every call that returns a failure
status has destroyed the session under construction and written no handle.  A handle is
written only when the call returns success; the session behind it has not been destroyed
and holds the executor that Bind returned for the argument tensors of the session, its
outputs and the inferred output shapes. -/
theorem create_failure_writes_no_handle (lib : Library) (json : Option String)
    (bytes : List Nat) (dev_type dev_id : Int) (input_keys : List String)
    (indptr data : List Nat) (output_keys : List String) :
    (∀ msg, MXPredCreatePartialOut_body lib json bytes dev_type dev_id input_keys indptr data
        output_keys = .error (.error msg) →
      (MXPredCreatePartialOut lib json bytes dev_type dev_id input_keys indptr data
        output_keys).status = .failure msg ∧
      (MXPredCreatePartialOut lib json bytes dev_type dev_id input_keys indptr data
        output_keys).deleted = true ∧
      (MXPredCreatePartialOut lib json bytes dev_type dev_id input_keys indptr data
        output_keys).out = none) ∧
    ((MXPredCreatePartialOut lib json bytes dev_type dev_id input_keys indptr data
        output_keys).status ≠ .success →
      (MXPredCreatePartialOut lib json bytes dev_type dev_id input_keys indptr data
        output_keys).out = none) ∧
    ((MXPredCreatePartialOut lib json bytes dev_type dev_id input_keys indptr data
        output_keys).status.isFailure = true →
      (MXPredCreatePartialOut lib json bytes dev_type dev_id input_keys indptr data
        output_keys).deleted = true ∧
      (MXPredCreatePartialOut lib json bytes dev_type dev_id input_keys indptr data
        output_keys).out = none) ∧
    (∀ js sym0 sym ret0 pdata names arg_params aux_params known_shape shape n,
      json = some js → lib.LoadLegacyJSON (std_string js) = .ok sym0 →
      selectOutputs lib sym0 output_keys = .ok sym →
      loadData lib MXAPIPredictor.init bytes = .ok (ret0, pdata, names) →
      loadParams sym pdata names = .ok (arg_params, aux_params) →
      shapeTable input_keys indptr data = .ok known_shape →
      lib.InferShape sym (in_shapes sym known_shape) = .ok (shape, n) → n ≠ 0 →
      (MXPredCreatePartialOut lib json bytes dev_type dev_id input_keys indptr data
        output_keys).status =
          .failure "The shape information of is not enough to get the shapes" ∧
      (MXPredCreatePartialOut lib json bytes dev_type dev_id input_keys indptr data
        output_keys).deleted = true ∧
      (MXPredCreatePartialOut lib json bytes dev_type dev_id input_keys indptr data
        output_keys).out = none) ∧
    (∀ ret, (MXPredCreatePartialOut lib json bytes dev_type dev_id input_keys indptr data
        output_keys).out = some ret →
      (MXPredCreatePartialOut lib json bytes dev_type dev_id input_keys indptr data
        output_keys).status = .success ∧
      (MXPredCreatePartialOut lib json bytes dev_type dev_id input_keys indptr data
        output_keys).deleted = false ∧
      ∃ sym aux_arrays exec out_shapes,
        lib.Bind sym (Context.Create dev_type dev_id) ret.arg_arrays aux_arrays none =
          .ok exec ∧
        ret.exec = some exec ∧ ret.out_arrays = exec.outputs ∧
        ret.out_shapes = out_shapes ∧ out_shapes.length = sym.idx.outputs.length) := by
  refine ⟨?_, ?_, ?_, ?_, ?_⟩
  · intro msg h
    unfold MXPredCreatePartialOut
    rw [h]
    exact ⟨rfl, rfl, rfl⟩
  · intro h
    unfold MXPredCreatePartialOut at h ⊢
    split
    · rename_i ret0 hb
      rw [hb] at h
      exact absurd rfl h
    · rfl
    · rfl
    · rfl
  · intro h
    unfold MXPredCreatePartialOut at h ⊢
    split
    · rename_i ret0 hb
      rw [hb] at h
      simp [Status.isFailure] at h
    · rename_i hb
      rw [hb] at h
      simp [Status.isFailure] at h
    · exact ⟨rfl, rfl⟩
    · rename_i hb
      rw [hb] at h
      simp [Status.isFailure] at h
  · intro js sym0 sym ret0 pdata names arg_params aux_params known_shape shape n hjs h0 h1 h2
      h3 h4 h5 hn
    obtain ⟨key2arg, hk⟩ := key2arg_loop_total (sym.ListInputNames .kReadOnlyArgs) ret0.key2arg
    have hinf : inferShapes lib sym known_shape =
        .error (.error "The shape information of is not enough to get the shapes") := by
      unfold inferShapes
      rw [h5]
      simp [hn]
    have hbody : MXPredCreatePartialOut_body lib json bytes dev_type dev_id input_keys indptr
        data output_keys =
          .error (.error "The shape information of is not enough to get the shapes") := by
      unfold MXPredCreatePartialOut_body
      subst hjs
      simp only [h0, h1, h2, h3, h4, hk, hinf]
    unfold MXPredCreatePartialOut
    rw [hbody]
    exact ⟨rfl, rfl, rfl⟩
  · intro ret h
    have hb := create_out_some _ _ _ _ _ _ _ _ _ _ h
    obtain ⟨js, sym0, sym, ret0, pdata, names, arg_params, aux_params, known_shape, key2arg,
      arg_shapes, out_shapes, aux_shapes, arg_arrays, aux_arrays, exec, -, -, -, -, -, -,
      -, h6, -, -, h9, hret⟩ := create_body_ok _ _ _ _ _ _ _ _ _ _ hb
    refine ⟨?_, ?_, sym, aux_arrays, exec, out_shapes, ?_, ?_, ?_, ?_, ?_⟩
    · unfold MXPredCreatePartialOut
      rw [hb]
    · unfold MXPredCreatePartialOut
      rw [hb]
    · rw [hret]; exact h9
    · rw [hret]
    · rw [hret]
    · rw [hret]
    · exact (inferShapes_length _ _ _ _ _ _ h6).2.1

/-- Witness for C13: the identity graph created without a declared input shape; shape
inference leaves two entries unknown, the call fails, the session under construction is
deleted and no handle is written. -/
theorem create_failure_writes_no_handle_witness :
    (demoLib.InferShape identityGraph (in_shapes identityGraph UnorderedMap.empty) =
        .ok ([⟨[]⟩, ⟨[]⟩], 2) ∧ (2 : Nat) ≠ 0) ∧
    (createdUnshaped.status =
        .failure "The shape information of is not enough to get the shapes" ∧
      createdUnshaped.deleted = true ∧
      createdUnshaped.out = none) :=
  ⟨⟨rfl, by decide⟩,
    (create_failure_writes_no_handle demoLib (some "identity") [] 1 0 [] [0] [] []).2.2.2.1
      "identity" identityGraph identityGraph MXAPIPredictor.init [] [] UnorderedMap.empty
      UnorderedMap.empty UnorderedMap.empty [⟨[]⟩, ⟨[]⟩] 2 rfl rfl rfl rfl rfl rfl rfl
      (by decide)⟩

/-- Counterexample to C14: a bundle of one tensor named `a`, NUL, `b` with the shape
`[4294967296, 0]` is read back under the name `a` with the dimensions `[0, 0]`; and for a
bundle of 4294967296 tensors `out_length` is 0. -/
theorem ndlist_get_casts_and_cuts :
    (MXNDListCreate oddBundleLib []).status = .success ∧
    (MXNDListCreate oddBundleLib []).out.map
        (fun l => (MXNDListGet l 0).out.map (fun o => (o.out_key, o.out_shape))) =
      some (some ("a", [0, 0])) ∧
    "a" ≠ String.mk ['a', Char.ofNat 0, 'b'] ∧
    ∃ l, MXNDListCreate manyTensorsLib [] = ⟨.success, some l, some 0⟩ := by
  refine ⟨by decide, by decide, by decide, ?_⟩
  obtain ⟨l, hl, -⟩ := NDListCreate_spec manyTensorsLib []
    (List.replicate 4294967296 ⟨⟨[1]⟩, Context.init, [0]⟩) [] rfl
  refine ⟨l, ?_⟩
  rw [hl, List.length_replicate]
  rfl

/-- C14, amended.  For every bundle of `n < 2 ^ 32` named tensors whose values fill their
shapes, MXNDListCreate succeeds with `out_length = n`; `indptr` has `n + 1` entries with
`indptr[0] = 0` and `indptr[i + 1] = indptr[i] + product(shape_i)`; the value buffer has
length `indptr[n]`; and for every `i < n` MXNDListGet(i) succeeds and returns `name_i` read
as a C string (up to its first NUL character, so `name_i` itself when it has none), the
dimensions of `shape_i` each cast to 32 bits (so the dimensions themselves when they are
below `2 ^ 32`) with their number, and the data view that starts at offset `indptr[i]`,
whose first `product(shape_i)` values are `values_i`. -/
theorem ndlist_round_trip (lib : Library) (bytes : List Nat) (arrays : List NDArray)
    (keys : List String) (hload : lib.NDArray_Load bytes = .ok (arrays, keys))
    (hkeys : keys.length = arrays.length)
    (hwf : ∀ nd ∈ arrays, nd.data.length = nd.shape.Size)
    (hn : arrays.length < 2 ^ 32) :
    ∃ l, MXNDListCreate lib bytes = ⟨.success, some l, some arrays.length⟩ ∧
      l.indptr.length = arrays.length + 1 ∧ l.indptr[0]? = some 0 ∧
      l.indptr[arrays.length]? = some l.data.length ∧
      ∀ (i : Nat) (name : String) (nd : NDArray), keys[i]? = some name →
        arrays[i]? = some nd →
        ∃ b o, l.indptr[i]? = some b ∧ l.indptr[i + 1]? = some (b + nd.shape.dims.prod) ∧
          (MXNDListGet l i).status = .success ∧ (MXNDListGet l i).out = some o ∧
          o.out_key = std_string name ∧
          (Char.ofNat 0 ∉ name.toList → o.out_key = name) ∧
          o.out_shape = nd.shape.dims.map (fun d => d % 2 ^ 32) ∧
          ((∀ d ∈ nd.shape.dims, d < 2 ^ 32) → o.out_shape = nd.shape.dims) ∧
          o.out_ndim = nd.shape.dims.length ∧
          o.out_data = l.data.drop b ∧
          o.out_data.take nd.shape.dims.prod = nd.data := by
  obtain ⟨l, hl, hP⟩ := NDListCreate_spec lib bytes arrays keys hload
  have hk : (if keys.length = 0 then List.replicate arrays.length "" else keys) = keys := by
    by_cases h0 : keys.length = 0
    · rw [if_pos h0]
      have ha : arrays.length = 0 := by omega
      rw [ha]
      exact (List.length_eq_zero.mp h0).symm
    · rw [if_neg h0]
  rw [hk] at hP
  refine ⟨l, ?_, hP.2.2.1, hP.2.2.2.1, hP.2.2.2.2.1, ?_⟩
  · rw [hl, Nat.mod_eq_of_lt hn]
  · intro i name nd hname hnd
    obtain ⟨b, hb1, hb2, hb3, hget⟩ :=
      (NDListGet_of_built arrays keys l hP i).2 name nd hname hnd
    have hsize : nd.data.length = nd.shape.Size := hwf nd (List.getElem?_mem hnd)
    refine ⟨b, ⟨std_string name, l.data.drop b, ShapeTypeCast nd.shape, nd.shape.ndim⟩, hb1,
      hb2, ?_, ?_, rfl, ?_, rfl, ?_, rfl, rfl, ?_⟩
    · rw [hget]
    · rw [hget]
    · intro hfree
      exact std_string_of_no_nul name hfree
    · intro hsmall
      exact ShapeTypeCast_of_small nd.shape hsmall
    · show (l.data.drop b).take nd.shape.Size = nd.data
      rw [hb3, copyInto_of_length nd.data nd.shape.Size hsize]

/-- Witness for C14: a bundle of the two tensors `weight` and `bias`. -/
theorem ndlist_round_trip_witness :
    (["weight", "bias"].length =
        [(⟨⟨[2, 2]⟩, Context.init, [1, 2, 3, 4]⟩ : NDArray),
          ⟨⟨[3]⟩, Context.init, [5, 6, 7]⟩].length ∧
      (∀ nd ∈ [(⟨⟨[2, 2]⟩, Context.init, [1, 2, 3, 4]⟩ : NDArray),
          ⟨⟨[3]⟩, Context.init, [5, 6, 7]⟩], nd.data.length = nd.shape.Size) ∧
      [(⟨⟨[2, 2]⟩, Context.init, [1, 2, 3, 4]⟩ : NDArray),
          ⟨⟨[3]⟩, Context.init, [5, 6, 7]⟩].length < 2 ^ 32) ∧
    ∃ l, MXNDListCreate twoTensorsLib [] = ⟨.success, some l, some 2⟩ ∧
      l.indptr.length = 2 + 1 ∧ l.indptr[0]? = some 0 ∧
      l.indptr[2]? = some l.data.length := by
  have h1 : ["weight", "bias"].length =
      [(⟨⟨[2, 2]⟩, Context.init, [1, 2, 3, 4]⟩ : NDArray),
        ⟨⟨[3]⟩, Context.init, [5, 6, 7]⟩].length := by decide
  have h2 : ∀ nd ∈ [(⟨⟨[2, 2]⟩, Context.init, [1, 2, 3, 4]⟩ : NDArray),
      ⟨⟨[3]⟩, Context.init, [5, 6, 7]⟩], nd.data.length = nd.shape.Size := by decide
  have h3 : [(⟨⟨[2, 2]⟩, Context.init, [1, 2, 3, 4]⟩ : NDArray),
      ⟨⟨[3]⟩, Context.init, [5, 6, 7]⟩].length < 2 ^ 32 := by decide
  obtain ⟨l, hl, ha, hb, hc, -⟩ := ndlist_round_trip twoTensorsLib [] _ _ rfl h1 h2 h3
  exact ⟨⟨h1, h2, h3⟩, l, hl, ha, hb, hc⟩

/-- C15.  For the list decoded from a bundle of `n` tensors that comes with `n` names or
with none, `keys` and `shapes` have `n` entries and `indptr` has `n + 1`; MXNDListGet(index)
returns a failure status exactly when `index >= n`, succeeds when `index < n`, and never
reads `keys`, `shapes` or `indptr` out of range. -/
theorem ndlist_get_bounds_checked (lib : Library) (bytes : List Nat) (arrays : List NDArray)
    (keys : List String) (hload : lib.NDArray_Load bytes = .ok (arrays, keys))
    (hkeys : keys.length = 0 ∨ keys.length = arrays.length) :
    ∃ l, (MXNDListCreate lib bytes).status = .success ∧
      (MXNDListCreate lib bytes).out = some l ∧
      l.keys.length = arrays.length ∧ l.shapes.length = arrays.length ∧
      l.indptr.length = arrays.length + 1 ∧
      ∀ index : Nat,
        ((MXNDListGet l index).status.isFailure = true ↔ arrays.length ≤ index) ∧
        (index < arrays.length → (MXNDListGet l index).status = .success) ∧
        (MXNDListGet l index).status ≠ .undefined := by
  obtain ⟨l, hl, hP⟩ := NDListCreate_spec lib bytes arrays keys hload
  have hklen : (if keys.length = 0 then List.replicate arrays.length "" else keys).length =
      arrays.length := by
    by_cases h0 : keys.length = 0
    · rw [if_pos h0]; simp
    · rw [if_neg h0]
      rcases hkeys with h | h
      · exact absurd h h0
      · exact h
  have hsucc : ∀ index : Nat, index < arrays.length →
      (MXNDListGet l index).status = .success := by
    intro index hi
    have hi2 : index <
        (if keys.length = 0 then List.replicate arrays.length "" else keys).length := by
      omega
    obtain ⟨b, -, -, -, hget⟩ := (NDListGet_of_built arrays _ l hP index).2 _ _
      (List.getElem?_eq_getElem hi2) (List.getElem?_eq_getElem hi)
    rw [hget]
  refine ⟨l, by rw [hl], by rw [hl], ?_, ?_, hP.2.2.1, ?_⟩
  · rw [hP.1]; exact hklen
  · rw [hP.2.1]; simp
  · intro index
    rcases Nat.lt_or_ge index arrays.length with hi | hi
    · have hs := hsucc index hi
      refine ⟨?_, fun _ => hs, ?_⟩
      · rw [hs]
        constructor
        · intro h; simp [Status.isFailure] at h
        · intro h; omega
      · rw [hs]; simp
    · have hf := (NDListGet_of_built arrays _ l hP index).1 hi
      refine ⟨?_, fun h => by omega, ?_⟩
      · rw [hf]
        simp [Status.isFailure]
        exact hi
      · rw [hf]; simp

/-- Witness for C15: a bundle of the two tensors `weight` and `bias`. -/
theorem ndlist_get_bounds_checked_witness :
    (["weight", "bias"].length = 0 ∨ ["weight", "bias"].length =
        [(⟨⟨[2, 2]⟩, Context.init, [1, 2, 3, 4]⟩ : NDArray),
          ⟨⟨[3]⟩, Context.init, [5, 6, 7]⟩].length) ∧
    ∃ l, (MXNDListCreate twoTensorsLib []).status = .success ∧
      (MXNDListCreate twoTensorsLib []).out = some l ∧
      l.keys.length = 2 ∧ l.shapes.length = 2 ∧ l.indptr.length = 2 + 1 ∧
      ∀ index : Nat,
        ((MXNDListGet l index).status.isFailure = true ↔ 2 ≤ index) ∧
        (index < 2 → (MXNDListGet l index).status = .success) ∧
        (MXNDListGet l index).status ≠ .undefined :=
  ⟨Or.inr (by decide),
    ndlist_get_bounds_checked twoTensorsLib [] _ _ rfl (Or.inr (by decide))⟩

/-- Counterexample to C16: on a machine with two CPU buckets the pinned-memory devices 0 and
1, two distinct valid devices, are both placed in bucket 2; and for a profiler with
2147483648 CPU buckets the index of the pinned bucket is negative as an `int`, so that
AddOprStat indexes the bucket array out of range. -/
theorem pinned_devices_share_bucket :
    ((Context.kCPUPinned, 0) : Int × Nat) ≠ (Context.kCPUPinned, 1) ∧
    AddOprStat_idx demoProfiler Context.kCPUPinned 0 = .ok 2 ∧
    AddOprStat_idx demoProfiler Context.kCPUPinned 1 = .ok 2 ∧
    (runOps demoEnv demoProfiler
        [(0, .AddOprStat Context.kCPUPinned 0), (0, .AddOprStat Context.kCPUPinned 1)]
      ).toOption.map (fun p => p.profile_stat.map (fun d => d.opr_exec_stats_)) =
      some [[], [], [some 0, some 1]] ∧
    AddOprStat_idx hugeProfiler Context.kCPUPinned 0 = .ok (-2147483648) ∧
    hugeProfiler.AddOprStat demoEnv Context.kCPUPinned 0 = .error .undefined :=
  ⟨by decide, rfl, rfl, by decide, rfl, rfl⟩

/-- C16, amended.  For a reachable profiler whose bucket count fits an `int`
(`cpuCount + gpuCount < 2 ^ 31`), AddOprStat(dev_type, dev_id) on a device that has a
bucket (bucket `dev_id` for a CPU device with `dev_id < cpuCount`, bucket
`cpuCount + dev_id` for a GPU device with `dev_id < gpuCount`, bucket `cpuCount + gpuCount`
for pinned host memory with any device id) allocates the new span record and appends its
pointer to the queue of that bucket: exactly that bucket gains exactly one record and
every other bucket is unchanged.  For any other device type the call fails fatally and
enqueues nothing.  Two devices that have the same bucket are the same device, or are both
pinned host memory. -/
theorem addOprStat_places_record (env : ProfilerEnv) (p : Profiler)
    (hreach : ProfilerReached env p) (hfit : p.cpu_num_ + p.gpu_num_ < 2 ^ 31) :
    (∀ (dev_type : Int) (dev_id idx : Nat), bucketOf p dev_type dev_id = some idx →
      ∃ d p1, p.profile_stat[idx]? = some d ∧
        p.AddOprStat env dev_type dev_id = .ok (p1, p.records.length) ∧
        p1.records = p.records ++
          [{ env.new_OprExecStat with
              category := "generic", dev_type := dev_type, dev_id := dev_id
              opr_name := "undefined" }] ∧
        p1.profile_stat.length = p.profile_stat.length ∧
        p1.profile_stat[idx]? =
          some { d with opr_exec_stats_ := d.opr_exec_stats_ ++ [some p.records.length] } ∧
        ∀ j : Nat, j ≠ idx → p1.profile_stat[j]? = p.profile_stat[j]?) ∧
    (∀ (dev_type : Int) (dev_id : Nat), dev_type ≠ Context.kCPU → dev_type ≠ Context.kGPU →
      dev_type ≠ Context.kCPUPinned →
      ∃ msg, p.AddOprStat env dev_type dev_id = .error (.error msg)) ∧
    (∀ (t1 t2 : Int) (i1 i2 idx : Nat), bucketOf p t1 i1 = some idx →
      bucketOf p t2 i2 = some idx →
      (t1 = t2 ∧ i1 = i2) ∨ (t1 = Context.kCPUPinned ∧ t2 = Context.kCPUPinned)) := by
  have hwf := reached_wf env p hreach
  refine ⟨?_, ?_, ?_⟩
  · intro dev_type dev_id idx hb
    obtain ⟨d, hd, hadd⟩ := addOprStat_bucket env p dev_type dev_id idx hwf hfit hb
    have hi : idx < p.profile_stat.length := by
      rcases Nat.lt_or_ge idx p.profile_stat.length with h1 | h1
      · exact h1
      · simp [List.getElem?_eq_none h1] at hd
    refine ⟨d, _, hd, hadd, rfl, by simp, ?_, ?_⟩
    · simp [List.getElem?_set_self hi]
    · intro j hj
      simp [List.getElem?_set_ne (Ne.symm hj)]
  · intro dev_type dev_id h1 h2 h3
    exact ⟨_, addOprStat_unknown env p dev_type dev_id h1 h2 h3⟩
  · intro t1 t2 i1 i2 idx h1 h2
    exact bucketOf_inj p t1 t2 i1 i2 idx h1 h2

/-- Witness for C16: the profiler of a machine with two hardware threads. -/
theorem addOprStat_places_record_witness :
    (ProfilerReached demoEnv demoProfiler ∧
      demoProfiler.cpu_num_ + demoProfiler.gpu_num_ < 2 ^ 31) ∧
    ∃ d p1, demoProfiler.profile_stat[1]? = some d ∧
      demoProfiler.AddOprStat demoEnv Context.kCPU 1 =
        .ok (p1, demoProfiler.records.length) ∧
      p1.profile_stat[1]? =
        some { d with
          opr_exec_stats_ := d.opr_exec_stats_ ++ [some demoProfiler.records.length] } := by
  have hr : ProfilerReached demoEnv demoProfiler := ProfilerReached.new 0 _ rfl
  have hf : demoProfiler.cpu_num_ + demoProfiler.gpu_num_ < 2 ^ 31 := by decide
  obtain ⟨d, p1, h1, h2, -, -, h5, -⟩ :=
    (addOprStat_places_record demoEnv demoProfiler hr hf).1 Context.kCPU 1 1 (by decide)
  exact ⟨⟨hr, hf⟩, d, p1, h1, h2, h5⟩

/-- Counterexample to C17: on the profiler of a machine with two hardware threads, started
at clock reading 0, a span is created at reading 10 and begun at reading 100; the profiler
is started again at reading 150, which sets `init_time_` to 150; the span is ended at
reading 160.  The clock never decreases, and the span is recorded with start offset 100
and end offset 10. -/
theorem restart_inside_span_breaks_order :
    MonotoneClock 0 160
      [(10, .AddOprStat Context.kCPU 0), (100, .SetOprStart (some 0)),
       (150, .SetState .kRunning), (160, .SetOprEnd (some 0))] ∧
    (runOps demoEnv demoProfiler
        [(10, .AddOprStat Context.kCPU 0), (100, .SetOprStart (some 0)),
         (150, .SetState .kRunning), (160, .SetOprEnd (some 0))]
      ).toOption.map (fun p =>
        p.records.map (fun r => (r.opr_start_rel_micros, r.opr_end_rel_micros))) =
      some [(100, 10)] :=
  ⟨by simp [MonotoneClock], by decide⟩

/-- C17, amended.  Let the span `ptr` be begun by SetOprStart at clock reading `t1`, not
before `init_time_`, and ended by SetOprEnd at the 64-bit clock reading `t2`, and let the
operations `ops` in between (SetState, SetConfig, AddOprStat and the operations on span
records), run under a clock that never decreases, contain no SetState(kRunning) and no
other start or end of that span.  Then the span is recorded with start offset
`t1 - init_time_` and end offset `t2 - init_time_`, so that the end offset is not less
than the start offset. -/
theorem span_end_not_before_start (env : ProfilerEnv) (p p1 p2 p3 : Profiler)
    (ptr t1 t2 : Nat) (ops : List (Nat × ProfilerOp))
    (hinit : p.init_time_ ≤ t1) (hclock : MonotoneClock t1 t2 ops) (ht2 : t2 < 2 ^ 64)
    (hstart : SetOprStart p (some ptr) t1 = .ok p1)
    (hops : runOps env p1 ops = .ok p2)
    (hother : ∀ x ∈ ops, x.2 ≠ .SetState .kRunning ∧ x.2 ≠ .SetOprStart (some ptr) ∧
      x.2 ≠ .SetOprEnd (some ptr))
    (hend : SetOprEnd p2 (some ptr) t2 = .ok p3) :
    ∃ r, p3.records[ptr]? = some r ∧
      r.opr_start_rel_micros = t1 - p.init_time_ ∧
      r.opr_end_rel_micros = t2 - p.init_time_ ∧
      r.opr_start_rel_micros ≤ r.opr_end_rel_micros := by
  have h12 : t1 ≤ t2 := MonotoneClock_le ops t1 t2 hclock
  simp only [SetOprStart] at hstart
  split at hstart
  · simp at hstart
  · rename_i r0 hr0
    simp at hstart
    subst hstart
    have hlt : ptr < p.records.length := by
      rcases Nat.lt_or_ge ptr p.records.length with h1 | h1
      · exact h1
      · simp [List.getElem?_eq_none h1] at hr0
    obtain ⟨hi, r2, hr2, hs2, -⟩ := runOps_frame env ptr ops _ p2 _ hops hother
      (List.getElem?_set_self hlt)
    simp only at hi hs2
    simp only [SetOprEnd, hr2] at hend
    simp at hend
    subst hend
    have hlt2 : ptr < p2.records.length := by
      rcases Nat.lt_or_ge ptr p2.records.length with h1 | h1
      · exact h1
      · simp [List.getElem?_eq_none h1] at hr2
    refine ⟨_, List.getElem?_set_self hlt2, ?_, ?_, ?_⟩
    · simp only [hs2]
      exact sub64_eq t1 p.init_time_ hinit (Nat.lt_of_le_of_lt h12 ht2)
    · simp only [hi]
      exact sub64_eq t2 p.init_time_ (Nat.le_trans hinit h12) ht2
    · simp only [hs2, hi]
      rw [sub64_eq t1 p.init_time_ hinit (Nat.lt_of_le_of_lt h12 ht2),
        sub64_eq t2 p.init_time_ (Nat.le_trans hinit h12) ht2]
      exact Nat.sub_le_sub_right h12 _

/-- Witness for C17: a span on CPU 0 begun at reading 100 and ended at reading 160, with a
SetConfig, a stop of the profiler and a second span in between. -/
theorem span_end_not_before_start_witness :
    (demoAfter [(10, .AddOprStat Context.kCPU 0)]).init_time_ ≤ 100 ∧
    MonotoneClock 100 160
      [(120, .SetConfig 0 "trace.json"), (130, .SetState .kNotRunning),
       (140, .AddOprStat Context.kCPU 1), (150, .SetOprStart (some 1))] ∧
    ∃ r, (demoAfter
        [(10, .AddOprStat Context.kCPU 0), (100, .SetOprStart (some 0)),
         (120, .SetConfig 0 "trace.json"), (130, .SetState .kNotRunning),
         (140, .AddOprStat Context.kCPU 1), (150, .SetOprStart (some 1)),
         (160, .SetOprEnd (some 0))]).records[0]? = some r ∧
      r.opr_start_rel_micros = 100 - (demoAfter [(10, .AddOprStat Context.kCPU 0)]).init_time_ ∧
      r.opr_end_rel_micros = 160 - (demoAfter [(10, .AddOprStat Context.kCPU 0)]).init_time_ ∧
      r.opr_start_rel_micros ≤ r.opr_end_rel_micros :=
  ⟨by decide, by simp [MonotoneClock],
    span_end_not_before_start demoEnv
      (demoAfter [(10, .AddOprStat Context.kCPU 0)])
      (demoAfter [(10, .AddOprStat Context.kCPU 0), (100, .SetOprStart (some 0))])
      (demoAfter
        [(10, .AddOprStat Context.kCPU 0), (100, .SetOprStart (some 0)),
         (120, .SetConfig 0 "trace.json"), (130, .SetState .kNotRunning),
         (140, .AddOprStat Context.kCPU 1), (150, .SetOprStart (some 1))])
      (demoAfter
        [(10, .AddOprStat Context.kCPU 0), (100, .SetOprStart (some 0)),
         (120, .SetConfig 0 "trace.json"), (130, .SetState .kNotRunning),
         (140, .AddOprStat Context.kCPU 1), (150, .SetOprStart (some 1)),
         (160, .SetOprEnd (some 0))])
      0 100 160
      [(120, .SetConfig 0 "trace.json"), (130, .SetState .kNotRunning),
       (140, .AddOprStat Context.kCPU 1), (150, .SetOprStart (some 1))]
      (by decide) (by simp [MonotoneClock]) (by decide) rfl rfl (by decide) rfl⟩

/-- C18.  For every reachable profiler, in particular after any sequence of AddOprStat
calls, DumpProfile returns as soon as its `while` loops may test their condition more often
than records are queued: the drain terminates.  Afterwards the state is kNotRunning, the
bucket counts are unchanged, and every one of the `cpuCount + gpuCount + 1` buckets has an
empty queue. -/
theorem dump_empties_queues (env : ProfilerEnv) (p : Profiler) (now : Nat)
    (hreach : ProfilerReached env p) :
    ∃ r : DumpResult,
      (∀ fuel, totalQueued p < fuel → p.DumpProfile env fuel now = some (.ok r)) ∧
      r.profiler.state_ = .kNotRunning ∧
      r.profiler.cpu_num_ = p.cpu_num_ ∧ r.profiler.gpu_num_ = p.gpu_num_ ∧
      r.profiler.profile_stat.length = p.cpu_num_ + p.gpu_num_ + 1 ∧
      ∀ d ∈ r.profiler.profile_stat, d.opr_exec_stats_ = [] := by
  have hwf := reached_wf env p hreach
  refine ⟨_, fun fuel hfuel => dump_spec env p fuel now hwf hfuel, rfl, rfl, rfl, ?_, ?_⟩
  · simp only [List.length_map]
    exact hwf.1
  · intro d hd
    simp only [List.mem_map] at hd
    obtain ⟨d0, -, h0⟩ := hd
    subst h0
    rfl

/-- Witness for C18: the profiler of a machine with two hardware threads after three
AddOprStat calls. -/
theorem dump_empties_queues_witness :
    ProfilerReached demoEnv
      (demoAfter [(10, .AddOprStat Context.kCPU 0), (20, .AddOprStat Context.kCPUPinned 0),
        (30, .AddOprStat Context.kCPU 0)]) ∧
    ∃ r : DumpResult,
      (∀ fuel,
        totalQueued (demoAfter [(10, .AddOprStat Context.kCPU 0),
          (20, .AddOprStat Context.kCPUPinned 0), (30, .AddOprStat Context.kCPU 0)]) < fuel →
        (demoAfter [(10, .AddOprStat Context.kCPU 0), (20, .AddOprStat Context.kCPUPinned 0),
          (30, .AddOprStat Context.kCPU 0)]).DumpProfile demoEnv fuel 40 = some (.ok r)) ∧
      r.profiler.state_ = .kNotRunning ∧
      r.profiler.cpu_num_ = 2 ∧ r.profiler.gpu_num_ = 0 ∧
      r.profiler.profile_stat.length = 2 + 0 + 1 ∧
      ∀ d ∈ r.profiler.profile_stat, d.opr_exec_stats_ = [] :=
  ⟨demoAfter_reached _, dump_empties_queues demoEnv _ 40 (demoAfter_reached _)⟩

/-- C19.  For every reachable profiler DumpProfile builds this `traceEvents` list: first the
process-metadata record (`ph` "M") of every bucket, `cpuCount + gpuCount + 1` records in
bucket order; then, bucket after bucket in index order and record after record in queue
order, for every queued span record its begin event immediately followed by its end event.
The begin event has `ph` "B" and the start offset as `ts`, the end event has `ph` "E" and
the end offset as `ts`, and both have the same name, category, pid, tid and args.  The list
has `cpuCount + gpuCount + 1 + 2 * (number of queued records)` entries. -/
theorem dump_trace_events (env : ProfilerEnv) (p : Profiler) (now : Nat)
    (hreach : ProfilerReached env p) :
    ∃ r : DumpResult,
      (∀ fuel, totalQueued p < fuel → p.DumpProfile env fuel now = some (.ok r)) ∧
      r.trace_events =
        p.profile_stat.map (emitPid env) ++ p.profile_stat.flatMap (spanEvents env p.records) ∧
      (p.profile_stat.map (emitPid env)).length = p.cpu_num_ + p.gpu_num_ + 1 ∧
      (∀ d, (emitPid env d).ph = "M") ∧
      (∀ d ∈ p.profile_stat, ∃ rs : List OprExecStat,
        d.opr_exec_stats_.map (fun e => e.bind (fun ptr => p.records[ptr]?)) = rs.map some ∧
        spanEvents env p.records d =
          rs.flatMap (fun s => [emitEvent env d s "B", emitEvent env d s "E"])) ∧
      (∀ (d : DevStat) (s : OprExecStat),
        (emitEvent env d s "B").ph = "B" ∧
        (emitEvent env d s "B").ts = some s.opr_start_rel_micros ∧
        (emitEvent env d s "E").ph = "E" ∧
        (emitEvent env d s "E").ts = some s.opr_end_rel_micros ∧
        (emitEvent env d s "B").name = (emitEvent env d s "E").name ∧
        (emitEvent env d s "B").cat = (emitEvent env d s "E").cat ∧
        (emitEvent env d s "B").pid = (emitEvent env d s "E").pid ∧
        (emitEvent env d s "B").tid = (emitEvent env d s "E").tid ∧
        (emitEvent env d s "B").args = (emitEvent env d s "E").args) ∧
      r.trace_events.length = p.cpu_num_ + p.gpu_num_ + 1 + 2 * totalQueued p := by
  have hwf := reached_wf env p hreach
  refine ⟨_, fun fuel hfuel => dump_spec env p fuel now hwf hfuel, rfl, ?_, fun _ => rfl, ?_,
    ?_, traceOf_length env p hwf⟩
  · rw [List.length_map]
    exact hwf.1
  · intro d hd
    obtain ⟨rs, h1, -, h3⟩ := spanEvents_queue env p.records d d.opr_exec_stats_ (hwf.2.2 d hd)
    exact ⟨rs, h1, h3⟩
  · intro d s
    refine ⟨rfl, ?_, rfl, ?_, rfl, rfl, rfl, rfl, rfl⟩
    · simp [emitEvent]
    · simp [emitEvent]

/-- Witness for C19: the profiler of a machine with two hardware threads with a span on
CPU 1 from 100 to 160 and a span on CPU 0 from 120 to 130. -/
theorem dump_trace_events_witness :
    ProfilerReached demoEnv
      (demoAfter [(10, .AddOprStat Context.kCPU 1), (20, .AddOprStat Context.kCPU 0),
        (100, .SetOprStart (some 0)), (120, .SetOprStart (some 1)),
        (130, .SetOprEnd (some 1)), (160, .SetOprEnd (some 0))]) ∧
    ∃ r : DumpResult,
      (demoAfter [(10, .AddOprStat Context.kCPU 1), (20, .AddOprStat Context.kCPU 0),
        (100, .SetOprStart (some 0)), (120, .SetOprStart (some 1)),
        (130, .SetOprEnd (some 1)), (160, .SetOprEnd (some 0))]).DumpProfile demoEnv 3 170 =
        some (.ok r) ∧
      r.trace_events.map (fun e => (e.ph, e.pid, e.ts)) =
        [("M", 0, none), ("M", 1, none), ("M", 0, none),
         ("B", 0, some 120), ("E", 0, some 130), ("B", 1, some 100), ("E", 1, some 160)] ∧
      r.trace_events.length = 2 + 0 + 1 + 2 * 2 := by
  obtain ⟨r, h1, h2, -, -, -, -, h7⟩ := dump_trace_events demoEnv
    (demoAfter [(10, .AddOprStat Context.kCPU 1), (20, .AddOprStat Context.kCPU 0),
      (100, .SetOprStart (some 0)), (120, .SetOprStart (some 1)),
      (130, .SetOprEnd (some 1)), (160, .SetOprEnd (some 0))]) 170 (demoAfter_reached _)
  refine ⟨demoAfter_reached _, r, h1 3 (by decide), ?_, h7⟩
  rw [h2]
  decide

/-- C20.  SetState(s) sets the state to `s` and leaves the output filename, the capture
mode, the bucket counts, the buckets and the span records unchanged.  SetState(kRunning)
also enables output and sets `init_time_` to the clock reading; SetState(kNotRunning)
changes nothing but the state, so `init_time_` and the output flag stay.  SetConfig changes
only the mode and the filename.  After SetState(kRunning) at the clock reading `now`,
whatever operations other than a further SetState(kRunning) follow, a span begun at the
64-bit clock reading `t`, not before `now`, is recorded with start offset `t - now`. -/
theorem setState_setConfig_frame (env : ProfilerEnv) (p : Profiler) (now : Nat) :
    (∀ s : ProfilerState,
      (p.SetState s now).state_ = s ∧
      (p.SetState s now).filename_ = p.filename_ ∧
      (p.SetState s now).mode_ = p.mode_ ∧
      (p.SetState s now).cpu_num_ = p.cpu_num_ ∧
      (p.SetState s now).gpu_num_ = p.gpu_num_ ∧
      (p.SetState s now).profile_stat = p.profile_stat ∧
      (p.SetState s now).records = p.records) ∧
    p.SetState .kRunning now =
      { p with state_ := .kRunning, enable_output_ := true, init_time_ := now % 2 ^ 64 } ∧
    p.SetState .kNotRunning now = { p with state_ := .kNotRunning } ∧
    (∀ (mode : Int) (output_filename : String),
      p.SetConfig mode output_filename =
        { p with mode_ := mode, filename_ := output_filename }) ∧
    (∀ (ops : List (Nat × ProfilerOp)) (p1 p2 : Profiler) (ptr t : Nat),
      MonotoneClock now t ops → t < 2 ^ 64 →
      runOps env (p.SetState .kRunning now) ops = .ok p1 →
      (∀ x ∈ ops, x.2 ≠ .SetState .kRunning) →
      SetOprStart p1 (some ptr) t = .ok p2 →
      ∃ r, p2.records[ptr]? = some r ∧ r.opr_start_rel_micros = t - now) := by
  refine ⟨?_, rfl, rfl, fun _ _ => rfl, ?_⟩
  · intro s
    cases s with
    | kNotRunning => exact ⟨rfl, rfl, rfl, rfl, rfl, rfl, rfl⟩
    | kRunning => exact ⟨rfl, rfl, rfl, rfl, rfl, rfl, rfl⟩
  · intro ops p1 p2 ptr t hclock ht hops hno hstart
    have hle : now ≤ t := MonotoneClock_le ops now t hclock
    have hinit := runOps_init_time env ops _ p1 hops hno
    have hnow : now % 2 ^ 64 = now := Nat.mod_eq_of_lt (Nat.lt_of_le_of_lt hle ht)
    have hi : p1.init_time_ = now := by
      rw [hinit]
      exact hnow
    simp only [SetOprStart] at hstart
    split at hstart
    · simp at hstart
    · rename_i r0 hr0
      simp at hstart
      subst hstart
      have hlt : ptr < p1.records.length := by
        rcases Nat.lt_or_ge ptr p1.records.length with h1 | h1
        · exact h1
        · simp [List.getElem?_eq_none h1] at hr0
      refine ⟨_, List.getElem?_set_self hlt, ?_⟩
      simp only [hi]
      exact sub64_eq t now hle ht

/-- Witness for C20: the profiler of a machine with two hardware threads is started at
clock reading 50; a span created at 60 and begun at 75, after a stop of the profiler at 70,
has start offset 25. -/
theorem setState_setConfig_frame_witness :
    MonotoneClock 50 75 [(60, .AddOprStat Context.kCPU 0), (70, .SetState .kNotRunning)] ∧
    ∃ r, (demoAfter [(50, .SetState .kRunning), (60, .AddOprStat Context.kCPU 0),
        (70, .SetState .kNotRunning), (75, .SetOprStart (some 0))]).records[0]? = some r ∧
      r.opr_start_rel_micros = 75 - 50 :=
  ⟨by simp [MonotoneClock],
    (setState_setConfig_frame demoEnv demoProfiler 50).2.2.2.2
      [(60, .AddOprStat Context.kCPU 0), (70, .SetState .kNotRunning)]
      (demoAfter [(50, .SetState .kRunning), (60, .AddOprStat Context.kCPU 0),
        (70, .SetState .kNotRunning)])
      (demoAfter [(50, .SetState .kRunning), (60, .AddOprStat Context.kCPU 0),
        (70, .SetState .kNotRunning), (75, .SetOprStart (some 0))])
      0 75 (by simp [MonotoneClock]) (by decide) rfl (by decide) rfl⟩

/-- C22 (defect of the code).  The constructor on a machine with two hardware threads and no
GPU support allocates `2 + 0 + 1 = 3` buckets.  AddOprStat computes the index from the
device id without comparing it with the number of buckets: for the CPU device 3 and for
the GPU device 1 the index is 3, and for the CPU device 4294967295 it is -1 as an `int`;
in each case `profile_stat[idx]` is an access outside the array. -/
theorem addOprStat_index_unchecked :
    Profiler.new demoEnv 0 = .ok demoProfiler ∧
    demoProfiler.profile_stat.length = demoProfiler.cpu_num_ + demoProfiler.gpu_num_ + 1 ∧
    demoProfiler.cpu_num_ + demoProfiler.gpu_num_ + 1 = 3 ∧
    AddOprStat_idx demoProfiler Context.kCPU 3 = .ok 3 ∧
    demoProfiler.AddOprStat demoEnv Context.kCPU 3 = .error .undefined ∧
    AddOprStat_idx demoProfiler Context.kGPU 1 = .ok 3 ∧
    demoProfiler.AddOprStat demoEnv Context.kGPU 1 = .error .undefined ∧
    AddOprStat_idx demoProfiler Context.kCPU 4294967295 = .ok (-1) ∧
    demoProfiler.AddOprStat demoEnv Context.kCPU 4294967295 = .error .undefined :=
  ⟨rfl, by decide, by decide, rfl, rfl, rfl, rfl, rfl, rfl⟩

end MXPredict
